import Mathlib

/-!
# The UI configuration tool: store, transformer, exchange and clients

A shallow embedding of `ui-config-tool/src/utils/configManager.js` (class `ConfigManager`,
the store of providers and models), of `ui-config-tool/src/utils/ConfigTransformer.js`
(class `ConfigTransformer`, the mapping to the TaskMaster documents), of the two exchange
methods of `ui-config-tool/src/components/SaveConfig.js` and of the method `getClient` of
the provider classes in `src/ai-providers`.

Modelling conventions.

* A JavaScript array is a `List`; `push` appends at the end, `filter`, `some`, `find`,
  `findIndex`, `splice(index, 1)` and `xs[index] = v` are `List.filter`, `List.any`,
  `List.find?`, `List.findIdx?`, `List.eraseIdx` and `List.set`.
* Records are values: the fields the code always reads as strings are `String`, the fields it
  guards with `?.`, `||` or a truthiness test are `Option`. Numbers are rationals (no NaN, no
  infinities); the division of the export is exact, the product of the import is rounded to
  the nearest double as the code does (`nearestDouble`).
* A method of `ConfigManager` is a function from the state before the call to the outcome of
  the call paired with the state after it. A `throw` ends the call with `Except.error`, and
  the state that is returned with it is the state at the point of the `throw`.
* `localStorage` is part of the state; `setItem` always succeeds. The value stored under the
  configuration key is kept as the object handed to `JSON.stringify`.
* `new Date().toISOString()` is the argument `now` of the methods that persist.
* The methods are `async` but run without interleaving: one call is one step.
* The file dialogs of `SaveConfig` are arguments: the outcome of reading each document and
  the outcome of writing each file.
-/

namespace UiConfig

/-! ## Data model -/

/-- The `costPer1MTokens` object of an editor model; either number may be `null`. -/
structure CostPer1MTokens where
  input : Option ℚ
  output : Option ℚ
  deriving DecidableEq

/-- A provider record `{id, name, endpoint, apiKey, type, isValid}`. -/
structure Provider where
  id : String
  name : String
  endpoint : String
  apiKey : String
  type : String
  isValid : Bool
  deriving DecidableEq

/-- A model record of the editor representation. `sweScore`, `maxTokens`,
`costPer1MTokens` and `allowedRoles` may be `null` or missing (`none`). -/
structure Model where
  id : String
  name : String
  providerId : String
  modelId : String
  sweScore : Option ℚ
  maxTokens : Option ℚ
  costPer1MTokens : Option CostPer1MTokens
  allowedRoles : Option (List String)
  deriving DecidableEq

/-! ## Validator (`validation.js`, not among the sources) -/

/-- The object `{isValid, errors}` returned by the validator. -/
structure ValidationResult where
  isValid : Bool
  errors : List String
  deriving DecidableEq

/-- The two methods of class `Validation` that `ConfigManager` calls. The class is imported
from `./validation.js`; the store is verified for every pair of such functions. -/
structure Validation where
  validateProvider : Provider → ValidationResult
  validateModel : Model → ValidationResult

/-- The fixed role set of the data model. -/
def roleSet : List String := ["main", "fallback", "research"]

/-- The violations of a number that must be non-negative when present. -/
def nonNegative (field : String) : Option ℚ → List String
  | some v => if v < 0 then [field ++ " must be non-negative"] else []
  | none => []

/-- Modelled from the spec: `validateProvider` of `validation.js`, which is missing from the
sources. Section 4.1: required fields present, `name` non-empty; all violations are returned. -/
def specValidateProvider (p : Provider) : ValidationResult :=
  let errors := if p.name = "" then ["name is required"] else []
  { isValid := errors.isEmpty, errors := errors }

/-- Modelled from the spec: `validateModel` of `validation.js`, which is missing from the
sources. Section 4.1: `modelId` non-empty, numeric fields (if present) non-negative,
`allowedRoles` a subset of the fixed role set; all violations are returned. -/
def specValidateModel (m : Model) : ValidationResult :=
  let errors :=
    (if m.modelId = "" then ["modelId is required"] else [])
    ++ nonNegative "sweScore" m.sweScore
    ++ nonNegative "maxTokens" m.maxTokens
    ++ (match m.costPer1MTokens with
        | some c => nonNegative "costPer1MTokens.input" c.input
                    ++ nonNegative "costPer1MTokens.output" c.output
        | none => [])
    ++ (match m.allowedRoles with
        | some roles => if roles.all (fun r => roleSet.contains r) then []
                        else ["allowedRoles must be a subset of the role set"]
        | none => [])
  { isValid := errors.isEmpty, errors := errors }

/-- Modelled from the spec: the validator of `validation.js`, which is missing from the
sources, as section 4.1 describes it. It is used to instantiate the theorems only. -/
def specValidation : Validation :=
  { validateProvider := specValidateProvider, validateModel := specValidateModel }

/-! ## Store (`configManager.js`) -/

/-- The errors thrown by the methods of `ConfigManager`, one constructor per `throw`. -/
inductive StoreError where
  /-- Thrown by `addProvider` and `updateProvider` when validation fails. -/
  | invalidProviderData (errors : List String)
  /-- Thrown when another provider has the same name. -/
  | providerNameExists
  /-- Thrown when no provider has the requested id. -/
  | providerNotFound
  /-- Thrown by `addModel` and `updateModel` when validation fails. -/
  | invalidModelData (errors : List String)
  /-- Thrown when no model has the requested id. -/
  | modelNotFound
  /-- Thrown when another model of the same provider has the same `modelId`. -/
  | duplicateModelId
  /-- Thrown by `importConfiguration` at the first provider that fails validation. -/
  | invalidProvider (name : String) (errors : List String)
  /-- Thrown by `importConfiguration` at the first model that fails validation. -/
  | invalidModel (name : String) (errors : List String)
  deriving DecidableEq

/-- The message of the `Error` object; `errors.join(', ')` is `String.intercalate`. -/
def StoreError.message : StoreError → String
  | .invalidProviderData errors => "无效的服务商数据: " ++ ", ".intercalate errors
  | .providerNameExists => "服务商名称已存在"
  | .providerNotFound => "服务商未找到"
  | .invalidModelData errors => "无效的模型数据: " ++ ", ".intercalate errors
  | .modelNotFound => "模型未找到"
  | .duplicateModelId => "此服务商已存在相同的模型ID"
  | .invalidProvider name errors =>
      "无效的服务商 \"" ++ name ++ "\": " ++ ", ".intercalate errors
  | .invalidModel name errors =>
      "无效的模型 \"" ++ name ++ "\": " ++ ", ".intercalate errors

/-- The object `{providers, models, lastUpdated}` that `saveConfiguration` serialises. -/
structure StoredConfig where
  providers : List Provider
  models : List Model
  lastUpdated : String
  deriving DecidableEq

/-- The two keys of `localStorage` the store uses: `config` is the blob under
`taskmaster-ui-config`, `projectPath` the string under `taskmaster-project-path`. -/
structure LocalStorage where
  config : Option StoredConfig
  projectPath : Option String
  deriving DecidableEq

/-- The fields of a `ConfigManager` instance, together with the page's `localStorage`. -/
structure ConfigManager where
  providers : List Provider
  models : List Model
  taskmasterProjectPath : Option String
  isValidProject : Bool
  localStorage : LocalStorage
  deriving DecidableEq

/-- The outcome of a method call and the state after it. -/
abbrev Outcome (α : Type) := Except StoreError α × ConfigManager

namespace ConfigManager

/-- The state set up by the constructor, next to a given `localStorage`. -/
def new (localStorage : LocalStorage) : ConfigManager :=
  { providers := [], models := [], taskmasterProjectPath := none, isValidProject := false,
    localStorage := localStorage }

/-- `saveConfiguration`: write `{providers, models, lastUpdated}` under the storage key. -/
def saveConfiguration (now : String) (self : ConfigManager) : ConfigManager :=
  { self with
    localStorage :=
      { self.localStorage with
        config := some { providers := self.providers, models := self.models,
                         lastUpdated := now } } }

/-- `getProviders`: a copy of the providers array. -/
def getProviders (self : ConfigManager) : List Provider := self.providers

/-- `getModels`: a copy of the models array. -/
def getModels (self : ConfigManager) : List Model := self.models

/-- `addProvider(providerData)`. -/
def addProvider (V : Validation) (now : String) (providerData : Provider)
    (self : ConfigManager) : Outcome Provider :=
  let validationResult := V.validateProvider providerData
  if !validationResult.isValid then
    (.error (.invalidProviderData validationResult.errors), self)
  else if self.providers.any (fun p => p.name == providerData.name && p.id != providerData.id) then
    (.error .providerNameExists, self)
  else
    let self1 := { self with providers := self.providers ++ [providerData] }
    (.ok providerData, self1.saveConfiguration now)

/-- `updateProvider(providerData)`. -/
def updateProvider (V : Validation) (now : String) (providerData : Provider)
    (self : ConfigManager) : Outcome Provider :=
  let validationResult := V.validateProvider providerData
  if !validationResult.isValid then
    (.error (.invalidProviderData validationResult.errors), self)
  else
    match self.providers.findIdx? (fun p => p.id == providerData.id) with
    | none => (.error .providerNotFound, self)
    | some index =>
      if self.providers.any (fun p => p.name == providerData.name && p.id != providerData.id) then
        (.error .providerNameExists, self)
      else
        let self1 := { self with providers := self.providers.set index providerData }
        (.ok providerData, self1.saveConfiguration now)

/-- `deleteProvider(providerId)`: the models of the provider are removed first, then the
provider at `index`, then the configuration is saved. -/
def deleteProvider (now : String) (providerId : String) (self : ConfigManager) : Outcome Bool :=
  match self.providers.findIdx? (fun p => p.id == providerId) with
  | none => (.error .providerNotFound, self)
  | some index =>
    let self1 := { self with models := self.models.filter (fun m => m.providerId != providerId) }
    let self2 := { self1 with providers := self1.providers.eraseIdx index }
    (.ok true, self2.saveConfiguration now)

/-- `addModel(modelData)`. -/
def addModel (V : Validation) (now : String) (modelData : Model)
    (self : ConfigManager) : Outcome Model :=
  let validationResult := V.validateModel modelData
  if !validationResult.isValid then
    (.error (.invalidModelData validationResult.errors), self)
  else if (self.providers.find? (fun p => p.id == modelData.providerId)).isNone then
    (.error .providerNotFound, self)
  else if self.models.any (fun m =>
      m.modelId == modelData.modelId && m.providerId == modelData.providerId
        && m.id != modelData.id) then
    (.error .duplicateModelId, self)
  else
    let self1 := { self with models := self.models ++ [modelData] }
    (.ok modelData, self1.saveConfiguration now)

/-- `updateModel(modelData)`. -/
def updateModel (V : Validation) (now : String) (modelData : Model)
    (self : ConfigManager) : Outcome Model :=
  let validationResult := V.validateModel modelData
  if !validationResult.isValid then
    (.error (.invalidModelData validationResult.errors), self)
  else
    match self.models.findIdx? (fun m => m.id == modelData.id) with
    | none => (.error .modelNotFound, self)
    | some index =>
      if (self.providers.find? (fun p => p.id == modelData.providerId)).isNone then
        (.error .providerNotFound, self)
      else if self.models.any (fun m =>
          m.modelId == modelData.modelId && m.providerId == modelData.providerId
            && m.id != modelData.id) then
        (.error .duplicateModelId, self)
      else
        let self1 := { self with models := self.models.set index modelData }
        (.ok modelData, self1.saveConfiguration now)

/-- `deleteModel(modelId)`. -/
def deleteModel (now : String) (modelId : String) (self : ConfigManager) : Outcome Bool :=
  match self.models.findIdx? (fun m => m.id == modelId) with
  | none => (.error .modelNotFound, self)
  | some index =>
    let self1 := { self with models := self.models.eraseIdx index }
    (.ok true, self1.saveConfiguration now)

/-- The first loop of `importConfiguration`: throw at the first invalid provider. -/
def validateAllProviders (V : Validation) : List Provider → Except StoreError Unit
  | [] => .ok ()
  | provider :: rest =>
    let validationResult := V.validateProvider provider
    if !validationResult.isValid then
      .error (.invalidProvider provider.name validationResult.errors)
    else validateAllProviders V rest

/-- The second loop of `importConfiguration`: throw at the first invalid model. -/
def validateAllModels (V : Validation) : List Model → Except StoreError Unit
  | [] => .ok ()
  | model :: rest =>
    let validationResult := V.validateModel model
    if !validationResult.isValid then
      .error (.invalidModel model.name validationResult.errors)
    else validateAllModels V rest

/-- `importConfiguration(providers, models)`; the `catch` block logs and rethrows. -/
def importConfiguration (V : Validation) (now : String) (providers : List Provider)
    (models : List Model) (self : ConfigManager) : Outcome Bool :=
  match validateAllProviders V providers with
  | .error e => (.error e, self)
  | .ok () =>
    match validateAllModels V models with
    | .error e => (.error e, self)
    | .ok () =>
      let self1 := { self with providers := providers }
      let self2 := { self1 with models := models }
      (.ok true, self2.saveConfiguration now)

end ConfigManager

/-! ## Transformer (`ConfigTransformer.js`) -/

/-- A JavaScript object used as a map from string keys: its own properties in the order in
which they were created. -/
structure JsObject (α : Type) where
  entries : List (String × α)
  deriving DecidableEq

namespace JsObject

/-- The literal `{}`. -/
def empty {α : Type} : JsObject α := { entries := [] }

/-- The entries after `obj[key] = value`: an existing property keeps its place and takes
the new value, a new property is created at the end. -/
def setEntries {α : Type} (key : String) (value : α) : List (String × α) → List (String × α)
  | [] => [(key, value)]
  | (k, v) :: rest =>
    if k = key then (k, value) :: rest else (k, v) :: setEntries key value rest

/-- The assignment `obj[key] = value`. -/
def set {α : Type} (obj : JsObject α) (key : String) (value : α) : JsObject α :=
  { entries := setEntries key value obj.entries }

/-- The read `obj[key]` of an own property; `none` is `undefined`. -/
def get? {α : Type} (obj : JsObject α) (key : String) : Option α :=
  (obj.entries.find? (fun e => e.1 = key)).map (fun e => e.2)

end JsObject

/-- The `cost_per_1m_tokens` object of an entry of `supported-models.json`. -/
structure CostPer1mTokens where
  input : ℚ
  output : ℚ
  deriving DecidableEq

/-- An entry of `supported-models.json`, as `uiToTaskMaster` emits it. -/
structure SupportedModel where
  id : String
  swe_score : Option ℚ
  cost_per_1m_tokens : CostPer1mTokens
  allowed_roles : List String
  max_tokens : ℚ
  deriving DecidableEq

/-- An active model `{provider, model}` of `config.models`. -/
structure ActiveModel where
  provider : String
  model : String
  deriving DecidableEq

/-- The object `config.models`; a key that is never assigned is `none`. -/
structure ActiveModels where
  main : Option ActiveModel
  fallback : Option ActiveModel
  research : Option ActiveModel
  deriving DecidableEq

/-- An entry `{name, endpoint, type, apiKey}` of `config.providers`. -/
structure ProviderEntry where
  name : String
  endpoint : String
  type : String
  apiKey : String
  deriving DecidableEq

/-- The `config` section of the result of `uiToTaskMaster`. -/
structure ConfigSection where
  models : ActiveModels
  providers : JsObject ProviderEntry
  deriving DecidableEq

/-- The result `{supportedModels, config}` of `uiToTaskMaster`. -/
structure TaskMasterConfig where
  supportedModels : JsObject (List SupportedModel)
  config : ConfigSection
  deriving DecidableEq

namespace ConfigTransformer

/-- The image of one character under `String.prototype.toLowerCase`, for the characters whose
image contains an ASCII character: `A`-`Z`, U+0130 (to `i` followed by U+0307) and the
Kelvin sign U+212A (to `k`). Every other character is left as it is: the image of a
character outside ASCII then lies outside ASCII too, in JavaScript as here, and
`getProviderKey` deletes it either way. -/
def toLowerCaseChar (c : Char) : List Char :=
  if 'A' ≤ c ∧ c ≤ 'Z' then [Char.ofNat (c.toNat + 32)]
  else if c = Char.ofNat 0x130 then ['i', Char.ofNat 0x307]
  else if c = Char.ofNat 0x212A then ['k']
  else [c]

/-- The call `s.toLowerCase()`, see `toLowerCaseChar`. -/
def toLowerCase (s : String) : String :=
  String.mk (s.data.flatMap toLowerCaseChar)

/-- The character class `[a-z0-9]`. -/
def isKeyChar (c : Char) : Bool :=
  ('a' ≤ c ∧ c ≤ 'z') ∨ ('0' ≤ c ∧ c ≤ '9')

/-- The call `s.replace(/[^a-z0-9]/g, '')`: every character outside the class is deleted. -/
def stripNonKeyChars (s : String) : String :=
  String.mk (s.data.filter isKeyChar)

/-- `getProviderKey(provider)`: `provider.name.toLowerCase().replace(/[^a-z0-9]/g, '')`. -/
def getProviderKey (provider : Provider) : String :=
  stripNonKeyChars (toLowerCase provider.name)

/-- The expression `x || d` for a number `x` that may be `null`: `d` when `x` is `null`,
missing or `0`. -/
def orNumber (x : Option ℚ) (d : ℚ) : ℚ :=
  match x with
  | some v => if v = 0 then d else v
  | none => d

/-- The arrow function that `uiToTaskMaster` maps over the models of a provider. -/
def toSupportedModel (model : Model) : SupportedModel :=
  { id := model.modelId
    swe_score :=
      match model.sweScore with
      | some v => if v = 0 then none else some (v / 100)
      | none => none
    cost_per_1m_tokens :=
      { input := orNumber (model.costPer1MTokens.bind (fun c => c.input)) 0
        output := orNumber (model.costPer1MTokens.bind (fun c => c.output)) 0 }
    allowed_roles := model.allowedRoles.getD ["main", "fallback"]
    max_tokens := orNumber model.maxTokens 200000 }

/-- The first `forEach` of `uiToTaskMaster`: one step per provider, on `supportedModels`. -/
def addSupportedModels (models : List Model) (supportedModels : JsObject (List SupportedModel))
    (provider : Provider) : JsObject (List SupportedModel) :=
  let providerModels := models.filter (fun model => model.providerId == provider.id)
  if providerModels.length > 0 then
    let providerKey := getProviderKey provider
    supportedModels.set providerKey (providerModels.map toSupportedModel)
  else supportedModels

/-- The test `m.allowedRoles?.includes(role)`. -/
def includesRole (role : String) (m : Model) : Bool :=
  match m.allowedRoles with
  | some roles => roles.contains role
  | none => false

/-- The block that `uiToTaskMaster` runs for each of `'main'`, `'fallback'` and `'research'`:
the first model that carries the role, resolved to its provider; `none` when the key of
`config.models` is left unassigned. -/
def activeModel (providers : List Provider) (models : List Model) (role : String) :
    Option ActiveModel :=
  let roleModels := models.filter (includesRole role)
  match roleModels with
  | [] => none
  | roleModel :: _ =>
    match providers.find? (fun p => p.id == roleModel.providerId) with
    | some provider => some { provider := getProviderKey provider, model := roleModel.modelId }
    | none => none

/-- The second `forEach` of `uiToTaskMaster`: one step per provider, on `config.providers`. -/
def addProviderEntry (configProviders : JsObject ProviderEntry) (provider : Provider) :
    JsObject ProviderEntry :=
  let providerKey := getProviderKey provider
  configProviders.set providerKey
    { name := provider.name, endpoint := provider.endpoint, type := provider.type,
      apiKey := provider.apiKey }

/-- `uiToTaskMaster(providers, models)`. -/
def uiToTaskMaster (providers : List Provider) (models : List Model) : TaskMasterConfig :=
  { supportedModels := providers.foldl (addSupportedModels models) JsObject.empty
    config :=
      { models :=
          { main := activeModel providers models "main"
            fallback := activeModel providers models "fallback"
            research := activeModel providers models "research" }
        providers := providers.foldl addProviderEntry JsObject.empty } }

end ConfigTransformer

/-! ## Predicates on the state of the store, and sequences of calls -/

deriving instance DecidableEq for Except

/-- Referential integrity: the `providerId` of every model is the id of a provider. -/
def referentialIntegrity (s : ConfigManager) : Prop :=
  ∀ m ∈ s.models, ∃ p ∈ s.providers, p.id = m.providerId

instance (s : ConfigManager) : Decidable (referentialIntegrity s) := by
  unfold referentialIntegrity
  infer_instance

/-- No two providers share an id and no two models share an id. -/
def uniqueIds (s : ConfigManager) : Prop :=
  (s.providers.map (fun p => p.id)).Nodup ∧ (s.models.map (fun m => m.id)).Nodup

instance (s : ConfigManager) : Decidable (uniqueIds s) := by
  unfold uniqueIds
  infer_instance

/-- A call of one of the six record operations of the store, with its arguments and the
time at which it persists. -/
inductive Call where
  | addProvider (now : String) (providerData : Provider)
  | updateProvider (now : String) (providerData : Provider)
  | deleteProvider (now : String) (providerId : String)
  | addModel (now : String) (modelData : Model)
  | updateModel (now : String) (modelData : Model)
  | deleteModel (now : String) (modelId : String)
  deriving DecidableEq

/-- Run one call: whether it threw, and the state after it. -/
def Call.run (V : Validation) (c : Call) (s : ConfigManager) : Outcome Unit :=
  match c with
  | .addProvider now p => ((s.addProvider V now p).1.map (fun _ => ()), (s.addProvider V now p).2)
  | .updateProvider now p =>
      ((s.updateProvider V now p).1.map (fun _ => ()), (s.updateProvider V now p).2)
  | .deleteProvider now id =>
      ((s.deleteProvider now id).1.map (fun _ => ()), (s.deleteProvider now id).2)
  | .addModel now m => ((s.addModel V now m).1.map (fun _ => ()), (s.addModel V now m).2)
  | .updateModel now m => ((s.updateModel V now m).1.map (fun _ => ()), (s.updateModel V now m).2)
  | .deleteModel now id => ((s.deleteModel now id).1.map (fun _ => ()), (s.deleteModel now id).2)

/-- Run a sequence of calls, each of which must succeed: the state after the last call, or
`none` as soon as a call throws. -/
def runCalls (V : Validation) : List Call → ConfigManager → Option ConfigManager
  | [], s => some s
  | c :: rest, s =>
    match c.run V s with
    | (.ok _, s') => runCalls V rest s'
    | (.error _, _) => none

/-- The id of the record of an add call is not the id of a record of its kind already in the
store. The other calls create no record. -/
def Call.freshId (c : Call) (s : ConfigManager) : Bool :=
  match c with
  | .addProvider _ p => s.providers.all (fun q => q.id != p.id)
  | .addModel _ m => s.models.all (fun q => q.id != m.id)
  | _ => true

/-- Run a sequence of calls as `runCalls` does, and require in addition that every add call
comes with an id that is new at that point. -/
def runFreshCalls (V : Validation) : List Call → ConfigManager → Option ConfigManager
  | [], s => some s
  | c :: rest, s =>
    if c.freshId s then
      match c.run V s with
      | (.ok _, s') => runFreshCalls V rest s'
      | (.error _, _) => none
    else none

/-! ## Sample records -/

namespace Sample

/-- The provider of the transform example of the specification. -/
def acme : Provider :=
  { id := "p1", name := "Acme", endpoint := "https://x", apiKey := "k", type := "openai",
    isValid := false }

/-- The model of the transform example of the specification. -/
def gptX : Model :=
  { id := "m1", name := "gpt-x", providerId := "p1", modelId := "gpt-x", sweScore := some 50,
    maxTokens := some 1000, costPer1MTokens := some { input := some 1, output := some 2 },
    allowedRoles := some ["main"] }

/-- The first of the default providers of `loadDefaultProviders`. -/
def openAI : Provider :=
  { id := "provider_openai_default", name := "OpenAI", endpoint := "https://api.openai.com",
    apiKey := "", type := "openai", isValid := false }

/-- A provider whose name differs from that of `openAI` in letter case only. -/
def openaiLower : Provider :=
  { id := "p2", name := "openai", endpoint := "https://api.openai.com", apiKey := "",
    type := "openai", isValid := false }

/-- A model of `openAI`. -/
def gpt4 : Model :=
  { id := "m2", name := "GPT 4", providerId := "provider_openai_default", modelId := "gpt-4",
    sweScore := none, maxTokens := none, costPer1MTokens := none, allowedRoles := none }

/-- A model with the provider and `modelId` of `gptX` and an id of its own. -/
def gptXAgain : Model := { gptX with id := "m3", name := "again" }

/-- A model whose `providerId` is the id of no sample provider. -/
def orphan : Model := { gptX with id := "m4", providerId := "p9" }

/-- The model `orphan` again, under an id of its own. -/
def orphanAgain : Model := { orphan with id := "m6" }

/-- The model `gptX` under the same id, renamed. -/
def gptXRenamed : Model := { gptX with name := "renamed" }

/-- The model `gptX` under the same id, moved to a provider that does not exist. -/
def gptXMoved : Model := { gptX with providerId := "p9" }

/-- A model without a `modelId`. -/
def noModelId : Model := { gptX with id := "m5", modelId := "" }

/-- A provider without a name. -/
def noName : Provider := { acme with id := "p3", name := "" }

/-- An empty `localStorage`. -/
def emptyStorage : LocalStorage := { config := none, projectPath := none }

/-- A store with two providers and one model of each. -/
def store : ConfigManager :=
  { providers := [acme, openAI], models := [gptX, gpt4], taskmasterProjectPath := none,
    isValidProject := false, localStorage := emptyStorage }

/-- A store without providers that holds the model `orphan`. -/
def orphanStore : ConfigManager :=
  { providers := [], models := [orphan], taskmasterProjectPath := none,
    isValidProject := false, localStorage := emptyStorage }

/-- Two calls of `addProvider` with the same record. -/
def addAcmeTwice : List Call := [.addProvider "t1" acme, .addProvider "t2" acme]

/-- A provider is added, then two models with the same id. -/
def addGptXTwice : List Call :=
  [.addProvider "t1" acme, .addModel "t2" gptX, .addModel "t3" gptXRenamed]

/-- Calls that add two providers and a model of each, update one provider and one model,
and delete the other model and then its provider. -/
def freshCalls : List Call :=
  [.addProvider "t1" acme, .addProvider "t2" openAI, .addModel "t3" gptX, .addModel "t4" gpt4,
    .updateProvider "t5" { acme with endpoint := "https://y" },
    .updateModel "t6" gptXRenamed, .deleteModel "t7" "m2",
    .deleteProvider "t8" "provider_openai_default"]

/-- The state after `freshCalls`, run from the empty store. -/
def afterFreshCalls : ConfigManager :=
  { providers := [{ acme with endpoint := "https://y" }], models := [gptXRenamed],
    taskmasterProjectPath := none, isValidProject := false,
    localStorage :=
      { config := some { providers := [{ acme with endpoint := "https://y" }],
                         models := [gptXRenamed], lastUpdated := "t8" },
        projectPath := none } }

/-- The sample store after `saveConfiguration`. -/
def savedStore : ConfigManager := store.saveConfiguration "t0"

/-- The provider `acme` again, under an id of its own. -/
def acmeAgain : Provider := { acme with id := "p7" }

end Sample

/-! ## Reading the result of `uiToTaskMaster` -/

/-- The read `config.models[role]`; `none` when the key was never assigned. -/
def ActiveModels.get? (models : ActiveModels) (role : String) : Option ActiveModel :=
  if role = "main" then models.main
  else if role = "fallback" then models.fallback
  else if role = "research" then models.research
  else none

namespace Sample

/-- A model of `acme` with the roles `main` and `fallback` and a higher score than `gptX`. -/
def gptY : Model :=
  { id := "m7", name := "gpt-y", providerId := "p1", modelId := "gpt-y", sweScore := some 90,
    maxTokens := some 2000, costPer1MTokens := some { input := some 3, output := some 4 },
    allowedRoles := some ["main", "fallback"] }

/-- The model `gptX` with the score `0`. -/
def gptXZero : Model := { gptX with sweScore := some 0 }

/-- A provider named `Polo AI`. -/
def poloSpaced : Provider :=
  { id := "p4", name := "Polo AI", endpoint := "https://a", apiKey := "ka", type := "openai",
    isValid := false }

/-- A provider named `PoloAI`, with the derived key of `poloSpaced`. -/
def poloJoined : Provider :=
  { id := "p5", name := "PoloAI", endpoint := "https://b", apiKey := "kb", type := "openai",
    isValid := false }

/-- A model of `poloSpaced`. -/
def poloOne : Model := { gptX with id := "m8", providerId := "p4", modelId := "polo-1" }

/-- A model of `poloJoined`. -/
def poloTwo : Model := { gptX with id := "m9", providerId := "p5", modelId := "polo-2" }

end Sample

/-! ## The deployment documents as they are read (`taskMasterToUi` and the validators)

The argument of `taskMasterToUi` and of `validateTaskMasterConfig` is a parsed JSON value.
The model keeps the shape the code expects and makes every property optional: `none` is a
property that is missing or `null`. The value under a key of `supportedModels` is `none`
when it is not an array. A model entry is an object and its `id`, when present, a string.
A key that names a member of `Object.prototype` is outside the model wherever the code
reads an object under a key that the object does not own (`objectPrototypeKeys`). -/

/-- The `cost_per_1m_tokens` object of a model entry as read. -/
structure CostRead where
  input : Option ℚ
  output : Option ℚ
  deriving DecidableEq

/-- An entry of `supported-models.json` as read. -/
structure ModelEntry where
  id : Option String
  swe_score : Option ℚ
  cost_per_1m_tokens : Option CostRead
  allowed_roles : Option (List String)
  max_tokens : Option ℚ
  deriving DecidableEq

/-- An entry of `config.providers` as read. -/
structure ProviderRead where
  name : Option String
  endpoint : Option String
  type : Option String
  apiKey : Option String
  deriving DecidableEq

/-- The `config` document as read. -/
structure ConfigRead where
  models : Option ActiveModels
  providers : Option (JsObject ProviderRead)
  deriving DecidableEq

/-- The object `{supportedModels, config}` handed to `taskMasterToUi`. -/
structure TaskMasterRead where
  supportedModels : Option (JsObject (Option (List ModelEntry)))
  config : Option ConfigRead
  deriving DecidableEq

/-- The result `{providers, models}` of `taskMasterToUi`. -/
structure UiConfiguration where
  providers : List Provider
  models : List Model
  deriving DecidableEq

/-- The two places at which `taskMasterToUi` raises a `TypeError`. -/
inductive TransformError where
  /-- The call `providerModels.forEach` on a value that is not an array. -/
  | forEachOfNonArray (providerKey : String)
  /-- The call `modelId.split` in `getModelDisplayName` on a missing `id`. -/
  | splitOfMissingId (providerKey : String)
  deriving DecidableEq

/-! ### Numbers of a document

A number of a document is given by the value of its literal, a rational; the code holds the
double nearest to it and computes with doubles. Where the code only hands a number on, the
model keeps the rational; where the code multiplies (`swe_score * 100`), the model rounds as
the code does. -/

/-- The number of binary digits of `n`, with `fuel` at least that number. -/
def bitLengthAux : ℕ → ℕ → ℕ
  | 0, _ => 0
  | fuel + 1, n => if n = 0 then 0 else bitLengthAux fuel (n / 2) + 1

/-- The number of binary digits of `n`: `0` for `0`, and `⌊log₂ n⌋ + 1` otherwise. -/
def bitLength (n : ℕ) : ℕ := bitLengthAux n n

/-- The IEEE 754 double nearest to `q`, ties to the even significand: what `JSON.parse`
makes of a literal of value `q`, and what an arithmetic operation on doubles makes of its
exact result `q`. With `|q| = n / d` and `2^k ≤ n / d < 2^(k+1)`, the unit in the last place
is `2^e` for `e = max (k - 52) (-1074)`, and `n / d` is rounded to a multiple `m * 2^e`. A
magnitude of `2^1024 - 2^970` or more, which the code turns into `Infinity`, is outside the
model (see `finiteDouble`). -/
def nearestDouble (q : ℚ) : ℚ :=
  if q = 0 then 0
  else
    let n := q.num.natAbs
    let d := q.den
    let k0 : ℤ := (bitLength n : ℤ) - (bitLength d : ℤ)
    let k : ℤ := if n * 2 ^ (-k0).toNat < d * 2 ^ k0.toNat then k0 - 1 else k0
    let e : ℤ := max (k - 52) (-1074)
    let N := n * 2 ^ (-e).toNat
    let D := d * 2 ^ e.toNat
    let fl := N / D
    let r := N % D
    let m := if 2 * r < D then fl else if D < 2 * r then fl + 1
      else if fl % 2 = 0 then fl else fl + 1
    (if q < 0 then -1 else 1) * (m : ℚ) * 2 ^ e

/-- The double nearest to `q` is finite: `|q|` is below `2^1024 - 2^970`, the midpoint
between the largest double and `2^1024`. -/
def finiteDouble (q : ℚ) : Prop := |q| < 2 ^ 1024 - 2 ^ 970

instance (q : ℚ) : Decidable (finiteDouble q) := by
  unfold finiteDouble
  infer_instance

/-- The names of the members of `Object.prototype`. -/
def objectPrototypeKeys : List String :=
  ["constructor", "hasOwnProperty", "isPrototypeOf", "propertyIsEnumerable", "toLocaleString",
    "toString", "valueOf", "__defineGetter__", "__defineSetter__", "__lookupGetter__",
    "__lookupSetter__", "__proto__"]

namespace JsObject

/-- The array index that a property key denotes, if any: a decimal numeral without leading
zero and below `2^32 - 1`. -/
def arrayIndex? (key : String) : Option ℕ :=
  match key.data with
  | [] => none
  | c :: rest =>
    if (c :: rest).all Char.isDigit ∧ (c ≠ '0' ∨ rest = []) then
      let n := (c :: rest).foldl (fun acc d => 10 * acc + (d.toNat - 48)) 0
      if n < 4294967295 then some n else none
    else none

/-- The call `Object.keys(obj)`: the keys that are array indices in ascending numeric order,
then the other keys in the order of their creation. -/
def keys {α : Type} (obj : JsObject α) : List String :=
  let all := obj.entries.map (fun e => e.1)
  (all.filter (fun k => (arrayIndex? k).isSome)).insertionSort
      (fun a b => (arrayIndex? a).getD 0 ≤ (arrayIndex? b).getD 0)
    ++ all.filter (fun k => (arrayIndex? k).isNone)

end JsObject

/-- An entry emitted by `uiToTaskMaster`, read as an entry of a document. -/
def SupportedModel.toRead (x : SupportedModel) : ModelEntry :=
  { id := some x.id, swe_score := x.swe_score,
    cost_per_1m_tokens := some { input := some x.cost_per_1m_tokens.input,
                                 output := some x.cost_per_1m_tokens.output },
    allowed_roles := some x.allowed_roles, max_tokens := some x.max_tokens }

/-- An entry of `config.providers` written by `uiToTaskMaster`, read as an entry of a
document. -/
def ProviderEntry.toRead (e : ProviderEntry) : ProviderRead :=
  { name := some e.name, endpoint := some e.endpoint, type := some e.type,
    apiKey := some e.apiKey }

/-- The result of `uiToTaskMaster`, read as the argument of `taskMasterToUi` and of
`validateTaskMasterConfig`: the same object, with every property present. -/
def TaskMasterConfig.toRead (c : TaskMasterConfig) : TaskMasterRead :=
  { supportedModels := some
      { entries := c.supportedModels.entries.map (fun e =>
          (e.1, some (e.2.map SupportedModel.toRead))) }
    config := some
      { models := some c.config.models
        providers := some
          { entries := c.config.providers.entries.map (fun e => (e.1, e.2.toRead)) } } }

namespace ConfigTransformer

/-- The expression `x || d` for a string `x` that may be missing: `d` when `x` is missing
or empty. -/
def orString (x : Option String) (d : String) : String :=
  match x with
  | some v => if v = "" then d else v
  | none => d

/-- The expression `!!x` for a string `x` that may be missing. -/
def truthy (x : Option String) : Bool :=
  match x with
  | some v => v != ""
  | none => false

/-- `toUpperCase` on one character, exact on ASCII; a character outside ASCII is left as it
is (JavaScript maps the lower-case letters among them to their upper-case forms). -/
def toUpperCaseChar (c : Char) : Char :=
  if 'a' ≤ c ∧ c ≤ 'z' then Char.ofNat (c.toNat - 32) else c

/-- The table `nameMap` of `getProviderDisplayName`. -/
def nameMap : List (String × String) :=
  [("openai", "OpenAI"), ("anthropic", "Anthropic"), ("google", "Google"), ("polo", "PoloAI"),
    ("foapi", "FoApi"), ("perplexity", "Perplexity"), ("xai", "xAI"),
    ("openrouter", "OpenRouter")]

/-- The table `defaultEndpoints` of the constructor. -/
def defaultEndpoints : List (String × String) :=
  [("openai", "https://api.openai.com"), ("anthropic", "https://api.anthropic.com"),
    ("google", "https://generativelanguage.googleapis.com"), ("polo", "https://api.polo.ai"),
    ("foapi", "https://v2.voct.top"), ("perplexity", "https://api.perplexity.ai"),
    ("xai", "https://api.x.ai"), ("openrouter", "https://openrouter.ai/api")]

/-- The table `providerTypeMap` of the constructor. -/
def providerTypeMap : List (String × String) :=
  [("openai", "openai"), ("anthropic", "anthropic"), ("google", "google"), ("polo", "openai"),
    ("foapi", "openai"), ("perplexity", "openai"), ("xai", "openai"), ("openrouter", "openai")]

/-- `getProviderDisplayName(providerKey)`: the name of the table, or the key with its first
character in upper case. The read `nameMap[providerKey]` is a read of the table itself: for
a key that names a member of `Object.prototype` the code finds that member instead, and such
keys are outside the model (`plainKey`). -/
def getProviderDisplayName (providerKey : String) : String :=
  orString (nameMap.lookup providerKey)
    (match providerKey.data with
     | [] => ""
     | c :: rest => String.mk (toUpperCaseChar c :: rest))

/-- `getDefaultEndpoint(providerKey)`, for a key that names no member of `Object.prototype`. -/
def getDefaultEndpoint (providerKey : String) : String :=
  orString (defaultEndpoints.lookup providerKey) ""

/-- `getProviderType(providerKey)`, for a key that names no member of `Object.prototype`. -/
def getProviderType (providerKey : String) : String :=
  orString (providerTypeMap.lookup providerKey) "openai"

/-- The class `\w` of a regular expression without flags. -/
def isWordChar (c : Char) : Bool :=
  ('a' ≤ c ∧ c ≤ 'z') ∨ ('A' ≤ c ∧ c ≤ 'Z') ∨ ('0' ≤ c ∧ c ≤ '9') ∨ c = '_'

/-- The last element of `modelId.split('/')`: the characters after the last `/`. -/
def lastSegment (cs : List Char) : List Char :=
  cs.foldl (fun acc c => if c = '/' then [] else acc ++ [c]) []

/-- The call `.replace(/\b\w/g, l => l.toUpperCase())`: the first character of every run of
word characters is put in upper case. The flag tells whether the character before is a
word character. -/
def capitalizeWords : Bool → List Char → List Char
  | _, [] => []
  | afterWordChar, c :: rest =>
    (if isWordChar c ∧ ¬ afterWordChar then toUpperCaseChar c else c)
      :: capitalizeWords (isWordChar c) rest

/-- `getModelDisplayName(modelId)`. -/
def getModelDisplayName (modelId : String) : String :=
  String.mk (capitalizeWords false
    ((lastSegment modelId.data).map (fun c => if c = '-' then ' ' else c)))

/-- `generateId(prefix)`: the prefix, `_`, and a suffix made of `Date.now()` and
`Math.random()`. The call counter `n` counts the calls of `generateId` within one run of
`taskMasterToUi`, and `suffix n` stands for what the clock and the generator give at call
`n`; nothing is assumed about it. -/
def generateId (suffix : ℕ → String) (n : ℕ) (kind : String) : String :=
  kind ++ "_" ++ suffix n

/-- The object literal `provider` of `taskMasterToUi`, for the key `providerKey` and the
generated id. The read `configProviders[providerKey]` is a read of an own property: exact
for a key that names no member of `Object.prototype` (`plainKey`). -/
def synthesizeProvider (configProviders : JsObject ProviderRead) (providerKey : String)
    (providerId : String) : Provider :=
  let configProvider := (configProviders.get? providerKey).getD
    { name := none, endpoint := none, type := none, apiKey := none }
  { id := providerId
    name := orString configProvider.name (getProviderDisplayName providerKey)
    endpoint := orString configProvider.endpoint (getDefaultEndpoint providerKey)
    type := orString configProvider.type (getProviderType providerKey)
    apiKey := orString configProvider.apiKey ""
    isValid := truthy configProvider.apiKey }

/-- The object literal `model` of `taskMasterToUi`, for one entry, the id of its provider and
the generated id; a missing `id` makes `getModelDisplayName` raise. The test and the product
`modelData.swe_score ? modelData.swe_score * 100 : null` run on the double read for
`swe_score`, and the product is the double nearest to the exact one. -/
def synthesizeModel (providerKey providerId modelId : String) (modelData : ModelEntry) :
    Except TransformError Model :=
  match modelData.id with
  | none => .error (.splitOfMissingId providerKey)
  | some id =>
    .ok { id := modelId
          name := getModelDisplayName id
          providerId := providerId
          modelId := id
          sweScore :=
            match modelData.swe_score with
            | some v =>
              if nearestDouble v = 0 then none
              else some (nearestDouble (nearestDouble v * 100))
            | none => none
          maxTokens := some (orNumber modelData.max_tokens 200000)
          costPer1MTokens := some
            { input := some (orNumber (modelData.cost_per_1m_tokens.bind (fun c => c.input)) 0)
              output := some (orNumber (modelData.cost_per_1m_tokens.bind (fun c => c.output)) 0) }
          allowedRoles := some (modelData.allowed_roles.getD ["main", "fallback"]) }

/-- The inner `forEach` of `taskMasterToUi`, from call counter `n`: the models of one key,
and the call counter after them. -/
def synthesizeModels (suffix : ℕ → String) (providerKey providerId : String) :
    List ModelEntry → ℕ → Except TransformError (List Model × ℕ)
  | [], n => .ok ([], n)
  | modelData :: rest, n =>
    match synthesizeModel providerKey providerId (generateId suffix n "model") modelData with
    | .error e => .error e
    | .ok model =>
      match synthesizeModels suffix providerKey providerId rest (n + 1) with
      | .error e => .error e
      | .ok (models, n') => .ok (model :: models, n')

/-- One step of the outer `forEach` of `taskMasterToUi`, from call counter `n`: the provider
of the key, its models, and the call counter after them. -/
def synthesizeKey (suffix : ℕ → String) (supportedModels : JsObject (Option (List ModelEntry)))
    (configProviders : JsObject ProviderRead) (providerKey : String) (n : ℕ) :
    Except TransformError (Provider × List Model × ℕ) :=
  let providerId := generateId suffix n "provider"
  let provider := synthesizeProvider configProviders providerKey providerId
  match supportedModels.get? providerKey with
  | some (some providerModels) =>
    match synthesizeModels suffix providerKey providerId providerModels (n + 1) with
    | .error e => .error e
    | .ok (models, n') => .ok (provider, models, n')
  | _ => .error (.forEachOfNonArray providerKey)

/-- The outer `forEach` of `taskMasterToUi` over the keys, from call counter `n`: the
providers and the models that are pushed. -/
def synthesizeKeys (suffix : ℕ → String) (supportedModels : JsObject (Option (List ModelEntry)))
    (configProviders : JsObject ProviderRead) :
    List String → ℕ → Except TransformError (List Provider × List Model)
  | [], _ => .ok ([], [])
  | providerKey :: rest, n =>
    match synthesizeKey suffix supportedModels configProviders providerKey n with
    | .error e => .error e
    | .ok (provider, models, n') =>
      match synthesizeKeys suffix supportedModels configProviders rest n' with
      | .error e => .error e
      | .ok (providers, models') => .ok (provider :: providers, models ++ models')

/-- The object `taskMasterConfig.supportedModels || {}`. -/
def supportedModelsOf (taskMasterConfig : TaskMasterRead) :
    JsObject (Option (List ModelEntry)) :=
  taskMasterConfig.supportedModels.getD JsObject.empty

/-- The object `config.providers || {}`, with `config = taskMasterConfig.config || {}`. -/
def configProvidersOf (taskMasterConfig : TaskMasterRead) : JsObject ProviderRead :=
  ((taskMasterConfig.config.getD { models := none, providers := none }).providers).getD
    JsObject.empty

/-- `taskMasterToUi(taskMasterConfig)`. The map `providerIdMap` is written and never read. -/
def taskMasterToUi (suffix : ℕ → String) (taskMasterConfig : TaskMasterRead) :
    Except TransformError UiConfiguration :=
  let supportedModels := supportedModelsOf taskMasterConfig
  let configProviders := configProvidersOf taskMasterConfig
  match synthesizeKeys suffix supportedModels configProviders supportedModels.keys 0 with
  | .error e => .error e
  | .ok (providers, models) => .ok { providers := providers, models := models }

/-- The errors that `validateUiConfig` pushes for the provider at position `index`. -/
def providerErrors (index : ℕ) (provider : Provider) : List String :=
  (if provider.name = "" then ["Provider " ++ toString (index + 1) ++ ": Name is required"]
    else [])
  ++ (if provider.endpoint = "" then
        ["Provider " ++ toString (index + 1) ++ ": Endpoint is required"] else [])
  ++ (if provider.type = "" then ["Provider " ++ toString (index + 1) ++ ": Type is required"]
      else [])

/-- The first `forEach` of `validateUiConfig`, from position `index`. -/
def providersErrors : List Provider → ℕ → List String
  | [], _ => []
  | provider :: rest, index => providerErrors index provider ++ providersErrors rest (index + 1)

/-- The errors that `validateUiConfig` pushes for the model at position `index`. -/
def modelErrors (providers : List Provider) (index : ℕ) (model : Model) : List String :=
  (if model.name = "" then ["Model " ++ toString (index + 1) ++ ": Name is required"] else [])
  ++ (if model.modelId = "" then ["Model " ++ toString (index + 1) ++ ": Model ID is required"]
      else [])
  ++ (if model.providerId = "" then
        ["Model " ++ toString (index + 1) ++ ": Provider ID is required"] else [])
  ++ (if (providers.find? (fun p => p.id == model.providerId)).isNone then
        ["Model " ++ toString (index + 1) ++ ": Referenced provider not found"] else [])

/-- The second `forEach` of `validateUiConfig`, from position `index`. -/
def modelsErrors (providers : List Provider) : List Model → ℕ → List String
  | [], _ => []
  | model :: rest, index =>
    modelErrors providers index model ++ modelsErrors providers rest (index + 1)

/-- `validateUiConfig(providers, models)`. -/
def validateUiConfig (providers : List Provider) (models : List Model) : ValidationResult :=
  let errors := providersErrors providers 0 ++ modelsErrors providers models 0
  { isValid := errors.length == 0, errors := errors }

/-- The errors that `validateTaskMasterConfig` pushes for the entries of one key, from
position `index`. -/
def entryErrors (providerKey : String) : List ModelEntry → ℕ → List String
  | [], _ => []
  | model :: rest, index =>
    (if truthy model.id then []
      else ["Provider " ++ providerKey ++ ", Model " ++ toString (index + 1)
              ++ ": ID is required"])
    ++ entryErrors providerKey rest (index + 1)

/-- The errors that `validateTaskMasterConfig` pushes for one key of `supportedModels`. -/
def keyErrors (supportedModels : JsObject (Option (List ModelEntry))) (providerKey : String) :
    List String :=
  match supportedModels.get? providerKey with
  | some (some models) => entryErrors providerKey models 0
  | _ => ["Provider " ++ providerKey ++ ": Models must be an array"]

/-- `validateTaskMasterConfig(taskMasterConfig)`. -/
def validateTaskMasterConfig (taskMasterConfig : TaskMasterRead) : ValidationResult :=
  let errors :=
    (match taskMasterConfig.supportedModels with
     | none => ["Missing supportedModels section"]
     | some supportedModels => supportedModels.keys.flatMap (keyErrors supportedModels))
    ++ (match taskMasterConfig.config with
        | none => ["Missing config section"]
        | some _ => [])
  { isValid := errors.length == 0, errors := errors }

end ConfigTransformer

namespace ConfigTransformer

/-- The entries under a key of `supportedModels`; no entries when the value is missing or is
not an array. -/
def modelEntriesOf (supportedModels : JsObject (Option (List ModelEntry)))
    (providerKey : String) : List ModelEntry :=
  match supportedModels.get? providerKey with
  | some (some entries) => entries
  | _ => []

/-- Every key of `supportedModels` holds an array, and every entry of it has an `id`: the
two conditions under which the `forEach` and the `split` of `taskMasterToUi` do not raise. -/
def convertible (supportedModels : JsObject (Option (List ModelEntry))) : Bool :=
  supportedModels.keys.all (fun k =>
    match supportedModels.get? k with
    | some (some entries) => entries.all (fun e => e.id.isSome)
    | _ => false)

/-- The first character of the key, if any, is an ASCII character: the keys on which the
model of the `toUpperCase` of `getProviderDisplayName` is exact. -/
def asciiInitial (providerKey : String) : Bool :=
  match providerKey.data with
  | [] => true
  | c :: _ => decide (c.toNat < 128)

/-- A key that names no member of `Object.prototype` and whose first character, if any, is
an ASCII character: the keys on which the model of the reads `configProviders[key]`,
`nameMap[key]`, `defaultEndpoints[key]` and `providerTypeMap[key]` and of the `toUpperCase`
of `getProviderDisplayName` is exact. -/
def plainKey (providerKey : String) : Bool :=
  !objectPrototypeKeys.contains providerKey && asciiInitial providerKey

/-- What one step of the outer `forEach` of `taskMasterToUi` pushes for a key: the provider
synthesized for the key under a generated id, and one model per entry under the key, in
entry order, each synthesized under a generated id for the id of that provider. -/
def SynthesizedFor (suffix : ℕ → String) (supportedModels : JsObject (Option (List ModelEntry)))
    (configProviders : JsObject ProviderRead) (providerKey : String)
    (group : Provider × List Model) : Prop :=
  (∃ n, group.1 = synthesizeProvider configProviders providerKey
      (generateId suffix n "provider"))
  ∧ List.Forall₂
      (fun modelData model =>
        ∃ n, synthesizeModel providerKey group.1.id (generateId suffix n "model") modelData
          = .ok model)
      (modelEntriesOf supportedModels providerKey) group.2

end ConfigTransformer

namespace Sample

/-- The suffix of the generated ids: the call counter in decimal. -/
def counterSuffix (n : ℕ) : String := toString n

/-- An entry with an `id` only. -/
def bareEntry : ModelEntry :=
  { id := some "deepseek-ai/DeepSeek-R1", swe_score := none, cost_per_1m_tokens := none,
    allowed_roles := none, max_tokens := none }

/-- An entry with the score `0`, an empty list of roles and no other optional property. -/
def zeroEntry : ModelEntry :=
  { id := some "gpt-x", swe_score := some 0, cost_per_1m_tokens := none,
    allowed_roles := some [], max_tokens := none }

/-- An entry with every property. -/
def fullEntry : ModelEntry :=
  { id := some "gpt-y", swe_score := some (1 / 4),
    cost_per_1m_tokens := some { input := some 3, output := some 4 },
    allowed_roles := some ["research"], max_tokens := some 5000 }

/-- A document whose `config` has no `providers`: two keys, the first of which is an array
index and comes second in the file. -/
def bareDocument : TaskMasterRead :=
  { supportedModels := some { entries := [("foapi", some [bareEntry, zeroEntry]),
                                          ("7", some [fullEntry])] }
    config := some { models := none, providers := none } }

/-- A document in which `config.providers` has an entry for `foapi` with an `apiKey` only,
an entry for `acme` with every property, and an entry for `unused`, which is no key of
`supportedModels`. -/
def sparseDocument : TaskMasterRead :=
  { supportedModels := some { entries := [("foapi", some [bareEntry]),
                                          ("acme", some [zeroEntry])] }
    config := some
      { models := none
        providers := some
          { entries :=
              [("foapi", { name := none, endpoint := none, type := none, apiKey := some "k" }),
               ("acme", { name := some "Acme Corp", endpoint := some "https://x",
                          type := some "custom", apiKey := some "" }),
               ("unused", { name := some "Unused", endpoint := some "https://u",
                            type := some "openai", apiKey := some "u" })] } } }

/-- A document in which the value under `foapi` is not an array. -/
def brokenDocument : TaskMasterRead :=
  { supportedModels := some { entries := [("foapi", none)] }
    config := some { models := none, providers := none } }

end Sample

namespace ConfigTransformer

/-- How a string property of a synthesized record is sourced from a property `field` that
may be missing: it is the property when that is a non-empty string, and the fall-back when
the property is missing or empty. -/
def sourcedFrom (field : Option String) (fallback value : String) : Prop :=
  (∀ v, field = some v → v ≠ "" → value = v)
  ∧ ((field = none ∨ field = some "") → value = fallback)

end ConfigTransformer

/-! ## What a round trip through the deployment format keeps -/

/-- The properties of a provider that a round trip is compared on. -/
structure ProviderContent where
  name : String
  endpoint : String
  type : String
  apiKey : String
  deriving DecidableEq

/-- The properties of a model that a round trip is compared on. -/
structure ModelContent where
  modelId : String
  allowedRoles : Option (List String)
  maxTokens : Option ℚ
  costPer1MTokens : Option CostPer1MTokens
  deriving DecidableEq

/-- The name, endpoint, type and `apiKey` of a provider. -/
def providerContent (p : Provider) : ProviderContent :=
  { name := p.name, endpoint := p.endpoint, type := p.type, apiKey := p.apiKey }

/-- The `modelId`, `allowedRoles`, `maxTokens` and `costPer1MTokens` of a model. -/
def modelContent (m : Model) : ModelContent :=
  { modelId := m.modelId, allowedRoles := m.allowedRoles, maxTokens := m.maxTokens,
    costPer1MTokens := m.costPer1MTokens }

/-- A model with the defaults of `uiToTaskMaster` filled in: the roles `main` and `fallback`
when `allowedRoles` is missing, 200000 when `maxTokens` is missing or `0`, and `0` for a cost
that is missing. -/
def Model.withDefaults (m : Model) : Model :=
  { m with
    allowedRoles := some (m.allowedRoles.getD ["main", "fallback"])
    maxTokens := some (ConfigTransformer.orNumber m.maxTokens 200000)
    costPer1MTokens := some
      { input := some (ConfigTransformer.orNumber (m.costPer1MTokens.bind (fun c => c.input)) 0)
        output :=
          some (ConfigTransformer.orNumber (m.costPer1MTokens.bind (fun c => c.output)) 0) } }

/-- The providers that own at least one model. -/
def owners (providers : List Provider) (models : List Model) : List Provider :=
  providers.filter (fun p => models.any (fun model => model.providerId == p.id))

namespace Sample

/-- A second provider without a name. -/
def noNameAgain : Provider := { noName with id := "p8", endpoint := "https://z" }

/-- The calls of `addAcmeTwice`, followed by the deletion of the provider `p1`. -/
def addAcmeTwiceThenDelete : List Call :=
  addAcmeTwice ++ [.deleteProvider "t3" "p1"]

/-- The provider `acme` with another endpoint, under the same id. -/
def acmeMoved : Provider := { acme with endpoint := "https://y" }

end Sample

/-- The blob under the configuration key holds the providers and the models of the store,
written at the time `now`. -/
def ConfigManager.persisted (now : String) (self : ConfigManager) : Prop :=
  self.localStorage.config
    = some { providers := self.providers, models := self.models, lastUpdated := now }

instance (now : String) (self : ConfigManager) : Decidable (self.persisted now) := by
  unfold ConfigManager.persisted
  infer_instance

namespace ConfigTransformer

/-- The messages that the description of `validateUiConfig` asks for one record: one for
each of the named fields whose value is empty, in the order of the fields. A field is given
as its label and its value. -/
def requiredMessages (kind : String) (index : ℕ) (fields : List (String × String)) :
    List String :=
  (fields.filter (fun f => f.2 = "")).map
    (fun f => kind ++ toString (index + 1) ++ ": " ++ f.1 ++ " is required")

/-- The error list that the description of `validateUiConfig` asks for: the providers in
their order, each with one message per empty field among name, endpoint and type; then the
models in their order, each with one message per empty field among name, `modelId` and
`providerId` and one more when no provider has its `providerId` as id. -/
def expectedUiErrors (providers : List Provider) (models : List Model) : List String :=
  providers.enum.flatMap (fun ip =>
    requiredMessages "Provider " ip.1
      [("Name", ip.2.name), ("Endpoint", ip.2.endpoint), ("Type", ip.2.type)])
  ++ models.enum.flatMap (fun im =>
    requiredMessages "Model " im.1
      [("Name", im.2.name), ("Model ID", im.2.modelId), ("Provider ID", im.2.providerId)]
    ++ (if providers.all (fun p => p.id != im.2.providerId) then
          ["Model " ++ toString (im.1 + 1) ++ ": Referenced provider not found"] else []))

end ConfigTransformer

/-! ## Loading the store (`configManager.js`) -/

/-- The error that `saveProjectPath` throws for a path that `validateProjectPath` rejects. -/
inductive ProjectPathError where
  | invalidProjectPath
  deriving DecidableEq

namespace ConfigManager

/-- The array `defaultProviders` of `loadDefaultProviders`. -/
def defaultProviders : List Provider :=
  [ { id := "provider_openai_default", name := "OpenAI", endpoint := "https://api.openai.com",
      type := "openai", apiKey := "", isValid := false },
    { id := "provider_anthropic_default", name := "Anthropic",
      endpoint := "https://api.anthropic.com", type := "anthropic", apiKey := "",
      isValid := false },
    { id := "provider_foapi_default", name := "FoApi", endpoint := "https://v2.voct.top",
      type := "openai", apiKey := "", isValid := false } ]

/-- `loadDefaultProviders()`: install the default providers and save. -/
def loadDefaultProviders (now : String) (self : ConfigManager) : ConfigManager :=
  let self1 := { self with providers := defaultProviders }
  self1.saveConfiguration now

/-- `validateProjectPath(projectPath)`: `false` for a missing or empty path and for a path
that is empty once its backslashes are turned into slashes, `true` otherwise. -/
def validateProjectPath (projectPath : Option String) : Bool :=
  match projectPath with
  | none => false
  | some path =>
    if path = "" then false
    else
      let normalizedPath := String.mk (path.data.map (fun c => if c = '\\' then '/' else c))
      if normalizedPath.length = 0 then false else true

/-- `loadSavedProjectPath()`: the returned path and the state after the call. -/
def loadSavedProjectPath (self : ConfigManager) : Option String × ConfigManager :=
  match self.localStorage.projectPath with
  | some savedPath =>
    if savedPath = "" then (none, self)
    else
      let self1 := { self with taskmasterProjectPath := some savedPath }
      let self2 := { self1 with isValidProject := validateProjectPath (some savedPath) }
      (some savedPath, self2)
  | none => (none, self)

/-- `saveProjectPath(projectPath)`; the `catch` block logs and rethrows. -/
def saveProjectPath (projectPath : Option String) (self : ConfigManager) :
    Except ProjectPathError Bool × ConfigManager :=
  match projectPath with
  | none =>
    (.ok true,
      { self with
        localStorage := { self.localStorage with projectPath := none }
        taskmasterProjectPath := none
        isValidProject := false })
  | some path =>
    if path = "" then
      (.ok true,
        { self with
          localStorage := { self.localStorage with projectPath := none }
          taskmasterProjectPath := none
          isValidProject := false })
    else if validateProjectPath (some path) then
      (.ok true,
        { self with
          localStorage := { self.localStorage with projectPath := some path }
          taskmasterProjectPath := some path
          isValidProject := true })
    else (.error .invalidProjectPath, self)

/-- `initializeProjectPath()`: the returned flag and the state after the call; an error of
`saveProjectPath` is caught and answered with `false`. -/
def initializeProjectPath (self : ConfigManager) : Bool × ConfigManager :=
  match loadSavedProjectPath self with
  | (some _, self1) =>
    if self1.isValidProject then (true, self1)
    else (false, (saveProjectPath none self1).2)
  | (none, self1) => (false, self1)

/-- `loadConfiguration()`. The blob under the storage key is one that `saveConfiguration`
wrote, so that `JSON.parse` gives back its providers and models. -/
def loadConfiguration (now : String) (self : ConfigManager) : Outcome Bool :=
  let self1 := (initializeProjectPath self).2
  let self2 :=
    match self1.localStorage.config with
    | some config => { self1 with providers := config.providers, models := config.models }
    | none => self1
  if self2.providers.length = 0 then (.ok true, loadDefaultProviders now self2)
  else (.ok true, self2)

end ConfigManager

namespace Sample

/-- A store that holds models and no provider. -/
def modelsOnlyStore : ConfigManager :=
  { store with providers := [] }

end Sample

/-! ## Exchange with the TaskMaster documents (`SaveConfig.js`) -/

/-- `getProjectPath()`. -/
def ConfigManager.getProjectPath (self : ConfigManager) : Option String :=
  self.taskmasterProjectPath

/-- `isProjectValid()`. -/
def ConfigManager.isProjectValid (self : ConfigManager) : Bool := self.isValidProject

/-- The errors that `importFromTaskMaster` and `exportToTaskMaster` throw. -/
inductive ExchangeError where
  /-- The project path is not set or not valid. -/
  | projectNotValid
  /-- The error of `readJsonFile`: the name of the file and the message of the cause. -/
  | readFailed (fileName : String) (message : String)
  /-- The error of `writeJsonFileWithBackup`: the name of the file and the message of the
  cause. -/
  | writeFailed (fileName : String) (message : String)
  /-- The errors of `validateTaskMasterConfig`. -/
  | taskMasterConfigInvalid (errors : List String)
  /-- The errors of `validateUiConfig` before an export. -/
  | configInvalid (errors : List String)
  /-- The errors of `validateUiConfig` on an import. -/
  | uiConfigInvalid (errors : List String)
  /-- A `TypeError` raised inside `taskMasterToUi`. -/
  | typeError (e : TransformError)
  /-- An error thrown by the store. -/
  | store (e : StoreError)
  deriving DecidableEq

/-- What the file dialog hands over for each of the two documents of an import: an error
message when reading or parsing fails, `null` when no file is chosen, the parsed document
otherwise. -/
structure SelectedFiles where
  supportedModels : Except String (Option (JsObject (Option (List ModelEntry))))
  config : Except String (Option ConfigRead)

/-- The documents written by an export so far. -/
structure WrittenFiles where
  supportedModels : Option (JsObject (List SupportedModel))
  config : Option ConfigSection
  deriving DecidableEq

namespace SaveConfig

/-- `readJsonFile(filePath)`, with the outcome of the file dialog for that file. -/
def readJsonFile {α : Type} (picked : Except String (Option α)) (fileName : String)
    (configManager : ConfigManager) : Except ExchangeError (Option α) :=
  match configManager.getProjectPath with
  | none => .error (.readFailed fileName "项目路径未设置")
  | some projectPath =>
    if projectPath = "" then .error (.readFailed fileName "项目路径未设置")
    else
      match picked with
      | .error message => .error (.readFailed fileName message)
      | .ok jsonData => .ok jsonData

/-- `readTaskMasterFiles()`. -/
def readTaskMasterFiles (selected : SelectedFiles) (configManager : ConfigManager) :
    Except ExchangeError TaskMasterRead :=
  if !configManager.isProjectValid then .error .projectNotValid
  else
    match readJsonFile selected.supportedModels "supported-models.json" configManager with
    | .error e => .error e
    | .ok supportedModels =>
      match readJsonFile selected.config "config.json" configManager with
      | .error e => .error e
      | .ok config =>
        .ok { supportedModels := some (supportedModels.getD JsObject.empty)
              config := some (config.getD { models := none, providers := none }) }

/-- `importFromTaskMaster()`: the outcome and the store after the call; the `catch` block
logs and rethrows. -/
def importFromTaskMaster (V : Validation) (suffix : ℕ → String) (now : String)
    (selected : SelectedFiles) (configManager : ConfigManager) :
    Except ExchangeError Bool × ConfigManager :=
  match readTaskMasterFiles selected configManager with
  | .error e => (.error e, configManager)
  | .ok taskMasterConfig =>
    let tmValidation := ConfigTransformer.validateTaskMasterConfig taskMasterConfig
    if !tmValidation.isValid then
      (.error (.taskMasterConfigInvalid tmValidation.errors), configManager)
    else
      match ConfigTransformer.taskMasterToUi suffix taskMasterConfig with
      | .error e => (.error (.typeError e), configManager)
      | .ok ui =>
        let validation := ConfigTransformer.validateUiConfig ui.providers ui.models
        if !validation.isValid then (.error (.uiConfigInvalid validation.errors), configManager)
        else
          match configManager.importConfiguration V now ui.providers ui.models with
          | (.error e, configManager1) => (.error (.store e), configManager1)
          | (.ok _, configManager1) => (.ok true, configManager1)

/-- `saveToTaskMasterFiles(taskMasterConfig)`, with the outcome of the save dialog for each
file name: the outcome and the documents written. -/
def saveToTaskMasterFiles (picker : String → Except String Unit)
    (taskMasterConfig : TaskMasterConfig) (configManager : ConfigManager)
    (files : WrittenFiles) : Except ExchangeError Bool × WrittenFiles :=
  if !configManager.isProjectValid then (.error .projectNotValid, files)
  else
    match picker "supported-models.json" with
    | .error message => (.error (.writeFailed "supported-models.json" message), files)
    | .ok () =>
      let files1 := { files with supportedModels := some taskMasterConfig.supportedModels }
      match picker "config.json" with
      | .error message => (.error (.writeFailed "config.json" message), files1)
      | .ok () => (.ok true, { files1 with config := some taskMasterConfig.config })

/-- `exportToTaskMaster()`: the outcome, the store after the call and the documents
written; the `catch` block logs and rethrows. -/
def exportToTaskMaster (picker : String → Except String Unit) (configManager : ConfigManager)
    (files : WrittenFiles) : Except ExchangeError Bool × ConfigManager × WrittenFiles :=
  let providers := configManager.getProviders
  let models := configManager.getModels
  let validation := ConfigTransformer.validateUiConfig providers models
  if !validation.isValid then (.error (.configInvalid validation.errors), configManager, files)
  else
    let taskMasterConfig := ConfigTransformer.uiToTaskMaster providers models
    let tmValidation := ConfigTransformer.validateTaskMasterConfig taskMasterConfig.toRead
    if !tmValidation.isValid then
      (.error (.taskMasterConfigInvalid tmValidation.errors), configManager, files)
    else
      match saveToTaskMasterFiles picker taskMasterConfig configManager files with
      | (.error e, files1) => (.error e, configManager, files1)
      | (.ok _, files1) => (.ok true, configManager, files1)

end SaveConfig

namespace Sample

/-- The sample store with a project path that is set and valid. -/
def projectStore : ConfigManager :=
  { store with taskmasterProjectPath := some "/work/taskmaster", isValidProject := true }

/-- A selection of two documents that pass every check of an import. -/
def goodSelection : SelectedFiles :=
  { supportedModels := .ok (some { entries := [("foapi", some [bareEntry, zeroEntry])] })
    config := .ok none }

/-- A selection whose second file cannot be parsed. -/
def unreadableSelection : SelectedFiles :=
  { goodSelection with config := .error "Unexpected end of JSON input" }

/-- A selection whose first document has an entry without `id`. -/
def invalidSelection : SelectedFiles :=
  { goodSelection with
    supportedModels := .ok (some { entries := [("foapi", some [{ bareEntry with id := none }])] }) }

/-- A selection whose first document has a key without default endpoint. -/
def unknownKeySelection : SelectedFiles :=
  { goodSelection with
    supportedModels := .ok (some { entries := [("mykey", some [bareEntry])] }) }

/-- A validator that rejects every provider. -/
def strictValidation : Validation :=
  { specValidation with
    validateProvider := fun _ => { isValid := false, errors := ["rejected"] } }

/-- A save dialog that succeeds for every file. -/
def acceptingPicker (_ : String) : Except String Unit := .ok ()

/-- A save dialog that succeeds for the first file and is cancelled for `config.json`. -/
def cancellingPicker (fileName : String) : Except String Unit :=
  if fileName = "config.json" then .error "用户取消了文件保存" else .ok ()

/-- No document written yet. -/
def noFiles : WrittenFiles := { supportedModels := none, config := none }

end Sample

/-! ## AI provider clients (`src/ai-providers`) -/

namespace AiProviders

/-- The object handed to `createOpenAI`. -/
structure ClientSettings where
  apiKey : String
  baseURL : String
  deriving DecidableEq

/-- What differs between the provider classes whose `getClient` has the same body: the name
used in the error message and the default base URL. -/
structure ProviderClass where
  name : String
  defaultBaseURL : String
  deriving DecidableEq

/-- The class of `polo.js`. -/
def PoloAIProvider : ProviderClass :=
  { name := "Polo", defaultBaseURL := "https://poloai.top/v1" }

/-- The class of `openrouterai.js`. -/
def OpenrouteraiProvider : ProviderClass :=
  { name := "Openrouterai", defaultBaseURL := "https://openrouter.ai/api" }

/-- The class of `t.js`. -/
def TProvider : ProviderClass :=
  { name := "t", defaultBaseURL := "https://tbai.xin" }

/-- The method `s.endsWith(searchString)`. -/
def endsWith (s searchString : String) : Bool :=
  s.data.drop (s.data.length - searchString.data.length) == searchString.data

/-- Whether a list of characters is a run of slashes followed by `v1` and the end of the
input: the rest of a match of `\/+v1$` after its first slash. -/
def slashesThenV1 : List Char → Bool
  | [] => false
  | c :: rest => if c = '/' then slashesThenV1 rest else decide (c = 'v' ∧ rest = ['1'])

/-- The call `.replace(/\/+v1$/g, '/v1')`: the leftmost position at which a run of one or
more slashes followed by `v1` reaches the end of the input is replaced by `/v1`; a match
ends at the end of the input, so there is no second one. -/
def replaceSlashesV1 : List Char → List Char
  | [] => []
  | c :: rest =>
    if c = '/' ∧ slashesThenV1 rest = true then ['/', 'v', '1']
    else c :: replaceSlashesV1 rest

/-- The constant `normalizedBaseURL` of `getClient`, as a function of `effectiveBaseURL`. -/
def normalizedBaseURL (effectiveBaseURL : String) : String :=
  if endsWith effectiveBaseURL "/v1" then effectiveBaseURL
  else String.mk (replaceSlashesV1 (effectiveBaseURL ++ "/v1").data)

/-- The `try` block of `getClient(params)`: the settings handed to `createOpenAI`, or the
message of the error that the `catch` block passes on to `handleError`. -/
def getClient (provider : ProviderClass) (apiKey baseURL : Option String) :
    Except String ClientSettings :=
  match apiKey with
  | none => .error (provider.name ++ " API key is required.")
  | some key =>
    if key = "" then .error (provider.name ++ " API key is required.")
    else
      let effectiveBaseURL := ConfigTransformer.orString baseURL provider.defaultBaseURL
      .ok { apiKey := key, baseURL := normalizedBaseURL effectiveBaseURL }

end AiProviders

namespace Sample

/-- An entry with the score `0.29`. -/
def scoredEntry : ModelEntry :=
  { id := some "gpt-z", swe_score := some (29 / 100), cost_per_1m_tokens := none,
    allowed_roles := none, max_tokens := none }

/-- An entry with the score `0.07`. -/
def lowEntry : ModelEntry := { scoredEntry with id := some "gpt-w", swe_score := some (7 / 100) }

/-- A document with the entries `gpt-z` and `gpt-w` under `foapi`. -/
def scoredDocument : TaskMasterRead :=
  { supportedModels := some { entries := [("foapi", some [scoredEntry, lowEntry])] }
    config := some { models := none, providers := none } }

end Sample

/-! ## Properties of the store -/

/-- `findIndex` returns the position of the first element that passes the test: the list
splits around it, and no element before it passes. -/
theorem findIdx?_split {α : Type} (p : α → Bool) :
    ∀ l : List α, (∃ x ∈ l, p x = true) →
      ∃ before x after, l = before ++ x :: after ∧ p x = true ∧
        (∀ q ∈ before, p q = false) ∧ l.findIdx? p = some before.length := by
  intro l
  induction l with
  | nil => intro h; obtain ⟨x, hx, _⟩ := h; cases hx
  | cons a l ih =>
    intro h
    by_cases ha : p a = true
    · exact ⟨[], a, l, rfl, ha, by simp, by simp [List.findIdx?_cons, ha]⟩
    · have hl : ∃ x ∈ l, p x = true := by
        obtain ⟨x, hx, hpx⟩ := h
        rcases List.mem_cons.mp hx with rfl | hx
        · exact absurd hpx ha
        · exact ⟨x, hx, hpx⟩
      obtain ⟨before, x, after, hsplit, hpx, hbefore, hidx⟩ := ih hl
      refine ⟨a :: before, x, after, by simp [hsplit], hpx, ?_, ?_⟩
      · intro q hq
        rcases List.mem_cons.mp hq with rfl | hq
        · simpa using ha
        · exact hbefore q hq
      · simp [List.findIdx?_cons, ha, hidx]

/-- `splice(index, 1)` at the position of `x` removes `x` and nothing else. -/
theorem eraseIdx_split {α : Type} (before after : List α) (x : α) :
    (before ++ x :: after).eraseIdx before.length = before ++ after := by
  induction before with
  | nil => rfl
  | cons a before ih => simp [List.eraseIdx, ih]

/-- The assignment `xs[index] = y` at the position of `x` replaces `x` and nothing else. -/
theorem set_split {α : Type} (before after : List α) (x y : α) :
    (before ++ x :: after).set before.length y = before ++ y :: after := by
  induction before with
  | nil => rfl
  | cons a before ih => simp [List.set, ih]

/-- In a list of records with pairwise distinct ids, removing the first record with a given
id is the same as filtering that id out. -/
theorem filter_ne_of_split_nodup {α : Type} (f : α → String) (before after : List α) (x : α)
    (hbefore : ∀ q ∈ before, (f q == f x) = false)
    (hnodup : ((before ++ x :: after).map f).Nodup) :
    (before ++ x :: after).filter (fun p => f p != f x) = before ++ after := by
  have hafter : ∀ q ∈ after, f q ≠ f x := by
    intro q hq heq
    rw [List.map_append, List.map_cons] at hnodup
    have h2 := (List.nodup_append.mp hnodup).2.1
    have h3 := (List.nodup_cons.mp h2).1
    exact h3 (heq ▸ List.mem_map_of_mem f hq)
  rw [List.filter_append, List.filter_cons]
  have h1 : before.filter (fun p => f p != f x) = before := by
    apply List.filter_eq_self.mpr
    intro q hq
    simpa [bne] using hbefore q hq
  have h2 : after.filter (fun p => f p != f x) = after := by
    apply List.filter_eq_self.mpr
    intro q hq
    simpa [bne] using hafter q hq
  simp [h1, h2]

/-- C1. Cascading delete: when `P` is the id of a provider of the store, `deleteProvider(P)`
returns `true`; the providers are the old ones without the first provider whose id is `P`
(the only one when ids are pairwise distinct, and then the result is the old list with the
id `P` filtered out), all others in their original order; the models are exactly the old
models whose `providerId` differs from `P`, in their original order. -/
theorem deleteProvider_cascade (now P : String) (s : ConfigManager)
    (hP : ∃ p ∈ s.providers, p.id = P) :
    (s.deleteProvider now P).1 = .ok true
    ∧ (∃ before p after, s.providers = before ++ p :: after ∧ p.id = P
        ∧ (∀ q ∈ before, q.id ≠ P)
        ∧ (s.deleteProvider now P).2.providers = before ++ after)
    ∧ ((s.providers.map (fun p => p.id)).Nodup →
        (s.deleteProvider now P).2.providers = s.providers.filter (fun p => p.id != P))
    ∧ (s.deleteProvider now P).2.models = s.models.filter (fun m => m.providerId != P) := by
  have hex : ∃ x ∈ s.providers, (fun p : Provider => p.id == P) x = true := by
    obtain ⟨p, hp, hid⟩ := hP
    exact ⟨p, hp, by simp [hid]⟩
  obtain ⟨before, x, after, hsplit, hx, hbefore, hidx⟩ := findIdx?_split _ _ hex
  have hxid : x.id = P := by simpa using hx
  have hprov : (s.deleteProvider now P).2.providers = before ++ after := by
    simp only [ConfigManager.deleteProvider, hidx, ConfigManager.saveConfiguration]
    rw [hsplit]
    exact eraseIdx_split before after x
  refine ⟨?_, ⟨before, x, after, hsplit, hxid, ?_, hprov⟩, ?_, ?_⟩
  · simp only [ConfigManager.deleteProvider, hidx]
  · intro q hq
    simpa using hbefore q hq
  · intro hnodup
    rw [hprov, hsplit, ← hxid]
    rw [hsplit] at hnodup
    refine (filter_ne_of_split_nodup (fun p : Provider => p.id) before after x ?_ hnodup).symm
    intro q hq
    simpa [hxid] using hbefore q hq
  · simp only [ConfigManager.deleteProvider, hidx, ConfigManager.saveConfiguration]

/-- C1, instance: deleting `acme` from the sample store leaves `openAI` and its model. -/
theorem deleteProvider_cascade_witness :
    (∃ p ∈ Sample.store.providers, p.id = "p1")
    ∧ (Sample.store.deleteProvider "t" "p1").1 = .ok true
    ∧ (Sample.store.deleteProvider "t" "p1").2.providers = [Sample.openAI]
    ∧ (Sample.store.deleteProvider "t" "p1").2.models = [Sample.gpt4] :=
  have h := deleteProvider_cascade "t" "p1" Sample.store (by decide)
  ⟨by decide, h.1, (h.2.2.1 (by decide)).trans (by decide), h.2.2.2.trans (by decide)⟩

/-- When `findIndex` returns `index`, the list splits at `index` around the first element
that passes the test. -/
theorem findIdx?_some_split {α : Type} (p : α → Bool) (l : List α) (index : ℕ)
    (h : l.findIdx? p = some index) :
    ∃ before x after, l = before ++ x :: after ∧ p x = true ∧
      (∀ q ∈ before, p q = false) ∧ index = before.length := by
  have hex : ∃ x ∈ l, p x = true := by
    by_contra hcon
    have hnone : l.findIdx? p = none := by
      apply List.findIdx?_eq_none_iff.mpr
      intro x hx
      by_contra hpx
      exact hcon ⟨x, hx, by simpa using hpx⟩
    rw [hnone] at h
    cases h
  obtain ⟨before, x, after, hsplit, hx, hbefore, hidx⟩ := findIdx?_split p l hex
  rw [hidx] at h
  exact ⟨before, x, after, hsplit, hx, hbefore, (Option.some.inj h).symm⟩

/-- The record operations keep referential integrity: after `addProvider`, `updateProvider`,
`deleteProvider`, `addModel`, `updateModel` or `deleteModel`, whether the call succeeds or
throws, every model still refers to a provider of the store. -/
theorem record_calls_keep_referentialIntegrity (V : Validation) (c : Call) (s : ConfigManager)
    (h : referentialIntegrity s) : referentialIntegrity (c.run V s).2 := by
  cases c with
  | addProvider now p =>
    simp only [Call.run, ConfigManager.addProvider]
    split
    · exact h
    · split
      · exact h
      · intro m hm
        obtain ⟨q, hq, hid⟩ := h m hm
        exact ⟨q, List.mem_append_left _ hq, hid⟩
  | updateProvider now p =>
    simp only [Call.run, ConfigManager.updateProvider]
    split
    · exact h
    · split
      · exact h
      · rename_i index hidx
        split
        · exact h
        · obtain ⟨before, x, after, hsplit, hx, -, hindex⟩ := findIdx?_some_split _ _ _ hidx
          intro m hm
          obtain ⟨q, hq, hid⟩ := h m hm
          have hset : (ConfigManager.saveConfiguration now
              { s with providers := s.providers.set index p }).providers
              = before ++ p :: after := by
            simp only [ConfigManager.saveConfiguration]
            rw [hsplit, hindex]
            exact set_split before after x p
          rw [hset]
          rw [hsplit] at hq
          rcases List.mem_append.mp hq with hq | hq
          · exact ⟨q, List.mem_append_left _ hq, hid⟩
          · rcases List.mem_cons.mp hq with rfl | hq
            · refine ⟨p, by simp, ?_⟩
              have : q.id = p.id := by simpa using hx
              rw [← this]; exact hid
            · exact ⟨q, by simp [hq], hid⟩
  | deleteProvider now id =>
    simp only [Call.run, ConfigManager.deleteProvider]
    split
    · exact h
    · rename_i index hidx
      obtain ⟨before, x, after, hsplit, hx, -, hindex⟩ := findIdx?_some_split _ _ _ hidx
      intro m hm
      have hm' : m ∈ s.models ∧ m.providerId ≠ id := by
        simpa [ConfigManager.saveConfiguration] using hm
      obtain ⟨q, hq, hid⟩ := h m hm'.1
      have hprov : (ConfigManager.saveConfiguration now
          { s with models := s.models.filter (fun m => m.providerId != id),
                   providers := s.providers.eraseIdx index }).providers = before ++ after := by
        simp only [ConfigManager.saveConfiguration]
        rw [hsplit, hindex]
        exact eraseIdx_split before after x
      refine ⟨q, ?_, hid⟩
      rw [hprov]
      rw [hsplit] at hq
      rcases List.mem_append.mp hq with hq | hq
      · exact List.mem_append_left _ hq
      · rcases List.mem_cons.mp hq with rfl | hq
        · exfalso
          have : q.id = id := by simpa using hx
          exact hm'.2 (hid ▸ this)
        · exact List.mem_append_right _ hq
  | addModel now m =>
    simp only [Call.run, ConfigManager.addModel]
    split
    · exact h
    · split
      · exact h
      · rename_i hfind
        split
        · exact h
        · intro m' hm'
          have hm'' : m' ∈ s.models ∨ m' = m := by
            simpa [ConfigManager.saveConfiguration] using hm'
          rcases hm'' with hm'' | rfl
          · exact h m' hm''
          · cases hf : s.providers.find? (fun p => p.id == m'.providerId) with
            | none => simp [hf] at hfind
            | some q =>
              refine ⟨q, List.mem_of_find?_eq_some hf, ?_⟩
              simpa using List.find?_some hf
  | updateModel now m =>
    simp only [Call.run, ConfigManager.updateModel]
    split
    · exact h
    · split
      · exact h
      · rename_i index hidx
        split
        · exact h
        · rename_i hfind
          split
          · exact h
          · intro m' hm'
            have hm'' : m' ∈ s.models.set index m := by
              simpa [ConfigManager.saveConfiguration] using hm'
            rcases List.mem_or_eq_of_mem_set hm'' with hm'' | rfl
            · exact h m' hm''
            · cases hf : s.providers.find? (fun p => p.id == m'.providerId) with
              | none => simp [hf] at hfind
              | some q =>
                refine ⟨q, List.mem_of_find?_eq_some hf, ?_⟩
                simpa using List.find?_some hf
  | deleteModel now id =>
    simp only [Call.run, ConfigManager.deleteModel]
    split
    · exact h
    · rename_i index hidx
      intro m hm
      have hm' : m ∈ s.models.eraseIdx index := by
        simpa [ConfigManager.saveConfiguration] using hm
      exact h m ((List.eraseIdx_sublist _ _).subset hm')

/-- C2, on `importConfiguration`: a batch without providers and with one model that passes
validation is imported, and the state after the call holds a model whose `providerId` is the
id of no provider, whatever the store held before. -/
theorem importConfiguration_admits_orphans (V : Validation) (now : String) (m : Model)
    (s : ConfigManager) (hm : (V.validateModel m).isValid = true) :
    (s.importConfiguration V now [] [m]).1 = .ok true
    ∧ ¬ referentialIntegrity (s.importConfiguration V now [] [m]).2 := by
  constructor
  · simp [ConfigManager.importConfiguration, ConfigManager.validateAllProviders,
      ConfigManager.validateAllModels, hm]
  · simp [ConfigManager.importConfiguration, ConfigManager.validateAllProviders,
      ConfigManager.validateAllModels, hm, referentialIntegrity,
      ConfigManager.saveConfiguration]

/-- C2, instance: the store after the constructor has referential integrity, the import of
`gptX` alone succeeds, and the store after it has not. -/
theorem importConfiguration_admits_orphans_witness :
    (specValidation.validateModel Sample.gptX).isValid = true
    ∧ referentialIntegrity (ConfigManager.new Sample.emptyStorage)
    ∧ ((ConfigManager.new Sample.emptyStorage).importConfiguration specValidation "t" []
        [Sample.gptX]).1 = .ok true
    ∧ ¬ referentialIntegrity ((ConfigManager.new Sample.emptyStorage).importConfiguration
        specValidation "t" [] [Sample.gptX]).2 :=
  have h := importConfiguration_admits_orphans specValidation "t" Sample.gptX
    (ConfigManager.new Sample.emptyStorage) (by decide)
  ⟨by decide, by decide, h.1, h.2⟩

/-- C3, on `addProvider`: the duplicate-name test compares names with `===`. A candidate
that passes validation and whose name is, character for character, the name of no provider
of the store is added at the end of the providers, also when its name differs from the name
of a provider in letter case only. -/
theorem addProvider_compares_names_exactly (V : Validation) (now : String) (c : Provider)
    (s : ConfigManager) (hvalid : (V.validateProvider c).isValid = true)
    (hname : ∀ p ∈ s.providers, p.name ≠ c.name) :
    (s.addProvider V now c).1 = .ok c
    ∧ (s.addProvider V now c).2.providers = s.providers ++ [c] := by
  have hany : s.providers.any (fun p => p.name == c.name && p.id != c.id) = false := by
    apply List.any_eq_false.mpr
    intro p hp
    simp [hname p hp]
  constructor <;> simp [ConfigManager.addProvider, hvalid, hany, ConfigManager.saveConfiguration]

/-- C3, instance: `openai` is added to a store that holds `OpenAI`, although the two names
are equal when letter case is ignored and the ids differ. -/
theorem addProvider_compares_names_exactly_witness :
    (specValidation.validateProvider Sample.openaiLower).isValid = true
    ∧ (∀ p ∈ Sample.store.providers, p.name ≠ Sample.openaiLower.name)
    ∧ Sample.openAI ∈ Sample.store.providers
    ∧ ConfigTransformer.toLowerCase Sample.openAI.name
        = ConfigTransformer.toLowerCase Sample.openaiLower.name
    ∧ Sample.openAI.id ≠ Sample.openaiLower.id
    ∧ (Sample.store.addProvider specValidation "t" Sample.openaiLower).1
        = .ok Sample.openaiLower
    ∧ (Sample.store.addProvider specValidation "t" Sample.openaiLower).2.providers
        = [Sample.acme, Sample.openAI, Sample.openaiLower] :=
  have h := addProvider_compares_names_exactly specValidation "t" Sample.openaiLower
    Sample.store (by decide) (by decide)
  ⟨by decide, by decide, by decide, by decide, by decide, h.1, h.2.trans (by decide)⟩

/-- C4, as stated, fails in two ways. In a store without providers that holds a model with
the pair `(p9, gpt-x)`, a valid candidate with the same pair is refused for its provider,
not for its pair. In the sample store, a valid candidate with the pair and the id of `gptX`
is added, so that the models change and two of them carry the pair. -/
theorem addModel_duplicate_pair_counterexample :
    (Sample.orphan ∈ Sample.orphanStore.models
      ∧ (specValidation.validateModel Sample.orphanAgain).isValid = true
      ∧ Sample.orphanAgain.providerId = Sample.orphan.providerId
      ∧ Sample.orphanAgain.modelId = Sample.orphan.modelId
      ∧ (Sample.orphanStore.addModel specValidation "t" Sample.orphanAgain).1
          = .error .providerNotFound)
    ∧ (Sample.gptX ∈ Sample.store.models
      ∧ (specValidation.validateModel Sample.gptXRenamed).isValid = true
      ∧ Sample.gptXRenamed.providerId = Sample.gptX.providerId
      ∧ Sample.gptXRenamed.modelId = Sample.gptX.modelId
      ∧ (Sample.store.addModel specValidation "t" Sample.gptXRenamed).1
          = .ok Sample.gptXRenamed
      ∧ (Sample.store.addModel specValidation "t" Sample.gptXRenamed).2.models
          = [Sample.gptX, Sample.gpt4, Sample.gptXRenamed]) := by
  decide

/-- C4, amended: when the store holds a model with `providerId` q and `modelId` k, q is the
id of a provider of the store, and a candidate that passes validation carries the pair
(q, k) under an id that differs from the id of that model, `addModel` throws the
duplicate-model-id error and the state (providers, models and stored blob) is unchanged. -/
theorem addModel_rejects_duplicate_pair (V : Validation) (now : String)
    (existing candidate : Model) (s : ConfigManager)
    (hmem : existing ∈ s.models)
    (hvalid : (V.validateModel candidate).isValid = true)
    (hq : candidate.providerId = existing.providerId)
    (hk : candidate.modelId = existing.modelId)
    (hlive : ∃ p ∈ s.providers, p.id = candidate.providerId)
    (hid : candidate.id ≠ existing.id) :
    s.addModel V now candidate = (.error .duplicateModelId, s) := by
  have hfind : (s.providers.find? (fun p => p.id == candidate.providerId)).isNone = false := by
    obtain ⟨p, hp, hpid⟩ := hlive
    cases hf : s.providers.find? (fun p => p.id == candidate.providerId) with
    | none =>
      have := List.find?_eq_none.mp hf p hp
      simp [hpid] at this
    | some q => rfl
  have hany : s.models.any (fun m => m.modelId == candidate.modelId
      && m.providerId == candidate.providerId && m.id != candidate.id) = true := by
    apply List.any_eq_true.mpr
    refine ⟨existing, hmem, ?_⟩
    simp [hq, hk, Ne.symm hid]
  simp [ConfigManager.addModel, hvalid, hfind, hany]

/-- C4, instance: `gptXAgain` carries the pair of `gptX` under another id and is refused. -/
theorem addModel_rejects_duplicate_pair_witness :
    Sample.gptX ∈ Sample.store.models
    ∧ Sample.gptXAgain.id ≠ Sample.gptX.id
    ∧ Sample.store.addModel specValidation "t" Sample.gptXAgain
        = (.error .duplicateModelId, Sample.store) :=
  ⟨by decide, by decide,
    addModel_rejects_duplicate_pair specValidation "t" Sample.gptX Sample.gptXAgain
      Sample.store (by decide) (by decide) (by decide) (by decide) (by decide) (by decide)⟩

/-- C5. Provider existence on model writes: for a candidate that passes validation and
whose `providerId` is the id of no provider of the store, `addModel` throws the
provider-not-found error, and so does `updateModel` when some model has the id of the
candidate; in both cases the state (providers, models and stored blob) is unchanged. -/
theorem model_writes_require_provider (V : Validation) (now : String) (candidate : Model)
    (s : ConfigManager) (hvalid : (V.validateModel candidate).isValid = true)
    (hno : ∀ p ∈ s.providers, p.id ≠ candidate.providerId) :
    s.addModel V now candidate = (.error .providerNotFound, s)
    ∧ ((∃ m ∈ s.models, m.id = candidate.id) →
        s.updateModel V now candidate = (.error .providerNotFound, s)) := by
  have hfind : s.providers.find? (fun p => p.id == candidate.providerId) = none := by
    apply List.find?_eq_none.mpr
    intro p hp
    simpa using hno p hp
  constructor
  · simp [ConfigManager.addModel, hvalid, hfind]
  · intro hex
    have hex' : ∃ x ∈ s.models, (fun m : Model => m.id == candidate.id) x = true := by
      obtain ⟨m, hm, hmid⟩ := hex
      exact ⟨m, hm, by simp [hmid]⟩
    obtain ⟨before, x, after, -, -, -, hidx⟩ := findIdx?_split _ _ hex'
    simp [ConfigManager.updateModel, hvalid, hidx, hfind]

/-- C5, instance: `gptXMoved` has the id of `gptX` and refers to the provider `p9`, which
the sample store does not hold; neither `addModel` nor `updateModel` accepts it. -/
theorem model_writes_require_provider_witness :
    (specValidation.validateModel Sample.gptXMoved).isValid = true
    ∧ (∃ m ∈ Sample.store.models, m.id = Sample.gptXMoved.id)
    ∧ Sample.store.addModel specValidation "t" Sample.gptXMoved
        = (.error .providerNotFound, Sample.store)
    ∧ Sample.store.updateModel specValidation "t" Sample.gptXMoved
        = (.error .providerNotFound, Sample.store) :=
  have h := model_writes_require_provider specValidation "t" Sample.gptXMoved Sample.store
    (by decide) (by decide)
  ⟨by decide, by decide, h.1, h.2 (by decide)⟩

/-- One call keeps ids pairwise distinct, provided that an add call brings a new id. -/
theorem fresh_call_keeps_uniqueIds (V : Validation) (c : Call) (s : ConfigManager)
    (hfresh : c.freshId s = true) (hu : uniqueIds s) : uniqueIds (c.run V s).2 := by
  obtain ⟨hp, hm⟩ := hu
  cases c with
  | addProvider now p =>
    simp only [Call.run, ConfigManager.addProvider]
    split
    · exact ⟨hp, hm⟩
    · split
      · exact ⟨hp, hm⟩
      · refine ⟨?_, hm⟩
        have hnew : p.id ∉ s.providers.map (fun q => q.id) := by
          intro hin
          obtain ⟨q, hq, hqid⟩ := List.mem_map.mp hin
          have := List.all_eq_true.mp hfresh q hq
          simp [hqid] at this
        simp only [ConfigManager.saveConfiguration, List.map_append, List.map_cons,
          List.map_nil]
        exact List.nodup_append.mpr ⟨hp, List.nodup_singleton _, by simpa using hnew⟩
  | updateProvider now p =>
    simp only [Call.run, ConfigManager.updateProvider]
    split
    · exact ⟨hp, hm⟩
    · split
      · exact ⟨hp, hm⟩
      · rename_i index hidx
        split
        · exact ⟨hp, hm⟩
        · refine ⟨?_, hm⟩
          obtain ⟨before, x, after, hsplit, hx, -, hindex⟩ := findIdx?_some_split _ _ _ hidx
          have hxid : x.id = p.id := by simpa using hx
          simp only [ConfigManager.saveConfiguration]
          rw [hsplit, hindex, set_split before after x p]
          rw [hsplit] at hp
          simpa [hxid] using hp
  | deleteProvider now id =>
    simp only [Call.run, ConfigManager.deleteProvider]
    split
    · exact ⟨hp, hm⟩
    · simp only [ConfigManager.saveConfiguration]
      exact ⟨hp.sublist ((List.eraseIdx_sublist _ _).map _),
        hm.sublist ((List.filter_sublist _).map _)⟩
  | addModel now m =>
    simp only [Call.run, ConfigManager.addModel]
    split
    · exact ⟨hp, hm⟩
    · split
      · exact ⟨hp, hm⟩
      · split
        · exact ⟨hp, hm⟩
        · refine ⟨hp, ?_⟩
          have hnew : m.id ∉ s.models.map (fun q => q.id) := by
            intro hin
            obtain ⟨q, hq, hqid⟩ := List.mem_map.mp hin
            have := List.all_eq_true.mp hfresh q hq
            simp [hqid] at this
          simp only [ConfigManager.saveConfiguration, List.map_append, List.map_cons,
            List.map_nil]
          exact List.nodup_append.mpr ⟨hm, List.nodup_singleton _, by simpa using hnew⟩
  | updateModel now m =>
    simp only [Call.run, ConfigManager.updateModel]
    split
    · exact ⟨hp, hm⟩
    · split
      · exact ⟨hp, hm⟩
      · rename_i index hidx
        split
        · exact ⟨hp, hm⟩
        · split
          · exact ⟨hp, hm⟩
          · refine ⟨hp, ?_⟩
            obtain ⟨before, x, after, hsplit, hx, -, hindex⟩ := findIdx?_some_split _ _ _ hidx
            have hxid : x.id = m.id := by simpa using hx
            simp only [ConfigManager.saveConfiguration]
            rw [hsplit, hindex, set_split before after x m]
            rw [hsplit] at hm
            simpa [hxid] using hm
  | deleteModel now id =>
    simp only [Call.run, ConfigManager.deleteModel]
    split
    · exact ⟨hp, hm⟩
    · simp only [ConfigManager.saveConfiguration]
      exact ⟨hp, hm.sublist ((List.eraseIdx_sublist _ _).map _)⟩

/-- A sequence of successful calls with new ids, from a state with pairwise distinct ids, is
a sequence of successful calls and ends in a state with pairwise distinct ids. -/
theorem fresh_calls_keep_uniqueIds (V : Validation) (calls : List Call) :
    ∀ s0 s : ConfigManager, uniqueIds s0 → runFreshCalls V calls s0 = some s →
      runCalls V calls s0 = some s ∧ uniqueIds s := by
  induction calls with
  | nil =>
    intro s0 s hu h
    simp only [runFreshCalls, Option.some.injEq] at h
    subst h
    exact ⟨rfl, hu⟩
  | cons c rest ih =>
    intro s0 s hu h
    simp only [runFreshCalls] at h
    split at h
    · rename_i hfresh
      have hstep := fresh_call_keeps_uniqueIds V c s0 hfresh hu
      split at h
      · rename_i r s' hrun
        rw [hrun] at hstep
        have := ih s' s hstep h
        simp only [runCalls, hrun]
        exact this
      · cases h
    · cases h

/-- C6, as stated, fails: `addProvider` called twice with the record `acme` succeeds twice
and leaves two providers with the id `p1`; `addModel` called with `gptX` and then with a
renamed record of the same id succeeds twice and leaves two models with the id `m1`. -/
theorem ids_unique_counterexample :
    (runCalls specValidation Sample.addAcmeTwice (ConfigManager.new Sample.emptyStorage)).map
        (fun s => s.providers.map (fun p => p.id)) = some ["p1", "p1"]
    ∧ (runCalls specValidation Sample.addGptXTwice (ConfigManager.new Sample.emptyStorage)).map
        (fun s => s.models.map (fun m => m.id)) = some ["m1", "m1"] := by
  decide

/-- C6, amended: in every state reached from the empty store by successful `addProvider`,
`updateProvider`, `deleteProvider`, `addModel`, `updateModel` and `deleteModel` calls in
which every `addProvider` brings an id that no provider of the store has at that point and
every `addModel` an id that no model of the store has at that point, no two providers share
an id and no two models share an id. -/
theorem fresh_ids_stay_unique (V : Validation) (calls : List Call) (storage : LocalStorage)
    (s : ConfigManager)
    (h : runFreshCalls V calls (ConfigManager.new storage) = some s) :
    runCalls V calls (ConfigManager.new storage) = some s ∧ uniqueIds s :=
  fresh_calls_keep_uniqueIds V calls (ConfigManager.new storage) s
    ⟨List.nodup_nil, List.nodup_nil⟩ h

/-- C6, instance: the sample calls all succeed with new ids, and the state after them
holds one provider and one model. -/
theorem fresh_ids_stay_unique_witness :
    runFreshCalls specValidation Sample.freshCalls (ConfigManager.new Sample.emptyStorage)
      = some Sample.afterFreshCalls
    ∧ runCalls specValidation Sample.freshCalls (ConfigManager.new Sample.emptyStorage)
      = some Sample.afterFreshCalls
    ∧ uniqueIds Sample.afterFreshCalls :=
  have h := fresh_ids_stay_unique specValidation Sample.freshCalls Sample.emptyStorage
    Sample.afterFreshCalls (by decide)
  ⟨by decide, h.1, h.2⟩

/-- The first loop of `importConfiguration` ends without a throw when every provider passes
validation. -/
theorem validateAllProviders_ok (V : Validation) (providers : List Provider)
    (h : ∀ p ∈ providers, (V.validateProvider p).isValid = true) :
    ConfigManager.validateAllProviders V providers = .ok () := by
  induction providers with
  | nil => rfl
  | cons p rest ih =>
    have hp := h p (List.mem_cons_self _ _)
    simp only [ConfigManager.validateAllProviders, hp]
    exact ih (fun q hq => h q (List.mem_cons_of_mem _ hq))

/-- The second loop of `importConfiguration` ends without a throw when every model passes
validation. -/
theorem validateAllModels_ok (V : Validation) (models : List Model)
    (h : ∀ m ∈ models, (V.validateModel m).isValid = true) :
    ConfigManager.validateAllModels V models = .ok () := by
  induction models with
  | nil => rfl
  | cons m rest ih =>
    have hm := h m (List.mem_cons_self _ _)
    simp only [ConfigManager.validateAllModels, hm]
    exact ih (fun q hq => h q (List.mem_cons_of_mem _ hq))

/-- The first loop of `importConfiguration` throws when some provider fails validation. -/
theorem validateAllProviders_error (V : Validation) (providers : List Provider)
    (h : ∃ p ∈ providers, (V.validateProvider p).isValid = false) :
    ∃ e, ConfigManager.validateAllProviders V providers = .error e := by
  induction providers with
  | nil => obtain ⟨p, hp, _⟩ := h; cases hp
  | cons p rest ih =>
    cases hv : (V.validateProvider p).isValid with
    | false =>
      exact ⟨.invalidProvider p.name (V.validateProvider p).errors,
        by simp [ConfigManager.validateAllProviders, hv]⟩
    | true =>
      have hrest : ∃ q ∈ rest, (V.validateProvider q).isValid = false := by
        obtain ⟨q, hq, hqv⟩ := h
        rcases List.mem_cons.mp hq with rfl | hq
        · rw [hv] at hqv; cases hqv
        · exact ⟨q, hq, hqv⟩
      obtain ⟨e, he⟩ := ih hrest
      exact ⟨e, by simp [ConfigManager.validateAllProviders, hv, he]⟩

/-- The second loop of `importConfiguration` throws when some model fails validation. -/
theorem validateAllModels_error (V : Validation) (models : List Model)
    (h : ∃ m ∈ models, (V.validateModel m).isValid = false) :
    ∃ e, ConfigManager.validateAllModels V models = .error e := by
  induction models with
  | nil => obtain ⟨m, hm, _⟩ := h; cases hm
  | cons m rest ih =>
    cases hv : (V.validateModel m).isValid with
    | false =>
      exact ⟨.invalidModel m.name (V.validateModel m).errors,
        by simp [ConfigManager.validateAllModels, hv]⟩
    | true =>
      have hrest : ∃ q ∈ rest, (V.validateModel q).isValid = false := by
        obtain ⟨q, hq, hqv⟩ := h
        rcases List.mem_cons.mp hq with rfl | hq
        · rw [hv] at hqv; cases hqv
        · exact ⟨q, hq, hqv⟩
      obtain ⟨e, he⟩ := ih hrest
      exact ⟨e, by simp [ConfigManager.validateAllModels, hv, he]⟩

/-- C7. Import is the identity on accepted input: when every provider of the batch passes
`validateProvider` and every model passes `validateModel`, `importConfiguration` returns
`true`, and afterwards `getProviders()` is the providers of the batch and `getModels()` the
models of the batch, in the same order, whatever the store held before. -/
theorem importConfiguration_identity (V : Validation) (now : String)
    (providers : List Provider) (models : List Model) (s : ConfigManager)
    (hp : ∀ p ∈ providers, (V.validateProvider p).isValid = true)
    (hm : ∀ m ∈ models, (V.validateModel m).isValid = true) :
    (s.importConfiguration V now providers models).1 = .ok true
    ∧ (s.importConfiguration V now providers models).2.getProviders = providers
    ∧ (s.importConfiguration V now providers models).2.getModels = models := by
  simp [ConfigManager.importConfiguration, validateAllProviders_ok V providers hp,
    validateAllModels_ok V models hm, ConfigManager.saveConfiguration,
    ConfigManager.getProviders, ConfigManager.getModels]

/-- C7, instance: the import of `openAI` with its model into the sample store. -/
theorem importConfiguration_identity_witness :
    (∀ p ∈ [Sample.openAI], (specValidation.validateProvider p).isValid = true)
    ∧ (∀ m ∈ [Sample.gpt4], (specValidation.validateModel m).isValid = true)
    ∧ (Sample.savedStore.importConfiguration specValidation "t" [Sample.openAI]
        [Sample.gpt4]).1 = .ok true
    ∧ (Sample.savedStore.importConfiguration specValidation "t" [Sample.openAI]
        [Sample.gpt4]).2.getProviders = [Sample.openAI]
    ∧ (Sample.savedStore.importConfiguration specValidation "t" [Sample.openAI]
        [Sample.gpt4]).2.getModels = [Sample.gpt4] :=
  have h := importConfiguration_identity specValidation "t" [Sample.openAI] [Sample.gpt4]
    Sample.savedStore (by decide) (by decide)
  ⟨by decide, by decide, h.1, h.2.1, h.2.2⟩

/-- C8. No partial import: when at least one provider or model of the batch fails
validation, `importConfiguration` throws and the state after the call is the state before
it: the providers, the models and the blob in `localStorage` are what they were. -/
theorem importConfiguration_all_or_nothing (V : Validation) (now : String)
    (providers : List Provider) (models : List Model) (s : ConfigManager)
    (hbad : (∃ p ∈ providers, (V.validateProvider p).isValid = false)
      ∨ (∃ m ∈ models, (V.validateModel m).isValid = false)) :
    (∃ e, (s.importConfiguration V now providers models).1 = .error e)
    ∧ (s.importConfiguration V now providers models).2 = s := by
  cases hps : ConfigManager.validateAllProviders V providers with
  | error e => simp [ConfigManager.importConfiguration, hps]
  | ok u =>
    have hm : ∃ m ∈ models, (V.validateModel m).isValid = false := by
      rcases hbad with hp | hm
      · obtain ⟨e, he⟩ := validateAllProviders_error V providers hp
        rw [he] at hps
        cases hps
      · exact hm
    obtain ⟨e, he⟩ := validateAllModels_error V models hm
    simp [ConfigManager.importConfiguration, hps, he]

/-- C8, instance: a batch of valid records and one model without `modelId` is refused, and
the saved sample store, blob included, is as before. -/
theorem importConfiguration_all_or_nothing_witness :
    ((∃ p ∈ [Sample.openAI], (specValidation.validateProvider p).isValid = false)
      ∨ (∃ m ∈ [Sample.gpt4, Sample.noModelId],
          (specValidation.validateModel m).isValid = false))
    ∧ (∃ e, (Sample.savedStore.importConfiguration specValidation "t" [Sample.openAI]
        [Sample.gpt4, Sample.noModelId]).1 = .error e)
    ∧ (Sample.savedStore.importConfiguration specValidation "t" [Sample.openAI]
        [Sample.gpt4, Sample.noModelId]).2 = Sample.savedStore
    ∧ Sample.savedStore.localStorage.config
        = some { providers := [Sample.acme, Sample.openAI],
                 models := [Sample.gptX, Sample.gpt4], lastUpdated := "t0" } :=
  have h := importConfiguration_all_or_nothing specValidation "t" [Sample.openAI]
    [Sample.gpt4, Sample.noModelId] Sample.savedStore (by decide)
  ⟨by decide, h.1, h.2, by decide⟩

/-- C9. Failing record operations are all-or-nothing: whenever `addProvider`,
`updateProvider`, `deleteProvider`, `addModel`, `updateModel` or `deleteModel` throws, the
state after the call is the state before it: the providers, the models and the blob in
`localStorage` are what they were. -/
theorem failing_record_calls_change_nothing (V : Validation) (now : String)
    (p : Provider) (m : Model) (id : String) (s : ConfigManager) :
    (∀ e, (s.addProvider V now p).1 = .error e → (s.addProvider V now p).2 = s)
    ∧ (∀ e, (s.updateProvider V now p).1 = .error e → (s.updateProvider V now p).2 = s)
    ∧ (∀ e, (s.deleteProvider now id).1 = .error e → (s.deleteProvider now id).2 = s)
    ∧ (∀ e, (s.addModel V now m).1 = .error e → (s.addModel V now m).2 = s)
    ∧ (∀ e, (s.updateModel V now m).1 = .error e → (s.updateModel V now m).2 = s)
    ∧ (∀ e, (s.deleteModel now id).1 = .error e → (s.deleteModel now id).2 = s) := by
  refine ⟨?_, ?_, ?_, ?_, ?_, ?_⟩
  · intro e
    simp only [ConfigManager.addProvider]
    split
    · intro _; rfl
    · split
      · intro _; rfl
      · intro h; cases h
  · intro e
    simp only [ConfigManager.updateProvider]
    split
    · intro _; rfl
    · split
      · intro _; rfl
      · split
        · intro _; rfl
        · intro h; cases h
  · intro e
    simp only [ConfigManager.deleteProvider]
    split
    · intro _; rfl
    · intro h; cases h
  · intro e
    simp only [ConfigManager.addModel]
    split
    · intro _; rfl
    · split
      · intro _; rfl
      · split
        · intro _; rfl
        · intro h; cases h
  · intro e
    simp only [ConfigManager.updateModel]
    split
    · intro _; rfl
    · split
      · intro _; rfl
      · split
        · intro _; rfl
        · split
          · intro _; rfl
          · intro h; cases h
  · intro e
    simp only [ConfigManager.deleteModel]
    split
    · intro _; rfl
    · intro h; cases h

/-- C9, instance: on the saved sample store, a call of each operation that fails validation
or names a record the store does not hold, and calls that repeat a provider name or a
`(providerId, modelId)` pair, all throw and leave the state, blob included, as it was. -/
theorem failing_record_calls_change_nothing_witness :
    ((Sample.savedStore.addProvider specValidation "t" Sample.noName).1
        = .error (.invalidProviderData ["name is required"])
      ∧ (Sample.savedStore.addProvider specValidation "t" Sample.noName).2 = Sample.savedStore)
    ∧ ((Sample.savedStore.updateProvider specValidation "t" Sample.noName).1
        = .error (.invalidProviderData ["name is required"])
      ∧ (Sample.savedStore.updateProvider specValidation "t" Sample.noName).2
        = Sample.savedStore)
    ∧ ((Sample.savedStore.deleteProvider "t" "p9").1 = .error .providerNotFound
      ∧ (Sample.savedStore.deleteProvider "t" "p9").2 = Sample.savedStore)
    ∧ ((Sample.savedStore.addModel specValidation "t" Sample.noModelId).1
        = .error (.invalidModelData ["modelId is required"])
      ∧ (Sample.savedStore.addModel specValidation "t" Sample.noModelId).2 = Sample.savedStore)
    ∧ ((Sample.savedStore.updateModel specValidation "t" Sample.noModelId).1
        = .error (.invalidModelData ["modelId is required"])
      ∧ (Sample.savedStore.updateModel specValidation "t" Sample.noModelId).2
        = Sample.savedStore)
    ∧ ((Sample.savedStore.deleteModel "t" "p9").1 = .error .modelNotFound
      ∧ (Sample.savedStore.deleteModel "t" "p9").2 = Sample.savedStore)
    ∧ ((Sample.savedStore.addProvider specValidation "t" Sample.acmeAgain).1
        = .error .providerNameExists
      ∧ (Sample.savedStore.addProvider specValidation "t" Sample.acmeAgain).2
        = Sample.savedStore)
    ∧ ((Sample.savedStore.updateProvider specValidation "t" Sample.acmeAgain).1
        = .error .providerNotFound
      ∧ (Sample.savedStore.updateProvider specValidation "t" Sample.acmeAgain).2
        = Sample.savedStore)
    ∧ ((Sample.savedStore.addModel specValidation "t" Sample.gptXAgain).1
        = .error .duplicateModelId
      ∧ (Sample.savedStore.addModel specValidation "t" Sample.gptXAgain).2 = Sample.savedStore)
    ∧ ((Sample.savedStore.updateModel specValidation "t" Sample.gptXAgain).1
        = .error .modelNotFound
      ∧ (Sample.savedStore.updateModel specValidation "t" Sample.gptXAgain).2
        = Sample.savedStore)
    ∧ ((Sample.savedStore.addModel specValidation "t" Sample.gptXMoved).1
        = .error .providerNotFound
      ∧ (Sample.savedStore.addModel specValidation "t" Sample.gptXMoved).2
        = Sample.savedStore) :=
  have h1 := failing_record_calls_change_nothing specValidation "t" Sample.noName
    Sample.noModelId "p9" Sample.savedStore
  have h2 := failing_record_calls_change_nothing specValidation "t" Sample.acmeAgain
    Sample.gptXAgain "p9" Sample.savedStore
  have h3 := failing_record_calls_change_nothing specValidation "t" Sample.acmeAgain
    Sample.gptXMoved "p9" Sample.savedStore
  ⟨⟨by decide, h1.1 (.invalidProviderData ["name is required"]) (by decide)⟩,
    ⟨by decide, h1.2.1 (.invalidProviderData ["name is required"]) (by decide)⟩,
    ⟨by decide, h1.2.2.1 .providerNotFound (by decide)⟩,
    ⟨by decide, h1.2.2.2.1 (.invalidModelData ["modelId is required"]) (by decide)⟩,
    ⟨by decide, h1.2.2.2.2.1 (.invalidModelData ["modelId is required"]) (by decide)⟩,
    ⟨by decide, h1.2.2.2.2.2 .modelNotFound (by decide)⟩,
    ⟨by decide, h2.1 .providerNameExists (by decide)⟩,
    ⟨by decide, h2.2.1 .providerNotFound (by decide)⟩,
    ⟨by decide, h2.2.2.2.1 .duplicateModelId (by decide)⟩,
    ⟨by decide, h2.2.2.2.2.1 .modelNotFound (by decide)⟩,
    ⟨by decide, h3.2.2.2.1 .providerNotFound (by decide)⟩⟩

/-! ## Properties of the transformer -/

/-- The assignment `obj[key] = value` creates a property at the end when `obj` has no
property `key`. -/
theorem setEntries_of_not_mem {α : Type} (key : String) (value : α) :
    ∀ entries : List (String × α), key ∉ entries.map (fun e => e.1) →
      JsObject.setEntries key value entries = entries ++ [(key, value)] := by
  intro entries
  induction entries with
  | nil => intro _; rfl
  | cons e rest ih =>
    intro h
    obtain ⟨k, v⟩ := e
    have hk : k ≠ key := by
      intro hk
      exact h (by simp [hk])
    have hrest : key ∉ rest.map (fun e => e.1) := by
      intro hin
      exact h (by simp only [List.map_cons, List.mem_cons]; exact Or.inr hin)
    simp [JsObject.setEntries, hk, ih hrest]

/-- The first `forEach` of `uiToTaskMaster`, run over providers whose keys are pairwise
distinct and new to the object: each provider with a model adds one property at the end. -/
theorem foldl_addSupportedModels (models : List Model) :
    ∀ (providers : List Provider) (acc : JsObject (List SupportedModel)),
      (providers.map ConfigTransformer.getProviderKey).Nodup →
      (∀ p ∈ providers, ConfigTransformer.getProviderKey p ∉ acc.entries.map (fun e => e.1)) →
      (providers.foldl (ConfigTransformer.addSupportedModels models) acc).entries
        = acc.entries
          ++ (providers.filter
                (fun p => models.any (fun model => model.providerId == p.id))).map
              (fun p => (ConfigTransformer.getProviderKey p,
                (models.filter (fun model => model.providerId == p.id)).map
                  ConfigTransformer.toSupportedModel)) := by
  intro providers
  induction providers with
  | nil => intro acc _ _; simp
  | cons p rest ih =>
    intro acc hnodup hnew
    have hrestNodup := (List.nodup_cons.mp hnodup).2
    have hpNotRest := (List.nodup_cons.mp hnodup).1
    rw [List.foldl_cons]
    by_cases howns : models.any (fun model => model.providerId == p.id) = true
    · have hlen : (models.filter (fun model => model.providerId == p.id)).length > 0 := by
        obtain ⟨m, hm, hmp⟩ := List.any_eq_true.mp howns
        exact List.length_pos_of_mem (List.mem_filter.mpr ⟨hm, hmp⟩)
      have hstep : (ConfigTransformer.addSupportedModels models acc p).entries
          = acc.entries ++ [(ConfigTransformer.getProviderKey p,
              (models.filter (fun model => model.providerId == p.id)).map
                ConfigTransformer.toSupportedModel)] := by
        simp only [ConfigTransformer.addSupportedModels, hlen, if_true, JsObject.set]
        exact setEntries_of_not_mem _ _ _ (hnew p (List.mem_cons_self _ _))
      have hnew' : ∀ q ∈ rest, ConfigTransformer.getProviderKey q
          ∉ (ConfigTransformer.addSupportedModels models acc p).entries.map (fun e => e.1) := by
        intro q hq hin
        rw [hstep] at hin
        simp only [List.map_append, List.map_cons, List.map_nil, List.mem_append,
          List.mem_singleton] at hin
        rcases hin with hin | hin
        · exact hnew q (List.mem_cons_of_mem _ hq) hin
        · exact hpNotRest (hin ▸ List.mem_map_of_mem _ hq)
      rw [ih _ hrestNodup hnew', hstep, List.filter_cons, if_pos howns]
      simp
    · have hlen : ¬ (models.filter (fun model => model.providerId == p.id)).length > 0 := by
        intro hpos
        obtain ⟨m, hm⟩ := List.exists_mem_of_length_pos hpos
        have := List.mem_filter.mp hm
        exact howns (List.any_eq_true.mpr ⟨m, this.1, this.2⟩)
      have hstep : ConfigTransformer.addSupportedModels models acc p = acc := by
        simp only [ConfigTransformer.addSupportedModels, hlen, if_false]
      rw [hstep, ih acc hrestNodup (fun q hq => hnew q (List.mem_cons_of_mem _ hq)),
        List.filter_cons, if_neg howns]

/-- C10. `supportedModels` is the grouping of the models by provider: when the derived keys
of the providers are pairwise distinct (distinct ids are not needed), the properties of
`supportedModels` are, in the order of the providers, one per provider that owns at least
one model, under the derived key of that provider, and the value is the list of the models
of that provider in collection order, each projected by `toSupportedModel` to
`{id, swe_score, cost_per_1m_tokens, allowed_roles, max_tokens}`. -/
theorem uiToTaskMaster_supportedModels_grouping (providers : List Provider)
    (models : List Model)
    (hkeys : (providers.map ConfigTransformer.getProviderKey).Nodup) :
    (ConfigTransformer.uiToTaskMaster providers models).supportedModels.entries
      = (providers.filter (fun p => models.any (fun model => model.providerId == p.id))).map
          (fun p => (ConfigTransformer.getProviderKey p,
            (models.filter (fun model => model.providerId == p.id)).map
              ConfigTransformer.toSupportedModel)) := by
  have h := foldl_addSupportedModels models providers JsObject.empty hkeys
    (by intro p _ hin; simp [JsObject.empty] at hin)
  simpa [ConfigTransformer.uiToTaskMaster, JsObject.empty] using h

/-- C10, instance: the provider `Acme` with the model `gpt-x` of the specification. -/
theorem uiToTaskMaster_supportedModels_grouping_witness :
    ([Sample.acme].map ConfigTransformer.getProviderKey).Nodup
    ∧ (ConfigTransformer.uiToTaskMaster [Sample.acme] [Sample.gptX]).supportedModels.entries
      = [("acme", [{ id := "gpt-x", swe_score := some (1 / 2),
                     cost_per_1m_tokens := { input := 1, output := 2 },
                     allowed_roles := ["main"], max_tokens := 1000 }])] := by
  refine ⟨by decide, ?_⟩
  rw [uiToTaskMaster_supportedModels_grouping [Sample.acme] [Sample.gptX] (by decide)]
  have hkey : ConfigTransformer.getProviderKey Sample.acme = "acme" := by decide
  have hprov : [Sample.acme].filter
      (fun p => [Sample.gptX].any (fun model => model.providerId == p.id)) = [Sample.acme] := by
    decide
  have hfilter : [Sample.gptX].filter (fun model => model.providerId == Sample.acme.id)
      = [Sample.gptX] := by decide
  rw [hprov]
  simp only [List.map_cons, List.map_nil, hkey, hfilter]
  simp [ConfigTransformer.toSupportedModel, ConfigTransformer.orNumber, Sample.gptX]
  norm_num

/-- The first model that carries a role heads the models that carry it. -/
theorem filter_split_first {α : Type} (f : α → Bool) (before after : List α) (x : α)
    (hx : f x = true) (hbefore : ∀ q ∈ before, f q = false) :
    (before ++ x :: after).filter f = x :: after.filter f := by
  have h : before.filter f = [] := by
    apply List.filter_eq_nil_iff.mpr
    intro q hq
    simp [hbefore q hq]
  simp [List.filter_append, h, List.filter_cons, hx]

/-- `config.models[role]` is the outcome of the block of that role. -/
theorem uiToTaskMaster_models_get? (providers : List Provider) (models : List Model)
    (role : String) (hrole : role ∈ roleSet) :
    (ConfigTransformer.uiToTaskMaster providers models).config.models.get? role
      = ConfigTransformer.activeModel providers models role := by
  simp only [roleSet, List.mem_cons, List.mem_singleton, List.mem_nil_iff, or_false] at hrole
  rcases hrole with rfl | rfl | rfl <;>
    simp [ConfigTransformer.uiToTaskMaster, ActiveModels.get?]

/-- C11. Role selection is first-match by collection order: for a role among `main`,
`fallback` and `research`, when the `providerId` of every model is the id of a provider,
`config.models` has the key of the role if and only if some model carries the role, and then
its value is `{provider, model}` with the derived key of the provider of the first model
that carries the role and the `modelId` of that model; no score is consulted, and a role
that no model carries has no key. -/
theorem uiToTaskMaster_role_selection (providers : List Provider) (models : List Model)
    (role : String) (hrole : role ∈ roleSet)
    (href : ∀ m ∈ models, ∃ p ∈ providers, p.id = m.providerId) :
    (((ConfigTransformer.uiToTaskMaster providers models).config.models.get? role).isSome = true
        ↔ ∃ m ∈ models, ConfigTransformer.includesRole role m = true)
    ∧ (∀ before m after, models = before ++ m :: after →
        ConfigTransformer.includesRole role m = true →
        (∀ q ∈ before, ConfigTransformer.includesRole role q = false) →
        ∃ p, providers.find? (fun p => p.id == m.providerId) = some p
          ∧ (ConfigTransformer.uiToTaskMaster providers models).config.models.get? role
              = some { provider := ConfigTransformer.getProviderKey p, model := m.modelId }) := by
  rw [uiToTaskMaster_models_get? providers models role hrole]
  have hfound : ∀ m ∈ models, ∃ p, providers.find? (fun p => p.id == m.providerId) = some p := by
    intro m hm
    obtain ⟨p, hp, hpid⟩ := href m hm
    cases hf : providers.find? (fun p => p.id == m.providerId) with
    | none =>
      have := List.find?_eq_none.mp hf p hp
      simp [hpid] at this
    | some q => exact ⟨q, rfl⟩
  constructor
  · constructor
    · intro hsome
      cases hfilter : models.filter (ConfigTransformer.includesRole role) with
      | nil => simp [ConfigTransformer.activeModel, hfilter] at hsome
      | cons m rest =>
        have hm : m ∈ models.filter (ConfigTransformer.includesRole role) := by
          rw [hfilter]; exact List.mem_cons_self _ _
        exact ⟨m, (List.mem_filter.mp hm).1, (List.mem_filter.mp hm).2⟩
    · intro hex
      obtain ⟨m, hm, hrolem⟩ := hex
      cases hfilter : models.filter (ConfigTransformer.includesRole role) with
      | nil =>
        have : m ∈ models.filter (ConfigTransformer.includesRole role) :=
          List.mem_filter.mpr ⟨hm, hrolem⟩
        rw [hfilter] at this
        cases this
      | cons m' rest =>
        have hm' : m' ∈ models.filter (ConfigTransformer.includesRole role) := by
          rw [hfilter]; exact List.mem_cons_self _ _
        obtain ⟨p, hp⟩ := hfound m' (List.mem_filter.mp hm').1
        simp [ConfigTransformer.activeModel, hfilter, hp]
  · intro before m after hsplit hrolem hbefore
    obtain ⟨p, hp⟩ := hfound m (by rw [hsplit]; simp)
    refine ⟨p, hp, ?_⟩
    have hfilter := filter_split_first (ConfigTransformer.includesRole role) before after m
      hrolem hbefore
    simp [ConfigTransformer.activeModel, hsplit, hfilter, hp]

/-- C11, instance: `gptX` and `gptY` both carry `main`; `gptX` comes first and is selected
although `gptY` has the higher score. Only `gptY` carries `fallback`; no model carries
`research`. -/
theorem uiToTaskMaster_role_selection_witness :
    ("main" ∈ roleSet ∧ ∀ m ∈ [Sample.gptX, Sample.gptY], ∃ p ∈ [Sample.acme], p.id = m.providerId)
    ∧ (ConfigTransformer.uiToTaskMaster [Sample.acme] [Sample.gptX, Sample.gptY]).config.models.get?
        "main" = some { provider := "acme", model := "gpt-x" }
    ∧ (ConfigTransformer.uiToTaskMaster [Sample.acme] [Sample.gptX, Sample.gptY]).config.models.get?
        "fallback" = some { provider := "acme", model := "gpt-y" }
    ∧ (ConfigTransformer.uiToTaskMaster [Sample.acme] [Sample.gptX, Sample.gptY]).config.models.get?
        "research" = none := by
  have h := uiToTaskMaster_role_selection [Sample.acme] [Sample.gptX, Sample.gptY] "main"
    (by decide) (by decide)
  obtain ⟨p, hp, hget⟩ := h.2 [] Sample.gptX [Sample.gptY] rfl (by decide) (by decide)
  have hpeq : p = Sample.acme := by
    have : [Sample.acme].find? (fun p => p.id == Sample.gptX.providerId) = some Sample.acme := by
      decide
    rw [this] at hp
    exact (Option.some.inj hp).symm
  refine ⟨⟨by decide, by decide⟩, ?_, by decide, by decide⟩
  rw [hget, hpeq]
  decide

/-- After `obj[key] = value` every property is the new one or an old one. -/
theorem mem_setEntries {α : Type} (key : String) (value : α) (e : String × α) :
    ∀ entries : List (String × α), e ∈ JsObject.setEntries key value entries →
      e = (key, value) ∨ e ∈ entries := by
  intro entries
  induction entries with
  | nil =>
    intro h
    simp only [JsObject.setEntries, List.mem_singleton] at h
    exact Or.inl h
  | cons head rest ih =>
    obtain ⟨k, v⟩ := head
    intro h
    simp only [JsObject.setEntries] at h
    split at h
    · rename_i hk
      rcases List.mem_cons.mp h with h | h
      · exact Or.inl (by rw [h, hk])
      · exact Or.inr (List.mem_cons_of_mem _ h)
    · rcases List.mem_cons.mp h with h | h
      · exact Or.inr (by rw [h]; exact List.mem_cons_self _ _)
      · rcases ih h with h | h
        · exact Or.inl h
        · exact Or.inr (List.mem_cons_of_mem _ h)

/-- The first `forEach` of `uiToTaskMaster` only stores projections of input models. -/
theorem foldl_addSupportedModels_emits (models : List Model) :
    ∀ (providers : List Provider) (acc : JsObject (List SupportedModel)),
      (∀ e ∈ acc.entries, ∀ x ∈ e.2, ∃ m ∈ models, x = ConfigTransformer.toSupportedModel m) →
      ∀ e ∈ (providers.foldl (ConfigTransformer.addSupportedModels models) acc).entries,
        ∀ x ∈ e.2, ∃ m ∈ models, x = ConfigTransformer.toSupportedModel m := by
  intro providers
  induction providers with
  | nil => intro acc hacc; exact hacc
  | cons p rest ih =>
    intro acc hacc
    rw [List.foldl_cons]
    apply ih
    intro e he x hx
    simp only [ConfigTransformer.addSupportedModels] at he
    split at he
    · rcases mem_setEntries _ _ _ _ he with h | h
      · rw [h] at hx
        obtain ⟨m, hm, hmx⟩ := List.mem_map.mp hx
        exact ⟨m, (List.mem_filter.mp hm).1, hmx.symm⟩
      · exact hacc e h x hx
    · exact hacc e he x hx

/-- Every entry of `supportedModels` is the projection of a model of the input. -/
theorem uiToTaskMaster_emits (providers : List Provider) (models : List Model) :
    ∀ e ∈ (ConfigTransformer.uiToTaskMaster providers models).supportedModels.entries,
      ∀ x ∈ e.2, ∃ m ∈ models, x = ConfigTransformer.toSupportedModel m :=
  foldl_addSupportedModels_emits models providers JsObject.empty
    (by intro e he; simp [JsObject.empty] at he)

/-- C12, as stated, fails at the score `0`: for the model `gptX` with `sweScore` 0 the
emitted `swe_score` is `null`, not `0`. -/
theorem swe_score_zero_counterexample :
    Sample.gptXZero.sweScore = some 0
    ∧ (ConfigTransformer.uiToTaskMaster [Sample.acme]
        [Sample.gptXZero]).supportedModels.entries.map
          (fun e => (e.1, e.2.map (fun x => (x.id, x.swe_score))))
        = [("acme", [("gpt-x", none)])] := by
  decide

/-- C12, amended: every entry that `uiToTaskMaster` emits is the projection of a model of
the input; for a model whose `sweScore` is a number other than `0` the `swe_score` of the
projection is `sweScore / 100`, and it is `null` exactly for a model whose `sweScore` is
absent or `0`. -/
theorem uiToTaskMaster_swe_score (providers : List Provider) (models : List Model) :
    (∀ e ∈ (ConfigTransformer.uiToTaskMaster providers models).supportedModels.entries,
      ∀ x ∈ e.2, ∃ m ∈ models, x = ConfigTransformer.toSupportedModel m)
    ∧ (∀ (m : Model) (v : ℚ), m.sweScore = some v → v ≠ 0 →
        (ConfigTransformer.toSupportedModel m).swe_score = some (v / 100))
    ∧ (∀ m : Model, (ConfigTransformer.toSupportedModel m).swe_score = none
        ↔ (m.sweScore = none ∨ m.sweScore = some 0)) := by
  refine ⟨uiToTaskMaster_emits providers models, ?_, ?_⟩
  · intro m v hv hne
    simp [ConfigTransformer.toSupportedModel, hv, hne]
  · intro m
    cases hs : m.sweScore with
    | none => simp [ConfigTransformer.toSupportedModel, hs]
    | some v =>
      by_cases hv : v = 0
      · simp [ConfigTransformer.toSupportedModel, hs, hv]
      · simp [ConfigTransformer.toSupportedModel, hs, hv]

/-- C12, instance: the score 50 of `gptX` is emitted as 50/100, the score 0 of `gptXZero`
and the missing score of `gpt4` as `null`. -/
theorem uiToTaskMaster_swe_score_witness :
    (ConfigTransformer.toSupportedModel Sample.gptX).swe_score = some (50 / 100)
    ∧ (ConfigTransformer.toSupportedModel Sample.gptXZero).swe_score = none
    ∧ (ConfigTransformer.toSupportedModel Sample.gpt4).swe_score = none :=
  have h := uiToTaskMaster_swe_score [Sample.acme] [Sample.gptX]
  ⟨h.2.1 Sample.gptX 50 rfl (by norm_num), (h.2.2 Sample.gptXZero).mpr (Or.inr rfl),
    (h.2.2 Sample.gpt4).mpr (Or.inl rfl)⟩

/-- A read after `obj[key] = value` under the same key gives `value`. -/
theorem get?_set_self {α : Type} (obj : JsObject α) (key : String) (value : α) :
    (obj.set key value).get? key = some value := by
  obtain ⟨entries⟩ := obj
  simp only [JsObject.set, JsObject.get?]
  induction entries with
  | nil => simp [JsObject.setEntries]
  | cons head rest ih =>
    obtain ⟨k, v⟩ := head
    by_cases hk : k = key
    · simp [JsObject.setEntries, hk]
    · simp only [JsObject.setEntries, hk, if_false, List.find?_cons, decide_False]
      exact ih

/-- The assignment `obj[key] = value` leaves the reads under other keys as they were. -/
theorem get?_set_of_ne {α : Type} (obj : JsObject α) (key other : String) (value : α)
    (h : other ≠ key) : (obj.set key value).get? other = obj.get? other := by
  obtain ⟨entries⟩ := obj
  simp only [JsObject.set, JsObject.get?]
  induction entries with
  | nil => simp [JsObject.setEntries, Ne.symm h]
  | cons head rest ih =>
    obtain ⟨k, v⟩ := head
    by_cases hk : k = key
    · have hko : k ≠ other := fun hko => h (hko.symm.trans hk)
      simp [JsObject.setEntries, hk, hko, Ne.symm h]
    · by_cases hko : k = other
      · subst hko
        simp [JsObject.setEntries, hk]
      · simp only [JsObject.setEntries, hk, if_false, List.find?_cons, hko, decide_False]
        exact ih

/-- The assignment `obj[key] = value` keeps the keys of `obj` pairwise distinct. -/
theorem setEntries_keys {α : Type} (key : String) (value : α) :
    ∀ entries : List (String × α),
      (JsObject.setEntries key value entries).map (fun e => e.1)
        = if key ∈ entries.map (fun e => e.1) then entries.map (fun e => e.1)
          else entries.map (fun e => e.1) ++ [key] := by
  intro entries
  induction entries with
  | nil => simp [JsObject.setEntries]
  | cons head rest ih =>
    obtain ⟨k, v⟩ := head
    by_cases hk : k = key
    · simp [JsObject.setEntries, hk]
    · have hkey : key ≠ k := fun h => hk h.symm
      simp only [JsObject.setEntries, hk, if_false, List.map_cons, ih, List.mem_cons, hkey,
        false_or]
      split <;> simp

/-- The keys of `obj` stay pairwise distinct under `obj[key] = value`. -/
theorem set_keys_nodup {α : Type} (obj : JsObject α) (key : String) (value : α)
    (h : (obj.entries.map (fun e => e.1)).Nodup) :
    ((obj.set key value).entries.map (fun e => e.1)).Nodup := by
  simp only [JsObject.set, setEntries_keys]
  split
  · exact h
  · rename_i hnot
    exact List.nodup_append.mpr ⟨h, List.nodup_singleton _, by simpa using hnot⟩

/-- The second `forEach` of `uiToTaskMaster` leaves a key alone that no provider derives. -/
theorem foldl_addProviderEntry_get?_of_ne (key : String) :
    ∀ (providers : List Provider) (acc : JsObject ProviderEntry),
      (∀ q ∈ providers, ConfigTransformer.getProviderKey q ≠ key) →
      (providers.foldl ConfigTransformer.addProviderEntry acc).get? key = acc.get? key := by
  intro providers
  induction providers with
  | nil => intro acc _; rfl
  | cons p rest ih =>
    intro acc h
    rw [List.foldl_cons, ih _ (fun q hq => h q (List.mem_cons_of_mem _ hq))]
    exact get?_set_of_ne acc _ key _ (Ne.symm (h p (List.mem_cons_self _ _)))

/-- The first `forEach` of `uiToTaskMaster` leaves a key alone that no provider derives. -/
theorem foldl_addSupportedModels_get?_of_ne (models : List Model) (key : String) :
    ∀ (providers : List Provider) (acc : JsObject (List SupportedModel)),
      (∀ q ∈ providers, ConfigTransformer.getProviderKey q ≠ key) →
      (providers.foldl (ConfigTransformer.addSupportedModels models) acc).get? key
        = acc.get? key := by
  intro providers
  induction providers with
  | nil => intro acc _; rfl
  | cons p rest ih =>
    intro acc h
    rw [List.foldl_cons, ih _ (fun q hq => h q (List.mem_cons_of_mem _ hq))]
    simp only [ConfigTransformer.addSupportedModels]
    split
    · exact get?_set_of_ne acc _ key _ (Ne.symm (h p (List.mem_cons_self _ _)))
    · rfl

/-- The keys of `config.providers` and of `supportedModels` are pairwise distinct. -/
theorem uiToTaskMaster_keys_nodup (providers : List Provider) (models : List Model) :
    ((ConfigTransformer.uiToTaskMaster providers models).supportedModels.entries.map
        (fun e => e.1)).Nodup
    ∧ ((ConfigTransformer.uiToTaskMaster providers models).config.providers.entries.map
        (fun e => e.1)).Nodup := by
  constructor
  · simp only [ConfigTransformer.uiToTaskMaster]
    have h : ∀ (ps : List Provider) (acc : JsObject (List SupportedModel)),
        (acc.entries.map (fun e => e.1)).Nodup →
        ((ps.foldl (ConfigTransformer.addSupportedModels models) acc).entries.map
          (fun e => e.1)).Nodup := by
      intro ps
      induction ps with
      | nil => intro acc hacc; exact hacc
      | cons p rest ih =>
        intro acc hacc
        rw [List.foldl_cons]
        apply ih
        simp only [ConfigTransformer.addSupportedModels]
        split
        · exact set_keys_nodup acc _ _ hacc
        · exact hacc
    exact h providers JsObject.empty (by simp [JsObject.empty])
  · simp only [ConfigTransformer.uiToTaskMaster]
    have h : ∀ (ps : List Provider) (acc : JsObject ProviderEntry),
        (acc.entries.map (fun e => e.1)).Nodup →
        ((ps.foldl ConfigTransformer.addProviderEntry acc).entries.map
          (fun e => e.1)).Nodup := by
      intro ps
      induction ps with
      | nil => intro acc hacc; exact hacc
      | cons p rest ih =>
        intro acc hacc
        rw [List.foldl_cons]
        apply ih
        exact set_keys_nodup acc _ _ hacc
    exact h providers JsObject.empty (by simp [JsObject.empty])

/-- Every key of `supportedModels` is the derived key of a provider that owns a model. -/
theorem foldl_addSupportedModels_keys (models : List Model) :
    ∀ (providers : List Provider) (acc : JsObject (List SupportedModel)),
      ∀ e ∈ (providers.foldl (ConfigTransformer.addSupportedModels models) acc).entries,
        e ∈ acc.entries
        ∨ ∃ q ∈ providers, ConfigTransformer.getProviderKey q = e.1
            ∧ models.any (fun model => model.providerId == q.id) = true := by
  intro providers
  induction providers with
  | nil => intro acc e he; exact Or.inl he
  | cons p rest ih =>
    intro acc e he
    rw [List.foldl_cons] at he
    rcases ih _ e he with h | ⟨q, hq, hkey, hown⟩
    · simp only [ConfigTransformer.addSupportedModels] at h
      split at h
      · rename_i hlen
        rcases mem_setEntries _ _ _ _ h with h | h
        · refine Or.inr ⟨p, List.mem_cons_self _ _, by rw [h], ?_⟩
          obtain ⟨m, hm⟩ := List.exists_mem_of_length_pos hlen
          exact List.any_eq_true.mpr ⟨m, (List.mem_filter.mp hm).1, (List.mem_filter.mp hm).2⟩
        · exact Or.inl h
      · exact Or.inl h
    · exact Or.inr ⟨q, List.mem_cons_of_mem _ hq, hkey, hown⟩

/-- The entry of `config.providers` under a derived key is that of the last provider of the
list that derives the key. -/
theorem config_providers_get?_last (before after : List Provider) (p : Provider)
    (models : List Model)
    (hlast : ∀ q ∈ after, ConfigTransformer.getProviderKey q ≠ ConfigTransformer.getProviderKey p) :
    (ConfigTransformer.uiToTaskMaster (before ++ p :: after) models).config.providers.get?
        (ConfigTransformer.getProviderKey p)
      = some { name := p.name, endpoint := p.endpoint, type := p.type, apiKey := p.apiKey } := by
  simp only [ConfigTransformer.uiToTaskMaster, List.foldl_append, List.foldl_cons]
  rw [foldl_addProviderEntry_get?_of_ne _ after _ hlast]
  exact get?_set_self _ _ _

/-- C13, as stated, fails when two providers derive the same key: the entry of
`config.providers` under the key of `Polo AI` is the entry of `PoloAI`, which comes later
in the list. -/
theorem config_providers_counterexample :
    Sample.poloSpaced ∈ [Sample.poloSpaced, Sample.poloJoined]
    ∧ (ConfigTransformer.uiToTaskMaster [Sample.poloSpaced, Sample.poloJoined]
        []).config.providers.get? (ConfigTransformer.getProviderKey Sample.poloSpaced)
      = some { name := "PoloAI", endpoint := "https://b", type := "openai", apiKey := "kb" }
    ∧ Sample.poloSpaced.name = "Polo AI" := by
  decide

/-- C13, amended: for every provider `p` of the list after which no provider with the same
derived key occurs (so for every provider when the derived keys are pairwise distinct),
with or without models, `config.providers` holds under the derived key of `p` the entry
`{name, endpoint, type, apiKey}` of `p`; and every key of `supportedModels` is the derived
key of a provider that owns at least one model, so that a provider without models
contributes no key. -/
theorem uiToTaskMaster_config_providers (before after : List Provider) (p : Provider)
    (models : List Model)
    (hlast : ∀ q ∈ after, ConfigTransformer.getProviderKey q ≠ ConfigTransformer.getProviderKey p) :
    (ConfigTransformer.uiToTaskMaster (before ++ p :: after) models).config.providers.get?
        (ConfigTransformer.getProviderKey p)
      = some { name := p.name, endpoint := p.endpoint, type := p.type, apiKey := p.apiKey }
    ∧ (∀ e ∈ (ConfigTransformer.uiToTaskMaster (before ++ p :: after)
          models).supportedModels.entries,
        ∃ q ∈ before ++ p :: after, ConfigTransformer.getProviderKey q = e.1
          ∧ models.any (fun model => model.providerId == q.id) = true) := by
  constructor
  · exact config_providers_get?_last before after p models hlast
  · intro e he
    rcases foldl_addSupportedModels_keys models _ JsObject.empty e he with h | h
    · simp [JsObject.empty] at h
    · exact h

/-- C13, instance: `acme` owns a model and `openAI` owns none; both have their entry in
`config.providers`, and `supportedModels` has the key of `acme` only. -/
theorem uiToTaskMaster_config_providers_witness :
    (∀ q ∈ [Sample.openAI],
      ConfigTransformer.getProviderKey q ≠ ConfigTransformer.getProviderKey Sample.acme)
    ∧ (ConfigTransformer.uiToTaskMaster [Sample.acme, Sample.openAI]
        [Sample.gptX]).config.providers.get? "acme"
      = some { name := "Acme", endpoint := "https://x", type := "openai", apiKey := "k" }
    ∧ (ConfigTransformer.uiToTaskMaster [Sample.acme, Sample.openAI]
        [Sample.gptX]).config.providers.get? "openai"
      = some { name := "OpenAI", endpoint := "https://api.openai.com", type := "openai",
               apiKey := "" }
    ∧ (ConfigTransformer.uiToTaskMaster [Sample.acme, Sample.openAI]
        [Sample.gptX]).supportedModels.entries.map (fun e => e.1) = ["acme"] := by
  have h1 := uiToTaskMaster_config_providers [] [Sample.openAI] Sample.acme [Sample.gptX]
    (by decide)
  have h2 := uiToTaskMaster_config_providers [Sample.acme] [] Sample.openAI [Sample.gptX]
    (by decide)
  exact ⟨by decide, h1.1, h2.1, by decide⟩

/-- C14, as stated, fails: `uiToTaskMaster` has no error to raise. For `Polo AI` and
`PoloAI`, which derive the key `poloai` and own one model each, it returns a result whose
`supportedModels` has the single key `poloai` with the model of `PoloAI`, and whose
`config.providers` has the single entry of `PoloAI`. -/
theorem key_collision_counterexample :
    Sample.poloSpaced.name ≠ Sample.poloJoined.name
    ∧ ConfigTransformer.getProviderKey Sample.poloSpaced
        = ConfigTransformer.getProviderKey Sample.poloJoined
    ∧ [Sample.poloOne, Sample.poloTwo].any (fun m => m.providerId == Sample.poloSpaced.id) = true
    ∧ [Sample.poloOne, Sample.poloTwo].any (fun m => m.providerId == Sample.poloJoined.id) = true
    ∧ (ConfigTransformer.uiToTaskMaster [Sample.poloSpaced, Sample.poloJoined]
        [Sample.poloOne, Sample.poloTwo]).supportedModels.entries.map
          (fun e => (e.1, e.2.map (fun x => x.id)))
        = [("poloai", ["polo-2"])]
    ∧ (ConfigTransformer.uiToTaskMaster [Sample.poloSpaced, Sample.poloJoined]
        [Sample.poloOne, Sample.poloTwo]).config.providers.entries
        = [("poloai", { name := "PoloAI", endpoint := "https://b", type := "openai",
                        apiKey := "kb" })] := by
  decide

/-- C14, amended: when two providers derive the same key and the second of them is the
last provider of the list that derives this key and owns at least one model,
`uiToTaskMaster` raises no error and returns a result in which `supportedModels` holds under
the shared key the model list of the second provider and `config.providers` the entry of the
second provider; each of the two objects has the key once. -/
theorem uiToTaskMaster_key_collision (front after : List Provider) (p1 p2 : Provider)
    (models : List Model) (hp1 : p1 ∈ front)
    (hkey : ConfigTransformer.getProviderKey p1 = ConfigTransformer.getProviderKey p2)
    (hown : models.any (fun model => model.providerId == p2.id) = true)
    (hlast : ∀ q ∈ after,
      ConfigTransformer.getProviderKey q ≠ ConfigTransformer.getProviderKey p2) :
    p1 ∈ front ++ p2 :: after
    ∧ (ConfigTransformer.uiToTaskMaster (front ++ p2 :: after) models).supportedModels.get?
        (ConfigTransformer.getProviderKey p1)
      = some ((models.filter (fun model => model.providerId == p2.id)).map
          ConfigTransformer.toSupportedModel)
    ∧ (ConfigTransformer.uiToTaskMaster (front ++ p2 :: after) models).config.providers.get?
        (ConfigTransformer.getProviderKey p1)
      = some { name := p2.name, endpoint := p2.endpoint, type := p2.type, apiKey := p2.apiKey }
    ∧ ((ConfigTransformer.uiToTaskMaster (front ++ p2 :: after) models).supportedModels.entries.map
        (fun e => e.1)).Nodup
    ∧ ((ConfigTransformer.uiToTaskMaster (front ++ p2 :: after) models).config.providers.entries.map
        (fun e => e.1)).Nodup := by
  refine ⟨List.mem_append_left _ hp1, ?_, ?_, (uiToTaskMaster_keys_nodup _ _).1,
    (uiToTaskMaster_keys_nodup _ _).2⟩
  · rw [hkey]
    simp only [ConfigTransformer.uiToTaskMaster, List.foldl_append, List.foldl_cons]
    rw [foldl_addSupportedModels_get?_of_ne models _ after _ hlast]
    have hlen : (models.filter (fun model => model.providerId == p2.id)).length > 0 := by
      obtain ⟨m, hm, hmp⟩ := List.any_eq_true.mp hown
      exact List.length_pos_of_mem (List.mem_filter.mpr ⟨hm, hmp⟩)
    simp only [ConfigTransformer.addSupportedModels, hlen, if_true]
    exact get?_set_self _ _ _
  · rw [hkey]
    exact config_providers_get?_last front after p2 models hlast

/-- C14, instance: `Polo AI` and `PoloAI`; the model list and the entry under `poloai` are
those of `PoloAI`. -/
theorem uiToTaskMaster_key_collision_witness :
    (Sample.poloSpaced ∈ [Sample.poloSpaced]
      ∧ ConfigTransformer.getProviderKey Sample.poloSpaced
          = ConfigTransformer.getProviderKey Sample.poloJoined)
    ∧ (ConfigTransformer.uiToTaskMaster [Sample.poloSpaced, Sample.poloJoined]
        [Sample.poloOne, Sample.poloTwo]).supportedModels.get?
          (ConfigTransformer.getProviderKey Sample.poloSpaced)
        = some ([Sample.poloTwo].map ConfigTransformer.toSupportedModel)
    ∧ (ConfigTransformer.uiToTaskMaster [Sample.poloSpaced, Sample.poloJoined]
        [Sample.poloOne, Sample.poloTwo]).config.providers.get?
          (ConfigTransformer.getProviderKey Sample.poloSpaced)
        = some { name := "PoloAI", endpoint := "https://b", type := "openai", apiKey := "kb" } :=
  have h := uiToTaskMaster_key_collision [Sample.poloSpaced] [] Sample.poloSpaced
    Sample.poloJoined [Sample.poloOne, Sample.poloTwo] (by decide) (by decide) (by decide)
    (by decide)
  ⟨⟨by decide, by decide⟩, h.2.1, h.2.2.1⟩

/-! ## Properties of `taskMasterToUi` -/

/-- The inner `forEach` of `taskMasterToUi` raises nothing when every entry has an `id`, and
pushes one model per entry, in entry order. -/
theorem synthesizeModels_ok (suffix : ℕ → String) (providerKey providerId : String) :
    ∀ (entries : List ModelEntry) (n : ℕ), (∀ e ∈ entries, e.id.isSome = true) →
      ∃ models n', ConfigTransformer.synthesizeModels suffix providerKey providerId entries n
          = .ok (models, n')
        ∧ List.Forall₂
            (fun modelData model => ∃ i,
              ConfigTransformer.synthesizeModel providerKey providerId
                (ConfigTransformer.generateId suffix i "model") modelData = .ok model)
            entries models := by
  intro entries
  induction entries with
  | nil => intro n _; exact ⟨[], n, rfl, List.Forall₂.nil⟩
  | cons e rest ih =>
    intro n h
    have he := h e (List.mem_cons_self _ _)
    obtain ⟨id, hid⟩ := Option.isSome_iff_exists.mp he
    obtain ⟨models, n', hrest, hall⟩ := ih (n + 1) (fun x hx => h x (List.mem_cons_of_mem _ hx))
    have hmodel : ∃ model, ConfigTransformer.synthesizeModel providerKey providerId
        (ConfigTransformer.generateId suffix n "model") e = .ok model := by
      simp [ConfigTransformer.synthesizeModel, hid]
    obtain ⟨model, hmodel⟩ := hmodel
    refine ⟨model :: models, n', ?_, List.Forall₂.cons ⟨n, hmodel⟩ hall⟩
    simp [ConfigTransformer.synthesizeModels, hmodel, hrest]

/-- What `convertible` says about one key. -/
theorem convertible_key (supportedModels : JsObject (Option (List ModelEntry)))
    (h : ConfigTransformer.convertible supportedModels = true) (k : String)
    (hk : k ∈ supportedModels.keys) :
    ∃ entries, supportedModels.get? k = some (some entries)
      ∧ ∀ e ∈ entries, e.id.isSome = true := by
  have hall := List.all_eq_true.mp h k hk
  cases hget : supportedModels.get? k with
  | none => simp [hget] at hall
  | some value =>
    cases value with
    | none => simp [hget] at hall
    | some entries =>
      refine ⟨entries, rfl, ?_⟩
      intro e he
      simp only [hget] at hall
      exact List.all_eq_true.mp hall e he

/-- The outer `forEach` of `taskMasterToUi` raises nothing over keys that hold arrays of
entries with an `id`, and pushes, key by key, the provider of the key and its models. -/
theorem synthesizeKeys_ok (suffix : ℕ → String)
    (supportedModels : JsObject (Option (List ModelEntry)))
    (configProviders : JsObject ProviderRead) :
    ∀ (keys : List String) (n : ℕ),
      (∀ k ∈ keys, ∃ entries, supportedModels.get? k = some (some entries)
        ∧ ∀ e ∈ entries, e.id.isSome = true) →
      ∃ groups : List (Provider × List Model),
        ConfigTransformer.synthesizeKeys suffix supportedModels configProviders keys n
          = .ok (groups.map (fun g => g.1), groups.flatMap (fun g => g.2))
        ∧ List.Forall₂ (ConfigTransformer.SynthesizedFor suffix supportedModels configProviders)
            keys groups := by
  intro keys
  induction keys with
  | nil => intro n _; exact ⟨[], rfl, List.Forall₂.nil⟩
  | cons k rest ih =>
    intro n h
    obtain ⟨entries, hget, hids⟩ := h k (List.mem_cons_self _ _)
    obtain ⟨models, n', hmodels, hall⟩ := synthesizeModels_ok suffix k
      (ConfigTransformer.generateId suffix n "provider") entries (n + 1) hids
    obtain ⟨groups, hrest, hgroups⟩ := ih n' (fun x hx => h x (List.mem_cons_of_mem _ hx))
    refine ⟨(ConfigTransformer.synthesizeProvider configProviders k
      (ConfigTransformer.generateId suffix n "provider"), models) :: groups, ?_, ?_⟩
    · simp [ConfigTransformer.synthesizeKeys, ConfigTransformer.synthesizeKey, hget, hmodels,
        hrest]
    · refine List.Forall₂.cons ⟨⟨n, rfl⟩, ?_⟩ hgroups
      simp only [ConfigTransformer.modelEntriesOf, hget]
      exact hall

/-- On a document whose keys hold arrays of entries with an `id`, `taskMasterToUi` returns
the providers and the models of the groups synthesized for the keys, in the order of
`Object.keys`. -/
theorem taskMasterToUi_ok (suffix : ℕ → String) (doc : TaskMasterRead)
    (h : ConfigTransformer.convertible (ConfigTransformer.supportedModelsOf doc) = true) :
    ∃ groups : List (Provider × List Model),
      ConfigTransformer.taskMasterToUi suffix doc
        = .ok { providers := groups.map (fun g => g.1),
                models := groups.flatMap (fun g => g.2) }
      ∧ List.Forall₂
          (ConfigTransformer.SynthesizedFor suffix (ConfigTransformer.supportedModelsOf doc)
            (ConfigTransformer.configProvidersOf doc))
          (ConfigTransformer.supportedModelsOf doc).keys groups := by
  obtain ⟨groups, hrun, hgroups⟩ := synthesizeKeys_ok suffix
    (ConfigTransformer.supportedModelsOf doc) (ConfigTransformer.configProvidersOf doc)
    (ConfigTransformer.supportedModelsOf doc).keys 0
    (fun k hk => convertible_key _ h k hk)
  exact ⟨groups, by simp [ConfigTransformer.taskMasterToUi, hrun], hgroups⟩

/-- When `validateTaskMasterConfig` pushes no error for the entries of a key, every entry
has a non-empty `id`. -/
theorem entryErrors_nil (providerKey : String) :
    ∀ (entries : List ModelEntry) (index : ℕ),
      ConfigTransformer.entryErrors providerKey entries index = [] →
      ∀ e ∈ entries, ConfigTransformer.truthy e.id = true := by
  intro entries
  induction entries with
  | nil => intro _ _ e he; cases he
  | cons x rest ih =>
    intro index h e he
    simp only [ConfigTransformer.entryErrors, List.append_eq_nil] at h
    rcases List.mem_cons.mp he with rfl | he
    · by_contra hx
      simp [hx] at h
    · exact ih (index + 1) h.2 e he

/-- An entry with a non-empty `id` has an `id`. -/
theorem isSome_of_truthy (x : Option String) (h : ConfigTransformer.truthy x = true) :
    x.isSome = true := by
  cases x with
  | none => simp [ConfigTransformer.truthy] at h
  | some v => rfl

/-- A document that `validateTaskMasterConfig` accepts has both sections, and every key of
`supportedModels` holds an array of entries with a non-empty `id`. -/
theorem accepted_document (doc : TaskMasterRead)
    (h : (ConfigTransformer.validateTaskMasterConfig doc).isValid = true) :
    doc.supportedModels.isSome = true ∧ doc.config.isSome = true
    ∧ ∀ k ∈ (ConfigTransformer.supportedModelsOf doc).keys,
        ∃ entries, (ConfigTransformer.supportedModelsOf doc).get? k = some (some entries)
          ∧ ∀ e ∈ entries, ConfigTransformer.truthy e.id = true := by
  simp only [ConfigTransformer.validateTaskMasterConfig, beq_iff_eq, List.length_eq_zero,
    List.append_eq_nil] at h
  obtain ⟨hsm, hconfig⟩ := h
  cases hdoc : doc.supportedModels with
  | none => simp [hdoc] at hsm
  | some sm =>
    cases hc : doc.config with
    | none => simp [hc] at hconfig
    | some c =>
      refine ⟨rfl, rfl, ?_⟩
      intro k hk
      simp only [ConfigTransformer.supportedModelsOf, hdoc, Option.getD_some] at hk ⊢
      simp only [hdoc, List.flatMap_eq_nil_iff] at hsm
      have hkey := hsm k hk
      simp only [ConfigTransformer.keyErrors] at hkey
      cases hget : sm.get? k with
      | none => simp [hget] at hkey
      | some value =>
        cases value with
        | none => simp [hget] at hkey
        | some entries =>
          simp only [hget] at hkey
          exact ⟨entries, rfl, entryErrors_nil k entries 0 hkey⟩

/-- A document that `validateTaskMasterConfig` accepts is one on which `taskMasterToUi`
raises nothing. -/
theorem accepted_convertible (doc : TaskMasterRead)
    (h : (ConfigTransformer.validateTaskMasterConfig doc).isValid = true) :
    ConfigTransformer.convertible (ConfigTransformer.supportedModelsOf doc) = true := by
  apply List.all_eq_true.mpr
  intro k hk
  obtain ⟨entries, hget, hids⟩ := (accepted_document doc h).2.2 k hk
  simp only [hget]
  exact List.all_eq_true.mpr (fun e he => isSome_of_truthy _ (hids e he))

/-- C20. `taskMasterToUi` is total on well-formed input: for every document that
`validateTaskMasterConfig` accepts, `taskMasterToUi` returns a result `{providers, models}`
and raises no error, whatever `config.providers` and the optional properties of the entries
are, and whatever ids are generated. -/
theorem taskMasterToUi_total (suffix : ℕ → String) (doc : TaskMasterRead)
    (h : (ConfigTransformer.validateTaskMasterConfig doc).isValid = true) :
    ∃ result, ConfigTransformer.taskMasterToUi suffix doc = .ok result := by
  obtain ⟨groups, hrun, -⟩ := taskMasterToUi_ok suffix doc (accepted_convertible doc h)
  exact ⟨_, hrun⟩

/-- C20, instance: a document without `config.providers`, with entries that have an `id`
only, is accepted and converted; a document with a value that is not an array is refused,
and its conversion raises. -/
theorem taskMasterToUi_total_witness :
    (ConfigTransformer.validateTaskMasterConfig Sample.bareDocument).isValid = true
    ∧ (ConfigTransformer.taskMasterToUi Sample.counterSuffix Sample.bareDocument).toBool = true
    ∧ (ConfigTransformer.validateTaskMasterConfig Sample.brokenDocument).isValid = false
    ∧ ConfigTransformer.taskMasterToUi Sample.counterSuffix Sample.brokenDocument
        = .error (.forEachOfNonArray "foapi") := by
  obtain ⟨result, hresult⟩ := taskMasterToUi_total Sample.counterSuffix Sample.bareDocument
    (by decide)
  refine ⟨by decide, ?_, by decide, by decide⟩
  rw [hresult]
  rfl

/-- A model that `synthesizeModel` returns carries the `id` of its entry as `modelId` and
the id of the provider it was synthesized for. -/
theorem synthesizeModel_ids (providerKey providerId modelId : String) (e : ModelEntry)
    (m : Model)
    (h : ConfigTransformer.synthesizeModel providerKey providerId modelId e = .ok m) :
    e.id = some m.modelId ∧ m.providerId = providerId ∧ m.id = modelId := by
  cases hid : e.id with
  | none => simp [ConfigTransformer.synthesizeModel, hid] at h
  | some id =>
    simp only [ConfigTransformer.synthesizeModel, hid, Except.ok.injEq] at h
    subst h
    exact ⟨rfl, rfl, rfl⟩

/-- The models synthesized for a key carry, in order, the `id`s of the entries under that
key, and all of them the id of the provider synthesized for the key. -/
theorem synthesizedFor_ids (suffix : ℕ → String)
    (supportedModels : JsObject (Option (List ModelEntry)))
    (configProviders : JsObject ProviderRead) (k : String) (g : Provider × List Model)
    (h : ConfigTransformer.SynthesizedFor suffix supportedModels configProviders k g) :
    (∀ m ∈ g.2, m.providerId = g.1.id)
    ∧ g.2.map (fun m => some m.modelId)
        = (ConfigTransformer.modelEntriesOf supportedModels k).map (fun e => e.id) := by
  obtain ⟨-, hall⟩ := h
  generalize ConfigTransformer.modelEntriesOf supportedModels k = entries at hall
  generalize g.2 = models at hall
  induction hall with
  | nil => exact ⟨fun m hm => (by cases hm), rfl⟩
  | cons hhead _ ih =>
    obtain ⟨modelId, hmodel⟩ := hhead
    have hids := synthesizeModel_ids _ _ _ _ _ hmodel
    constructor
    · intro m hm
      rcases List.mem_cons.mp hm with rfl | hm
      · exact hids.2.1
      · exact ih.1 m hm
    · simp only [List.map_cons, ih.2, hids.1]

/-- C16. Providers are synthesized from `supportedModels` only: on a document whose keys
hold arrays of entries with an `id`, `taskMasterToUi` returns one provider per key of
`supportedModels`, in the order of `Object.keys` (so none for a key that occurs in
`config.providers` only), and its models are, key by key and in entry order, one per entry
under the key, each with the `id` of the entry and the id of the provider of the key; the
number of models is the total number of entries. -/
theorem taskMasterToUi_one_provider_per_key (suffix : ℕ → String) (doc : TaskMasterRead)
    (h : ConfigTransformer.convertible (ConfigTransformer.supportedModelsOf doc) = true) :
    ∃ groups : List (Provider × List Model),
      ConfigTransformer.taskMasterToUi suffix doc
        = .ok { providers := groups.map (fun g => g.1),
                models := groups.flatMap (fun g => g.2) }
      ∧ (groups.map (fun g => g.1)).length = (ConfigTransformer.supportedModelsOf doc).keys.length
      ∧ List.Forall₂
          (fun k g =>
            (∃ providerId, g.1 = ConfigTransformer.synthesizeProvider
                (ConfigTransformer.configProvidersOf doc) k providerId)
            ∧ (∀ m ∈ g.2, m.providerId = g.1.id)
            ∧ g.2.map (fun m => some m.modelId)
                = (ConfigTransformer.modelEntriesOf (ConfigTransformer.supportedModelsOf doc)
                    k).map (fun e => e.id))
          (ConfigTransformer.supportedModelsOf doc).keys groups
      ∧ (groups.flatMap (fun g => g.2)).length
          = ((ConfigTransformer.supportedModelsOf doc).keys.map (fun k =>
              (ConfigTransformer.modelEntriesOf (ConfigTransformer.supportedModelsOf doc)
                k).length)).sum := by
  obtain ⟨groups, hrun, hgroups⟩ := taskMasterToUi_ok suffix doc h
  have hspec : List.Forall₂
      (fun k g =>
        (∃ providerId, g.1 = ConfigTransformer.synthesizeProvider
            (ConfigTransformer.configProvidersOf doc) k providerId)
        ∧ (∀ m ∈ g.2, m.providerId = g.1.id)
        ∧ g.2.map (fun m => some m.modelId)
            = (ConfigTransformer.modelEntriesOf (ConfigTransformer.supportedModelsOf doc)
                k).map (fun e => e.id))
      (ConfigTransformer.supportedModelsOf doc).keys groups :=
    hgroups.imp (fun k g hkg => ⟨⟨_, hkg.1.choose_spec⟩, synthesizedFor_ids _ _ _ k g hkg⟩)
  refine ⟨groups, hrun, ?_, hspec, ?_⟩
  · rw [List.length_map]
    exact hgroups.length_eq.symm
  · clear hrun hgroups
    generalize (ConfigTransformer.supportedModelsOf doc).keys = keys at hspec
    induction hspec with
    | nil => rfl
    | cons hhead _ ih =>
      have hlen := congrArg List.length hhead.2.2
      simp only [List.length_map] at hlen
      simp only [List.flatMap_cons, List.length_append, List.map_cons, List.sum_cons, ih, hlen]

/-- C16, instance: a document with the keys `foapi` and `7`, in this order in the file, two
entries under the first and one under the second. `Object.keys` lists `7` first; the
conversion returns two providers and three models, those of `7` first. In the second
document `config.providers` has a key `unused`, for which there is no provider. -/
theorem taskMasterToUi_one_provider_per_key_witness :
    ConfigTransformer.convertible (ConfigTransformer.supportedModelsOf Sample.bareDocument) = true
    ∧ (ConfigTransformer.supportedModelsOf Sample.bareDocument).keys = ["7", "foapi"]
    ∧ (ConfigTransformer.taskMasterToUi Sample.counterSuffix Sample.bareDocument).map
        (fun r => (r.providers.length, r.models.length)) = .ok (2, 3)
    ∧ (ConfigTransformer.taskMasterToUi Sample.counterSuffix Sample.bareDocument).map
        (fun r => (r.providers.map (fun p => p.id),
                   r.models.map (fun m => (m.modelId, m.providerId))))
        = .ok (["provider_0", "provider_2"],
               [("gpt-y", "provider_0"), ("deepseek-ai/DeepSeek-R1", "provider_2"),
                ("gpt-x", "provider_2")])
    ∧ (ConfigTransformer.taskMasterToUi Sample.counterSuffix Sample.sparseDocument).map
        (fun r => r.providers.map (fun p => p.name)) = .ok ["FoApi", "Acme Corp"] := by
  obtain ⟨groups, hrun, hproviders, -, hmodels⟩ :=
    taskMasterToUi_one_provider_per_key Sample.counterSuffix Sample.bareDocument (by decide)
  refine ⟨by decide, by decide, ?_, by decide, by decide⟩
  rw [hrun]
  simp only [Except.map, hproviders, hmodels]
  decide

/-- The expression `x || d` sources a string from `x` with the fall-back `d`. -/
theorem sourcedFrom_orString (field : Option String) (fallback : String) :
    ConfigTransformer.sourcedFrom field fallback (ConfigTransformer.orString field fallback) := by
  constructor
  · intro v hv hne
    simp [ConfigTransformer.orString, hv, hne]
  · intro h
    rcases h with h | h <;> simp [ConfigTransformer.orString, h]

/-- The read of a property of `configProviders[key] || {}`. -/
theorem getD_empty_field (configProviders : JsObject ProviderRead) (k : String)
    (f : ProviderRead → Option String)
    (hf : f { name := none, endpoint := none, type := none, apiKey := none } = none) :
    f ((configProviders.get? k).getD
        { name := none, endpoint := none, type := none, apiKey := none })
      = (configProviders.get? k).bind f := by
  cases configProviders.get? k with
  | none => simpa using hf
  | some e => rfl

/-- C17, as stated, fails: in the sample document `config.providers` has an entry for
`foapi`, with an `apiKey` and nothing else, and the provider synthesized for `foapi` has its
name, endpoint and type from the static tables; the entry for `acme` carries the `apiKey`
`""`, and the provider synthesized for `acme` has `isValid` false. -/
theorem provider_fields_counterexample :
    (ConfigTransformer.configProvidersOf Sample.sparseDocument).get? "foapi"
      = some { name := none, endpoint := none, type := none, apiKey := some "k" }
    ∧ ((ConfigTransformer.configProvidersOf Sample.sparseDocument).get? "acme").map
        (fun e => e.apiKey) = some (some "")
    ∧ (ConfigTransformer.taskMasterToUi Sample.counterSuffix Sample.sparseDocument).map
        (fun r => r.providers.map (fun p => (p.name, p.endpoint, p.type, p.isValid)))
      = .ok [("FoApi", "https://v2.voct.top", "openai", true),
             ("Acme Corp", "https://x", "custom", false)] := by
  decide

/-- C17, amended: on a document whose keys hold arrays of entries with an `id`, the provider
that `taskMasterToUi` synthesizes for a key `k` of `supportedModels` that names no member
of `Object.prototype` takes each of its name, endpoint and type from the entry of
`config.providers` for `k` when the entry has a non-empty string for it, and otherwise (no
entry, no such property, or the empty string) from `getProviderDisplayName` (stated for a
key whose first character is an ASCII character), `getDefaultEndpoint` and
`getProviderType`, which read the static tables (`foapi` gives `FoApi`,
`https://v2.voct.top` and `openai`) and default to the key with its first character in
upper case, the empty endpoint and the type `openai`; its `isValid` is true if and only if
the entry carries a non-empty `apiKey`. -/
theorem taskMasterToUi_provider_fields (suffix : ℕ → String) (doc : TaskMasterRead)
    (h : ConfigTransformer.convertible (ConfigTransformer.supportedModelsOf doc) = true) :
    (∃ groups : List (Provider × List Model),
      ConfigTransformer.taskMasterToUi suffix doc
        = .ok { providers := groups.map (fun g => g.1),
                models := groups.flatMap (fun g => g.2) }
      ∧ List.Forall₂
          (fun k g => k ∉ objectPrototypeKeys →
            (∀ v, ((ConfigTransformer.configProvidersOf doc).get? k).bind (fun e => e.name)
                = some v → v ≠ "" → g.1.name = v)
            ∧ ((((ConfigTransformer.configProvidersOf doc).get? k).bind (fun e => e.name) = none
                ∨ ((ConfigTransformer.configProvidersOf doc).get? k).bind (fun e => e.name)
                  = some "") →
                ConfigTransformer.asciiInitial k = true →
                g.1.name = ConfigTransformer.getProviderDisplayName k)
            ∧ ConfigTransformer.sourcedFrom
              (((ConfigTransformer.configProvidersOf doc).get? k).bind (fun e => e.endpoint))
              (ConfigTransformer.getDefaultEndpoint k) g.1.endpoint
            ∧ ConfigTransformer.sourcedFrom
              (((ConfigTransformer.configProvidersOf doc).get? k).bind (fun e => e.type))
              (ConfigTransformer.getProviderType k) g.1.type
            ∧ (g.1.isValid = true ↔
                ∃ v, ((ConfigTransformer.configProvidersOf doc).get? k).bind
                  (fun e => e.apiKey) = some v ∧ v ≠ ""))
          (ConfigTransformer.supportedModelsOf doc).keys groups)
    ∧ (ConfigTransformer.getProviderDisplayName "foapi" = "FoApi"
      ∧ ConfigTransformer.getDefaultEndpoint "foapi" = "https://v2.voct.top"
      ∧ ConfigTransformer.getProviderType "foapi" = "openai")
    ∧ (ConfigTransformer.getProviderDisplayName "mykey" = "Mykey"
      ∧ ConfigTransformer.getDefaultEndpoint "mykey" = ""
      ∧ ConfigTransformer.getProviderType "mykey" = "openai") := by
  refine ⟨?_, by decide, by decide⟩
  obtain ⟨groups, hrun, hgroups⟩ := taskMasterToUi_ok suffix doc h
  refine ⟨groups, hrun, hgroups.imp ?_⟩
  intro k g hkg _
  obtain ⟨⟨providerId, hprovider⟩, -⟩ := hkg
  rw [hprovider]
  simp only [ConfigTransformer.synthesizeProvider]
  rw [getD_empty_field _ k (fun e => e.name) rfl, getD_empty_field _ k (fun e => e.endpoint) rfl,
    getD_empty_field _ k (fun e => e.type) rfl, getD_empty_field _ k (fun e => e.apiKey) rfl]
  have hname := sourcedFrom_orString
    (((ConfigTransformer.configProvidersOf doc).get? k).bind (fun e => e.name))
    (ConfigTransformer.getProviderDisplayName k)
  refine ⟨hname.1, fun hmissing _ => hname.2 hmissing, sourcedFrom_orString _ _,
    sourcedFrom_orString _ _, ?_⟩
  cases ((ConfigTransformer.configProvidersOf doc).get? k).bind (fun e => e.apiKey) with
  | none => simp [ConfigTransformer.truthy]
  | some v => simp [ConfigTransformer.truthy]

/-- C18, as stated, fails at the score `0` and at scores whose product with `100` is not a
double: the entry `gpt-x` of the sample document has `swe_score` 0, and the model
synthesized for it has `sweScore` `null`, not `0`; the entries `gpt-z` and `gpt-w` have the
scores `0.29` and `0.07`, and the models synthesized for them have the `sweScore`
`28.999999999999996` and `7.000000000000001`, not `29` and `7`. -/
theorem model_synthesis_counterexample :
    ConfigTransformer.modelEntriesOf (ConfigTransformer.supportedModelsOf Sample.sparseDocument)
        "acme" = [Sample.zeroEntry]
    ∧ Sample.zeroEntry.swe_score = some 0
    ∧ (ConfigTransformer.taskMasterToUi Sample.counterSuffix Sample.sparseDocument).map
        (fun r => r.models.map (fun m => (m.modelId, m.sweScore)))
      = .ok [("deepseek-ai/DeepSeek-R1", none), ("gpt-x", none)]
    ∧ ConfigTransformer.modelEntriesOf (ConfigTransformer.supportedModelsOf Sample.scoredDocument)
        "foapi" = [Sample.scoredEntry, Sample.lowEntry]
    ∧ (Sample.scoredEntry.swe_score = some (29 / 100)
      ∧ Sample.lowEntry.swe_score = some (7 / 100))
    ∧ (ConfigTransformer.taskMasterToUi Sample.counterSuffix Sample.scoredDocument).map
        (fun r => r.models.map (fun m => (m.modelId, m.sweScore)))
      = .ok [("gpt-z", some (8162774324609023 / 281474976710656)),
             ("gpt-w", some (7881299347898369 / 1125899906842624))]
    ∧ ((8162774324609023 / 281474976710656 : ℚ) < 29 / 100 * 100
      ∧ (7 / 100 * 100 : ℚ) < 7881299347898369 / 1125899906842624) := by
  refine ⟨by decide, by decide, by decide, rfl, ⟨rfl, rfl⟩, by decide!, ?_⟩
  norm_num

/-- The double nearest to `0` is `0`. -/
theorem nearestDouble_zero : nearestDouble 0 = 0 := by
  simp [nearestDouble]

/-- C18, amended: on a document whose keys hold arrays of entries with an `id`,
`taskMasterToUi` emits for every key `k` of `supportedModels` and every entry `e` under `k`,
in entry order, a model with `modelId = e.id` and `providerId` the id of the provider
synthesized for `k`. Its `sweScore` is `null` when `swe_score` is missing or `0` (or so
small that the double read for it is `0`); otherwise, for a `swe_score` and a product
within the range of the finite doubles, it is the product that the code computes on doubles:
the double nearest to `d * 100`, where `d` is the double read for `swe_score` (`25` for
`0.25`, `28.999999999999996` for `0.29`). Its `allowedRoles` is `e.allowed_roles` when that
is present (an empty list stays empty) and `[main, fallback]` when it is missing. -/
theorem taskMasterToUi_model_fields (suffix : ℕ → String) (doc : TaskMasterRead)
    (h : ConfigTransformer.convertible (ConfigTransformer.supportedModelsOf doc) = true) :
    ∃ groups : List (Provider × List Model),
      ConfigTransformer.taskMasterToUi suffix doc
        = .ok { providers := groups.map (fun g => g.1),
                models := groups.flatMap (fun g => g.2) }
      ∧ List.Forall₂
          (fun k g => List.Forall₂
            (fun (e : ModelEntry) (m : Model) =>
              e.id = some m.modelId
              ∧ m.providerId = g.1.id
              ∧ (∀ v, e.swe_score = some v → nearestDouble v ≠ 0 → finiteDouble v →
                  finiteDouble (nearestDouble v * 100) →
                  m.sweScore = some (nearestDouble (nearestDouble v * 100)))
              ∧ ((e.swe_score = none ∨ e.swe_score = some 0) → m.sweScore = none)
              ∧ (∀ v, e.swe_score = some v → nearestDouble v = 0 → m.sweScore = none)
              ∧ (∀ roles, e.allowed_roles = some roles → m.allowedRoles = some roles)
              ∧ (e.allowed_roles = none → m.allowedRoles = some ["main", "fallback"]))
            (ConfigTransformer.modelEntriesOf (ConfigTransformer.supportedModelsOf doc) k) g.2)
          (ConfigTransformer.supportedModelsOf doc).keys groups := by
  obtain ⟨groups, hrun, hgroups⟩ := taskMasterToUi_ok suffix doc h
  refine ⟨groups, hrun, hgroups.imp ?_⟩
  intro k g hkg
  refine hkg.2.imp ?_
  intro e m hem
  obtain ⟨modelId, hmodel⟩ := hem
  cases hid : e.id with
  | none => simp [ConfigTransformer.synthesizeModel, hid] at hmodel
  | some id =>
    simp only [ConfigTransformer.synthesizeModel, hid, Except.ok.injEq] at hmodel
    subst hmodel
    refine ⟨rfl, rfl, ?_, ?_, ?_, ?_, ?_⟩
    · intro v hv hne _ _
      simp [hv, hne]
    · intro hzero
      rcases hzero with hzero | hzero <;> simp [hzero, nearestDouble_zero]
    · intro v hv hzero
      simp [hv, hzero]
    · intro roles hroles
      simp [hroles]
    · intro hnone
      simp [hnone]

/-- C17, instance: in the sample document, whose keys `foapi` and `acme` name no member of
`Object.prototype` and start with an ASCII character, the entry for `acme` has a name, an
endpoint and a type, which the provider of `acme` takes, and an empty `apiKey`; the entry
for `foapi` has an `apiKey` only, and the provider of `foapi` takes the rest from the
tables. -/
theorem taskMasterToUi_provider_fields_witness :
    ConfigTransformer.convertible (ConfigTransformer.supportedModelsOf Sample.sparseDocument)
      = true
    ∧ (∀ k ∈ (ConfigTransformer.supportedModelsOf Sample.sparseDocument).keys,
        k ∉ objectPrototypeKeys ∧ ConfigTransformer.asciiInitial k = true)
    ∧ (ConfigTransformer.taskMasterToUi Sample.counterSuffix Sample.sparseDocument).toBool = true
    ∧ (ConfigTransformer.getProviderDisplayName "foapi" = "FoApi"
      ∧ ConfigTransformer.getDefaultEndpoint "foapi" = "https://v2.voct.top"
      ∧ ConfigTransformer.getProviderType "foapi" = "openai")
    ∧ (ConfigTransformer.taskMasterToUi Sample.counterSuffix Sample.sparseDocument).map
        (fun r => r.providers.map (fun p => (p.name, p.endpoint, p.type, p.apiKey, p.isValid)))
      = .ok [("FoApi", "https://v2.voct.top", "openai", "k", true),
             ("Acme Corp", "https://x", "custom", "", false)] := by
  have h := taskMasterToUi_provider_fields Sample.counterSuffix Sample.sparseDocument
    (by decide)
  obtain ⟨⟨groups, hrun, -⟩, htable, -⟩ := h
  refine ⟨by decide, by decide, ?_, htable, by decide⟩
  rw [hrun]
  rfl

/-- C18, instance: the entries of the sample documents. The entry `gpt-y` has the score 1/4
and the role `research`; the entry `deepseek-ai/DeepSeek-R1` has neither score nor roles;
the entry `gpt-x` has the score 0 and an empty list of roles; the entry `gpt-z` has the
score `0.29`. The model of `gpt-y` has the `sweScore` `25`, the model of `gpt-z` the
`sweScore` `28.999999999999996`. -/
theorem taskMasterToUi_model_fields_witness :
    ConfigTransformer.convertible (ConfigTransformer.supportedModelsOf Sample.bareDocument) = true
    ∧ (ConfigTransformer.taskMasterToUi Sample.counterSuffix Sample.bareDocument).toBool = true
    ∧ (ConfigTransformer.taskMasterToUi Sample.counterSuffix Sample.bareDocument).map
        (fun r => r.models.map (fun m => (m.modelId, m.providerId, m.allowedRoles)))
      = .ok [("gpt-y", "provider_0", some ["research"]),
             ("deepseek-ai/DeepSeek-R1", "provider_2", some ["main", "fallback"]),
             ("gpt-x", "provider_2", some [])]
    ∧ (nearestDouble (1 / 4) ≠ 0 ∧ finiteDouble (1 / 4)
      ∧ finiteDouble (nearestDouble (1 / 4) * 100)
      ∧ nearestDouble (nearestDouble (1 / 4) * 100) = 25)
    ∧ (ConfigTransformer.taskMasterToUi Sample.counterSuffix Sample.bareDocument).map
        (fun r => r.models.map (fun m => m.sweScore)) = .ok [some 25, none, none]
    ∧ (nearestDouble (29 / 100) ≠ 0 ∧ finiteDouble (29 / 100)
      ∧ finiteDouble (nearestDouble (29 / 100) * 100)
      ∧ nearestDouble (nearestDouble (29 / 100) * 100)
          = 8162774324609023 / 281474976710656) := by
  obtain ⟨groups, hrun, -⟩ :=
    taskMasterToUi_model_fields Sample.counterSuffix Sample.bareDocument (by decide)
  refine ⟨by decide, ?_, by decide, by decide!, by decide!, by decide!⟩
  rw [hrun]
  rfl

/-! ## Objects: keys and reads -/

/-- `Object.keys` lists every key of the object once per property. -/
theorem keys_perm {α : Type} (obj : JsObject α) :
    obj.keys.Perm (obj.entries.map (fun e => e.1)) := by
  simp only [JsObject.keys]
  have hnot : (fun k : String => (JsObject.arrayIndex? k).isNone)
      = (fun k => !(JsObject.arrayIndex? k).isSome) := by
    funext k
    cases JsObject.arrayIndex? k <;> rfl
  rw [hnot]
  exact ((List.perm_insertionSort _ _).append_right _).trans (List.filter_append_perm _ _)

/-- The keys that `Object.keys` lists are the keys of the properties. -/
theorem mem_keys {α : Type} (obj : JsObject α) (k : String) :
    k ∈ obj.keys ↔ k ∈ obj.entries.map (fun e => e.1) :=
  (keys_perm obj).mem_iff

/-- A read under a key of the object gives the value of a property with that key. -/
theorem get?_of_mem_keys {α : Type} (obj : JsObject α) (k : String) (hk : k ∈ obj.keys) :
    ∃ v, obj.get? k = some v ∧ (k, v) ∈ obj.entries := by
  have hk' := (mem_keys obj k).mp hk
  obtain ⟨e, he, hek⟩ := List.mem_map.mp hk'
  cases hfind : obj.entries.find? (fun e => e.1 = k) with
  | none =>
    have := List.find?_eq_none.mp hfind e he
    simp [hek] at this
  | some x =>
    have hx := List.find?_some hfind
    have hxk : x.1 = k := by simpa using hx
    refine ⟨x.2, by simp [JsObject.get?, hfind], ?_⟩
    have hmem := List.mem_of_find?_eq_some hfind
    rw [← hxk]
    exact hmem

/-- A read under a key that the object does not have gives `undefined`. -/
theorem get?_eq_none_of_not_mem {α : Type} (obj : JsObject α) (k : String)
    (hk : k ∉ obj.entries.map (fun e => e.1)) : obj.get? k = none := by
  simp only [JsObject.get?, Option.map_eq_none']
  apply List.find?_eq_none.mpr
  intro e he hek
  exact hk (List.mem_map.mpr ⟨e, he, by simpa using hek⟩)

/-- In an object whose keys are pairwise distinct, a read gives the value of the property. -/
theorem get?_of_mem_nodup {α : Type} (obj : JsObject α) (k : String) (v : α)
    (hnodup : (obj.entries.map (fun e => e.1)).Nodup) (hmem : (k, v) ∈ obj.entries) :
    obj.get? k = some v := by
  obtain ⟨entries⟩ := obj
  simp only [JsObject.get?]
  induction entries with
  | nil => cases hmem
  | cons head rest ih =>
    simp only [List.map_cons, List.nodup_cons] at hnodup
    rcases List.mem_cons.mp hmem with h | h
    · subst h
      simp
    · have hne : head.1 ≠ k := by
        intro heq
        exact hnodup.1 (List.mem_map.mpr ⟨(k, v), h, heq.symm⟩)
      simp only [List.find?_cons, hne, decide_False]
      exact ih hnodup.2 h

/-- Mapping the values of an object maps what is read. -/
theorem get?_map_values {α β : Type} (f : α → β) (entries : List (String × α)) (k : String) :
    (JsObject.mk (entries.map (fun e => (e.1, f e.2)))).get? k
      = ((JsObject.mk entries).get? k).map f := by
  simp only [JsObject.get?]
  induction entries with
  | nil => rfl
  | cons head rest ih =>
    by_cases hk : head.1 = k
    · simp [hk]
    · simp only [List.map_cons, List.find?_cons, hk, decide_False]
      exact ih

/-- Mapping the values of an object keeps its keys. -/
theorem keys_map_values {α β : Type} (f : α → β) (entries : List (String × α)) :
    (JsObject.mk (entries.map (fun e => (e.1, f e.2)))).keys = (JsObject.mk entries).keys := by
  simp only [JsObject.keys, List.map_map]
  rfl

/-! ## The validators on the results of the transformer -/

/-- `validateTaskMasterConfig` pushes no error for entries that all have a non-empty `id`. -/
theorem entryErrors_eq_nil (providerKey : String) :
    ∀ (entries : List ModelEntry) (index : ℕ),
      (∀ e ∈ entries, ConfigTransformer.truthy e.id = true) →
      ConfigTransformer.entryErrors providerKey entries index = [] := by
  intro entries
  induction entries with
  | nil => intro _ _; rfl
  | cons x rest ih =>
    intro index h
    simp only [ConfigTransformer.entryErrors, h x (List.mem_cons_self _ _), if_true,
      List.nil_append]
    exact ih (index + 1) (fun e he => h e (List.mem_cons_of_mem _ he))

/-- The result of `uiToTaskMaster` passes `validateTaskMasterConfig` when every model has a
non-empty `modelId`. -/
theorem uiToTaskMaster_accepted (providers : List Provider) (models : List Model)
    (hids : ∀ m ∈ models, m.modelId ≠ "") :
    (ConfigTransformer.validateTaskMasterConfig
      (ConfigTransformer.uiToTaskMaster providers models).toRead).isValid = true := by
  have hkeys : ∀ k ∈ (JsObject.mk ((ConfigTransformer.uiToTaskMaster providers
        models).supportedModels.entries.map
          (fun e => (e.1, some (e.2.map SupportedModel.toRead))))).keys,
      ConfigTransformer.keyErrors (JsObject.mk ((ConfigTransformer.uiToTaskMaster providers
        models).supportedModels.entries.map
          (fun e => (e.1, some (e.2.map SupportedModel.toRead))))) k = [] := by
    intro k hk
    rw [keys_map_values (fun l : List SupportedModel => some (l.map SupportedModel.toRead))] at hk
    obtain ⟨v, hget, hmem⟩ := get?_of_mem_keys ⟨_⟩ k hk
    simp only [ConfigTransformer.keyErrors]
    rw [get?_map_values (fun l : List SupportedModel => some (l.map SupportedModel.toRead)), hget]
    simp only [Option.map_some']
    apply entryErrors_eq_nil
    intro e he
    obtain ⟨x, hx, hxe⟩ := List.mem_map.mp he
    obtain ⟨m, hm, hmx⟩ := uiToTaskMaster_emits providers models (k, v) hmem x hx
    rw [← hxe, hmx]
    simp [SupportedModel.toRead, ConfigTransformer.toSupportedModel, ConfigTransformer.truthy,
      hids m hm]
  simp only [ConfigTransformer.validateTaskMasterConfig, TaskMasterConfig.toRead,
    List.append_nil, beq_iff_eq, List.length_eq_zero, List.flatMap_eq_nil_iff]
  exact hkeys

/-- `validateUiConfig` pushes no error for the providers exactly when each of them has a
non-empty name, endpoint and type. -/
theorem providersErrors_eq_nil_iff :
    ∀ (providers : List Provider) (index : ℕ),
      ConfigTransformer.providersErrors providers index = []
        ↔ ∀ p ∈ providers, p.name ≠ "" ∧ p.endpoint ≠ "" ∧ p.type ≠ "" := by
  intro providers
  induction providers with
  | nil => intro _; simp [ConfigTransformer.providersErrors]
  | cons p rest ih =>
    intro index
    simp only [ConfigTransformer.providersErrors, List.append_eq_nil, ih (index + 1),
      List.mem_cons, forall_eq_or_imp, ConfigTransformer.providerErrors]
    constructor
    · rintro ⟨⟨⟨h1, h2⟩, h3⟩, hrest⟩
      refine ⟨⟨?_, ?_, ?_⟩, hrest⟩
      · intro h; simp [h] at h1
      · intro h; simp [h] at h2
      · intro h; simp [h] at h3
    · rintro ⟨⟨h1, h2, h3⟩, hrest⟩
      exact ⟨⟨⟨by simp [h1], by simp [h2]⟩, by simp [h3]⟩, hrest⟩

/-- `validateUiConfig` pushes no error for the models exactly when each of them has a
non-empty name, `modelId` and `providerId` and refers to a provider of the batch. -/
theorem modelsErrors_eq_nil_iff (providers : List Provider) :
    ∀ (models : List Model) (index : ℕ),
      ConfigTransformer.modelsErrors providers models index = []
        ↔ ∀ m ∈ models, m.name ≠ "" ∧ m.modelId ≠ "" ∧ m.providerId ≠ ""
            ∧ (providers.find? (fun p => p.id == m.providerId)).isSome = true := by
  intro models
  induction models with
  | nil => intro _; simp [ConfigTransformer.modelsErrors]
  | cons m rest ih =>
    intro index
    simp only [ConfigTransformer.modelsErrors, List.append_eq_nil, ih (index + 1),
      List.mem_cons, forall_eq_or_imp, ConfigTransformer.modelErrors]
    constructor
    · rintro ⟨⟨⟨⟨h1, h2⟩, h3⟩, h4⟩, hrest⟩
      refine ⟨⟨?_, ?_, ?_, ?_⟩, hrest⟩
      · intro h; simp [h] at h1
      · intro h; simp [h] at h2
      · intro h; simp [h] at h3
      · cases hf : providers.find? (fun p => p.id == m.providerId) with
        | none => simp [hf] at h4
        | some q => rfl
    · rintro ⟨⟨h1, h2, h3, h4⟩, hrest⟩
      refine ⟨⟨⟨⟨by simp [h1], by simp [h2]⟩, by simp [h3]⟩, ?_⟩, hrest⟩
      cases hf : providers.find? (fun p => p.id == m.providerId) with
      | none => simp [hf] at h4
      | some q => simp

/-- The expression `x || d` is not empty when `d` is not. -/
theorem orString_ne_empty (x : Option String) (d : String) (hd : d ≠ "") :
    ConfigTransformer.orString x d ≠ "" := by
  cases x with
  | none => simpa [ConfigTransformer.orString] using hd
  | some v =>
    by_cases hv : v = ""
    · simpa [ConfigTransformer.orString, hv] using hd
    · simp [ConfigTransformer.orString, hv]

/-- A generated id is not empty. -/
theorem generateId_ne_empty (suffix : ℕ → String) (n : ℕ) (kind : String) :
    ConfigTransformer.generateId suffix n kind ≠ "" := by
  intro h
  have hlen := congrArg String.length h
  simp only [ConfigTransformer.generateId, String.length_append] at hlen
  have hone : "_".length = 1 := by decide
  have hzero : "".length = 0 := by decide
  omega

/-- Every element on the right of two lists in relation has a partner on the left. -/
theorem forall₂_partner {α β : Type} {R : α → β → Prop} {l₁ : List α} {l₂ : List β}
    (h : List.Forall₂ R l₁ l₂) : ∀ b ∈ l₂, ∃ a ∈ l₁, R a b := by
  induction h with
  | nil => intro b hb; cases hb
  | cons hhead _ ih =>
    intro b hb
    rcases List.mem_cons.mp hb with rfl | hb
    · exact ⟨_, List.mem_cons_self _ _, hhead⟩
    · obtain ⟨a, ha, hab⟩ := ih b hb
      exact ⟨a, List.mem_cons_of_mem _ ha, hab⟩

/-- What `taskMasterToUi` returns on a document that `validateTaskMasterConfig` accepts:
every provider has a type and an id, and every model a `modelId` and the id of a provider
of the result. -/
theorem taskMasterToUi_result_facts (suffix : ℕ → String) (doc : TaskMasterRead)
    (h : (ConfigTransformer.validateTaskMasterConfig doc).isValid = true) :
    ∃ result, ConfigTransformer.taskMasterToUi suffix doc = .ok result
      ∧ (∀ p ∈ result.providers, p.type ≠ "")
      ∧ (∀ m ∈ result.models, m.modelId ≠ "" ∧ m.providerId ≠ ""
          ∧ (result.providers.find? (fun p => p.id == m.providerId)).isSome = true) := by
  have hacc := (accepted_document doc h).2.2
  obtain ⟨groups, hrun, hgroups⟩ := taskMasterToUi_ok suffix doc (accepted_convertible doc h)
  refine ⟨_, hrun, ?_, ?_⟩
  · intro p hp
    obtain ⟨g, hg, hgp⟩ := List.mem_map.mp hp
    obtain ⟨k, -, hkg⟩ := forall₂_partner hgroups g hg
    obtain ⟨⟨n, hprovider⟩, -⟩ := hkg
    rw [← hgp, hprovider]
    simp only [ConfigTransformer.synthesizeProvider]
    apply orString_ne_empty
    exact orString_ne_empty _ _ (by decide)
  · intro m hm
    obtain ⟨g, hg, hmg⟩ := List.mem_flatMap.mp hm
    obtain ⟨k, hk, hkg⟩ := forall₂_partner hgroups g hg
    obtain ⟨⟨n, hprovider⟩, hmodels⟩ := hkg
    obtain ⟨e, he, i, hmodel⟩ := forall₂_partner hmodels m hmg
    have hids := synthesizeModel_ids _ _ _ _ _ hmodel
    obtain ⟨entries, hget, htruthy⟩ := hacc k hk
    have he' : e ∈ entries := by
      simpa [ConfigTransformer.modelEntriesOf, hget] using he
    have hid := htruthy e he'
    have hgid : g.1.id ≠ "" := by
      rw [hprovider]
      exact generateId_ne_empty suffix n "provider"
    refine ⟨?_, ?_, ?_⟩
    · intro hempty
      rw [hids.1, hempty] at hid
      simp [ConfigTransformer.truthy] at hid
    · rw [hids.2.1]
      exact hgid
    · cases hf : (groups.map (fun g => g.1)).find? (fun p => p.id == m.providerId) with
      | none =>
        have := List.find?_eq_none.mp hf g.1 (List.mem_map_of_mem _ hg)
        simp [hids.2.1] at this
      | some q => rfl

/-- C19, as stated, fails: neither function validates its result. For a model of `acme`
without `modelId`, `uiToTaskMaster` returns a structure that `validateTaskMasterConfig`
refuses; for a document that `validateTaskMasterConfig` accepts and that has the key `7`
without an endpoint, `taskMasterToUi` returns a batch that `validateUiConfig` refuses. -/
theorem transformer_validity_counterexample :
    (ConfigTransformer.validateTaskMasterConfig
        (ConfigTransformer.uiToTaskMaster [Sample.acme] [Sample.noModelId]).toRead).errors
      = ["Provider acme, Model 1: ID is required"]
    ∧ (ConfigTransformer.validateTaskMasterConfig Sample.bareDocument).isValid = true
    ∧ (ConfigTransformer.taskMasterToUi Sample.counterSuffix Sample.bareDocument).map
        (fun r => (ConfigTransformer.validateUiConfig r.providers r.models).errors)
      = .ok ["Provider 1: Endpoint is required"] := by
  decide

/-- C19, amended: neither function validates its result or raises a validation error. On
providers and models of the editor's record types (every provider name a string)
`uiToTaskMaster` returns a structure, and `validateTaskMasterConfig` accepts it whenever
every model has a non-empty `modelId`. On every document that `validateTaskMasterConfig`
accepts, whose entry ids are strings and whose keys name no member of `Object.prototype`
and start with an ASCII character, `taskMasterToUi` returns a batch, and `validateUiConfig`
accepts the batch if and only if every synthesized provider has a non-empty name and
endpoint and every synthesized model a non-empty name. -/
theorem transformer_output_validity (providers : List Provider) (models : List Model)
    (suffix : ℕ → String) (doc : TaskMasterRead) :
    ((∀ m ∈ models, m.modelId ≠ "") →
      (ConfigTransformer.validateTaskMasterConfig
        (ConfigTransformer.uiToTaskMaster providers models).toRead).isValid = true)
    ∧ ((ConfigTransformer.validateTaskMasterConfig doc).isValid = true →
        (∀ k ∈ (ConfigTransformer.supportedModelsOf doc).keys,
          ConfigTransformer.plainKey k = true) →
        ∃ result, ConfigTransformer.taskMasterToUi suffix doc = .ok result
          ∧ ((ConfigTransformer.validateUiConfig result.providers result.models).isValid = true
              ↔ ((∀ p ∈ result.providers, p.name ≠ "" ∧ p.endpoint ≠ "")
                  ∧ ∀ m ∈ result.models, m.name ≠ ""))) := by
  refine ⟨uiToTaskMaster_accepted providers models, ?_⟩
  intro h _
  obtain ⟨result, hrun, hproviders, hmodels⟩ := taskMasterToUi_result_facts suffix doc h
  refine ⟨result, hrun, ?_⟩
  simp only [ConfigTransformer.validateUiConfig, beq_iff_eq, List.length_eq_zero,
    List.append_eq_nil, providersErrors_eq_nil_iff, modelsErrors_eq_nil_iff]
  constructor
  · rintro ⟨hp, hm⟩
    exact ⟨fun p hpmem => ⟨(hp p hpmem).1, (hp p hpmem).2.1⟩, fun m hmmem => (hm m hmmem).1⟩
  · rintro ⟨hp, hm⟩
    exact ⟨fun p hpmem => ⟨(hp p hpmem).1, (hp p hpmem).2, hproviders p hpmem⟩,
      fun m hmmem => ⟨hm m hmmem, hmodels m hmmem⟩⟩

/-- C19, instance: the result of `uiToTaskMaster` for `acme` and `gptX` is accepted; the
sample document with entries in `config.providers` is accepted, converted, and the batch is
accepted. -/
theorem transformer_output_validity_witness :
    (∀ m ∈ [Sample.gptX], m.modelId ≠ "")
    ∧ (ConfigTransformer.validateTaskMasterConfig
        (ConfigTransformer.uiToTaskMaster [Sample.acme] [Sample.gptX]).toRead).isValid = true
    ∧ (ConfigTransformer.validateTaskMasterConfig Sample.sparseDocument).isValid = true
    ∧ (∀ k ∈ (ConfigTransformer.supportedModelsOf Sample.sparseDocument).keys,
        ConfigTransformer.plainKey k = true)
    ∧ (ConfigTransformer.taskMasterToUi Sample.counterSuffix Sample.sparseDocument).toBool = true
    ∧ (ConfigTransformer.taskMasterToUi Sample.counterSuffix Sample.sparseDocument).map
        (fun r => (ConfigTransformer.validateUiConfig r.providers r.models).isValid)
      = .ok true := by
  have h := transformer_output_validity [Sample.acme] [Sample.gptX] Sample.counterSuffix
    Sample.sparseDocument
  obtain ⟨result, hrun, -⟩ := h.2 (by decide) (by decide)
  refine ⟨by decide, h.1 (by decide), by decide, by decide, ?_, by decide⟩
  rw [hrun]
  rfl

/-! ## The round trip `taskMasterToUi` after `uiToTaskMaster` -/

/-- The result of `uiToTaskMaster` is a document on which `taskMasterToUi` raises nothing. -/
theorem toRead_convertible (c : TaskMasterConfig) :
    ConfigTransformer.convertible (ConfigTransformer.supportedModelsOf c.toRead) = true := by
  apply List.all_eq_true.mpr
  intro k hk
  simp only [ConfigTransformer.supportedModelsOf, TaskMasterConfig.toRead,
    Option.getD_some] at hk ⊢
  rw [keys_map_values (fun l : List SupportedModel => some (l.map SupportedModel.toRead))] at hk
  obtain ⟨v, hget, -⟩ := get?_of_mem_keys ⟨_⟩ k hk
  rw [get?_map_values (fun l : List SupportedModel => some (l.map SupportedModel.toRead)), hget]
  simp [SupportedModel.toRead]

/-- The content of a model synthesized from an emitted entry is the content of the model of
the input with the defaults filled in. -/
theorem synthesizeModel_toRead_content (providerKey providerId modelId : String) (m : Model)
    (model : Model)
    (h : ConfigTransformer.synthesizeModel providerKey providerId modelId
      (ConfigTransformer.toSupportedModel m).toRead = .ok model) :
    modelContent model = modelContent m.withDefaults := by
  simp only [ConfigTransformer.synthesizeModel, SupportedModel.toRead,
    ConfigTransformer.toSupportedModel, Except.ok.injEq] at h
  subst h
  have hmax : ∀ x : Option ℚ, ConfigTransformer.orNumber
      (some (ConfigTransformer.orNumber x 200000)) 200000
        = ConfigTransformer.orNumber x 200000 := by
    intro x
    cases x with
    | none => simp [ConfigTransformer.orNumber]
    | some v =>
      by_cases hv : v = 0
      · simp [ConfigTransformer.orNumber, hv]
      · simp [ConfigTransformer.orNumber, hv]
  have hcost : ∀ x : Option ℚ, ConfigTransformer.orNumber
      (some (ConfigTransformer.orNumber x 0)) 0 = ConfigTransformer.orNumber x 0 := by
    intro x
    cases x with
    | none => simp [ConfigTransformer.orNumber]
    | some v =>
      by_cases hv : v = 0
      · simp [ConfigTransformer.orNumber, hv]
      · simp [ConfigTransformer.orNumber, hv]
  simp [modelContent, Model.withDefaults, hmax, hcost]

/-- Two lists in a relation that fixes a function of the right element in terms of the left
element have equal images. -/
theorem forall₂_map_eq {α β γ : Type} {R : α → β → Prop} (f : α → γ) (g : β → γ)
    {l₁ : List α} {l₂ : List β} (h : List.Forall₂ R l₁ l₂)
    (hR : ∀ a ∈ l₁, ∀ b, R a b → g b = f a) : l₂.map g = l₁.map f := by
  induction h with
  | nil => rfl
  | cons hhead _ ih =>
    simp only [List.map_cons, hR _ (List.mem_cons_self _ _) _ hhead,
      ih (fun a ha b hab => hR a (List.mem_cons_of_mem _ ha) b hab)]

/-- In a list without repetition, what follows an element does not contain it. -/
theorem split_of_mem_nodup {α β : Type} (f : α → β) (l : List α) (x : α) (hx : x ∈ l)
    (hnodup : (l.map f).Nodup) :
    ∃ before after, l = before ++ x :: after ∧ ∀ q ∈ after, f q ≠ f x := by
  obtain ⟨before, after, hsplit⟩ := List.append_of_mem hx
  refine ⟨before, after, hsplit, ?_⟩
  intro q hq heq
  rw [hsplit, List.map_append, List.map_cons] at hnodup
  have h2 := (List.nodup_append.mp hnodup).2.1
  exact (List.nodup_cons.mp h2).1 (heq ▸ List.mem_map_of_mem f hq)

/-- With pairwise distinct derived keys, `supportedModels` has one property per owner. -/
theorem supportedModels_entries_of_nodup (providers : List Provider) (models : List Model)
    (hkeys : (providers.map ConfigTransformer.getProviderKey).Nodup) :
    (ConfigTransformer.uiToTaskMaster providers models).supportedModels.entries
      = (owners providers models).map
          (fun p => (ConfigTransformer.getProviderKey p,
            (models.filter (fun model => model.providerId == p.id)).map
              ConfigTransformer.toSupportedModel)) := by
  have h := foldl_addSupportedModels models providers JsObject.empty hkeys
    (by intro p _ hin; simp [JsObject.empty] at hin)
  simpa [ConfigTransformer.uiToTaskMaster, JsObject.empty, owners] using h

/-- With pairwise distinct derived keys, the group synthesized for the key of an owner has
the content of the owner and, in order, the contents of its models with the defaults
filled in. -/
theorem synthesizedFor_owner_content (suffix : ℕ → String) (providers : List Provider)
    (models : List Model)
    (hkeys : (providers.map ConfigTransformer.getProviderKey).Nodup)
    (hvalid : ∀ p ∈ providers, p.name ≠ "" ∧ p.endpoint ≠ "" ∧ p.type ≠ "")
    (p : Provider) (hp : p ∈ owners providers models) (g : Provider × List Model)
    (hg : ConfigTransformer.SynthesizedFor suffix
      (ConfigTransformer.supportedModelsOf
        (ConfigTransformer.uiToTaskMaster providers models).toRead)
      (ConfigTransformer.configProvidersOf
        (ConfigTransformer.uiToTaskMaster providers models).toRead)
      (ConfigTransformer.getProviderKey p) g) :
    (providerContent g.1, g.2.map modelContent)
      = (providerContent p,
          (models.filter (fun model => model.providerId == p.id)).map
            (fun m => modelContent m.withDefaults)) := by
  have hpmem : p ∈ providers := (List.mem_filter.mp hp).1
  obtain ⟨⟨n, hprovider⟩, hmodels⟩ := hg
  -- the entry of `config.providers`
  obtain ⟨before, after, hsplit, hlast⟩ :=
    split_of_mem_nodup ConfigTransformer.getProviderKey providers p hpmem hkeys
  have hentry : (ConfigTransformer.configProvidersOf
      (ConfigTransformer.uiToTaskMaster providers models).toRead).get?
        (ConfigTransformer.getProviderKey p)
      = some ({ name := p.name, endpoint := p.endpoint, type := p.type,
                apiKey := p.apiKey } : ProviderEntry).toRead := by
    simp only [ConfigTransformer.configProvidersOf, TaskMasterConfig.toRead, Option.getD_some]
    rw [get?_map_values ProviderEntry.toRead]
    have := config_providers_get?_last before after p models hlast
    rw [← hsplit] at this
    rw [this]
    rfl
  -- the entries of `supportedModels`
  have hnodup := (uiToTaskMaster_keys_nodup providers models).1
  have hmem : (ConfigTransformer.getProviderKey p,
      (models.filter (fun model => model.providerId == p.id)).map
        ConfigTransformer.toSupportedModel)
      ∈ (ConfigTransformer.uiToTaskMaster providers models).supportedModels.entries := by
    rw [supportedModels_entries_of_nodup providers models hkeys]
    exact List.mem_map.mpr ⟨p, hp, rfl⟩
  have hentries : ConfigTransformer.modelEntriesOf
      (ConfigTransformer.supportedModelsOf
        (ConfigTransformer.uiToTaskMaster providers models).toRead)
      (ConfigTransformer.getProviderKey p)
      = ((models.filter (fun model => model.providerId == p.id)).map
          ConfigTransformer.toSupportedModel).map SupportedModel.toRead := by
    simp only [ConfigTransformer.modelEntriesOf, ConfigTransformer.supportedModelsOf,
      TaskMasterConfig.toRead, Option.getD_some]
    rw [get?_map_values (fun l : List SupportedModel => some (l.map SupportedModel.toRead)),
      get?_of_mem_nodup _ _ _ hnodup hmem]
    rfl
  have hv := hvalid p hpmem
  congr 1
  · rw [hprovider]
    simp only [ConfigTransformer.synthesizeProvider, hentry, Option.getD_some,
      ProviderEntry.toRead, providerContent]
    simp only [ConfigTransformer.orString, hv.1, hv.2.1, hv.2.2, if_false]
    by_cases hkey : p.apiKey = ""
    · simp [hkey]
    · simp [hkey]
  · rw [hentries, List.map_map, List.forall₂_map_left_iff] at hmodels
    exact forall₂_map_eq (fun m => modelContent m.withDefaults) modelContent hmodels
      (fun m _ model hm => by
        obtain ⟨i, hi⟩ := hm
        exact synthesizeModel_toRead_content _ _ _ m model hi)

/-- In a list whose images under `f` are pairwise distinct, the search for the image of an
element finds that element. -/
theorem find?_of_nodup_map {α : Type} (f : α → String) :
    ∀ (l : List α) (x : α), x ∈ l → (l.map f).Nodup →
      l.find? (fun q => f q = f x) = some x := by
  intro l
  induction l with
  | nil => intro x hx; cases hx
  | cons a rest ih =>
    intro x hx hnodup
    simp only [List.map_cons, List.nodup_cons] at hnodup
    rcases List.mem_cons.mp hx with rfl | hx
    · simp
    · have hne : f a ≠ f x := by
        intro heq
        exact hnodup.1 (heq ▸ List.mem_map_of_mem f hx)
      simp only [List.find?_cons, hne, decide_False]
      exact ih x hx hnodup.2

/-- C15, as stated, fails for a model without the optional properties: the batch of
`openAI` and `gpt4` meets every condition of the claim, and after the round trip the model
`gpt-4` has the roles `main` and `fallback`, 200000 as `maxTokens` and the costs `0`, where
the model of the input has none of the three. -/
theorem round_trip_counterexample :
    ([Sample.openAI].map (fun p => p.id)).Nodup
    ∧ ([Sample.openAI].map ConfigTransformer.getProviderKey).Nodup
    ∧ (∀ m ∈ [Sample.gpt4], ∃ p ∈ [Sample.openAI], p.id = m.providerId)
    ∧ (specValidation.validateProvider Sample.openAI).isValid = true
    ∧ (specValidation.validateModel Sample.gpt4).isValid = true
    ∧ (ConfigTransformer.validateUiConfig [Sample.openAI] [Sample.gpt4]).isValid = true
    ∧ modelContent Sample.gpt4
        = { modelId := "gpt-4", allowedRoles := none, maxTokens := none,
            costPer1MTokens := none }
    ∧ (ConfigTransformer.taskMasterToUi Sample.counterSuffix
        (ConfigTransformer.uiToTaskMaster [Sample.openAI] [Sample.gpt4]).toRead).map
          (fun r => r.models.map modelContent)
      = .ok [{ modelId := "gpt-4", allowedRoles := some ["main", "fallback"],
               maxTokens := some 200000,
               costPer1MTokens := some { input := some 0, output := some 0 } }] :=
  ⟨by decide, by decide, by decide, by decide, by decide, by decide, by decide, by decide⟩

/-- C15, amended: for every editor batch in which the derived provider keys are pairwise
distinct and every provider has a non-empty name, endpoint and type,
`taskMasterToUi(uiToTaskMaster(providers, models))` returns, whatever ids are generated,
groups of one provider and its models such that every model carries the id of the provider
of its group, and such that the groups are, up to their order, one per provider of the
input that owns at least one model, with the name, endpoint, type and `apiKey` of that
provider and, in order, one model per model of that provider, with its `modelId` and with
its `allowedRoles`, `maxTokens` and `costPer1MTokens` after the defaults of the export are
filled in. Providers without models do not reappear and the ids of the input are not kept.
When provider ids are pairwise distinct and every `providerId` resolves, every model of the
input belongs to exactly one of these providers. -/
theorem round_trip (suffix : ℕ → String) (providers : List Provider) (models : List Model)
    (hids : (providers.map (fun p => p.id)).Nodup)
    (hkeys : (providers.map ConfigTransformer.getProviderKey).Nodup)
    (href : ∀ m ∈ models, ∃ p ∈ providers, p.id = m.providerId)
    (hvalid : ∀ p ∈ providers, p.name ≠ "" ∧ p.endpoint ≠ "" ∧ p.type ≠ "") :
    ∃ groups : List (Provider × List Model),
      ConfigTransformer.taskMasterToUi suffix
          (ConfigTransformer.uiToTaskMaster providers models).toRead
        = .ok { providers := groups.map (fun g => g.1),
                models := groups.flatMap (fun g => g.2) }
      ∧ (∀ g ∈ groups, ∀ m ∈ g.2, m.providerId = g.1.id)
      ∧ (groups.map (fun g => (providerContent g.1, g.2.map modelContent))).Perm
          ((owners providers models).map (fun p =>
            (providerContent p,
              (models.filter (fun model => model.providerId == p.id)).map
                (fun m => modelContent m.withDefaults))))
      ∧ (∀ m ∈ models, ∃ p ∈ owners providers models, p.id = m.providerId
          ∧ ∀ q ∈ owners providers models, q.id = m.providerId → q = p) := by
  obtain ⟨groups, hrun, hgroups⟩ := taskMasterToUi_ok suffix
    (ConfigTransformer.uiToTaskMaster providers models).toRead (toRead_convertible _)
  have hownersNodup : ((owners providers models).map ConfigTransformer.getProviderKey).Nodup :=
    hkeys.sublist ((List.filter_sublist _).map _)
  have hkeysPerm : (ConfigTransformer.supportedModelsOf
      (ConfigTransformer.uiToTaskMaster providers models).toRead).keys.Perm
      ((owners providers models).map ConfigTransformer.getProviderKey) := by
    refine (keys_perm _).trans ?_
    simp only [ConfigTransformer.supportedModelsOf, TaskMasterConfig.toRead, Option.getD_some,
      List.map_map, supportedModels_entries_of_nodup providers models hkeys]
    exact List.Perm.of_eq rfl
  refine ⟨groups, hrun, ?_, ?_, ?_⟩
  · intro g hg
    obtain ⟨k, -, hkg⟩ := forall₂_partner hgroups g hg
    exact (synthesizedFor_ids _ _ _ k g hkg).1
  · have hmap : groups.map (fun g => (providerContent g.1, g.2.map modelContent))
        = (ConfigTransformer.supportedModelsOf
            (ConfigTransformer.uiToTaskMaster providers models).toRead).keys.map
          (fun k =>
            match (owners providers models).find?
                (fun p => ConfigTransformer.getProviderKey p = k) with
            | some p =>
              (providerContent p,
                (models.filter (fun model => model.providerId == p.id)).map
                  (fun m => modelContent m.withDefaults))
            | none => ({ name := "", endpoint := "", type := "", apiKey := "" }, [])) := by
      refine forall₂_map_eq _ _ hgroups ?_
      intro k hk g hkg
      obtain ⟨p, hp, hpk⟩ := List.mem_map.mp ((hkeysPerm.mem_iff).mp hk)
      subst hpk
      rw [find?_of_nodup_map ConfigTransformer.getProviderKey _ p hp hownersNodup]
      exact synthesizedFor_owner_content suffix providers models hkeys hvalid p hp g hkg
    rw [hmap]
    refine (hkeysPerm.map _).trans (List.Perm.of_eq ?_)
    rw [List.map_map]
    apply List.map_congr_left
    intro p hp
    simp only [Function.comp]
    rw [find?_of_nodup_map ConfigTransformer.getProviderKey _ p hp hownersNodup]
  · intro m hm
    obtain ⟨p, hp, hpid⟩ := href m hm
    have hpo : p ∈ owners providers models :=
      List.mem_filter.mpr ⟨hp, List.any_eq_true.mpr ⟨m, hm, by simp [hpid]⟩⟩
    refine ⟨p, hpo, hpid, ?_⟩
    intro q hq hqid
    exact List.inj_on_of_nodup_map hids (List.mem_filter.mp hq).1 hp (hqid.trans hpid.symm)

/-- C15, instance: `acme` owns `gptX` and `gptY`, which have every optional property, and
`openAI` owns no model. After the round trip `acme` and the contents of its two models are
back, under new ids, and `openAI` is not. -/
theorem round_trip_witness :
    (([Sample.acme, Sample.openAI].map (fun p => p.id)).Nodup
      ∧ ([Sample.acme, Sample.openAI].map ConfigTransformer.getProviderKey).Nodup
      ∧ (∀ m ∈ [Sample.gptX, Sample.gptY], ∃ p ∈ [Sample.acme, Sample.openAI],
          p.id = m.providerId)
      ∧ (∀ p ∈ [Sample.acme, Sample.openAI], p.name ≠ "" ∧ p.endpoint ≠ "" ∧ p.type ≠ ""))
    ∧ (ConfigTransformer.taskMasterToUi Sample.counterSuffix
        (ConfigTransformer.uiToTaskMaster [Sample.acme, Sample.openAI]
          [Sample.gptX, Sample.gptY]).toRead).toBool = true
    ∧ (ConfigTransformer.taskMasterToUi Sample.counterSuffix
        (ConfigTransformer.uiToTaskMaster [Sample.acme, Sample.openAI]
          [Sample.gptX, Sample.gptY]).toRead).map
          (fun r => (r.providers.map providerContent, r.models.map modelContent))
      = .ok ([providerContent Sample.acme],
             [modelContent Sample.gptX, modelContent Sample.gptY])
    ∧ (ConfigTransformer.taskMasterToUi Sample.counterSuffix
        (ConfigTransformer.uiToTaskMaster [Sample.acme, Sample.openAI]
          [Sample.gptX, Sample.gptY]).toRead).map
          (fun r => (r.providers.map (fun p => p.id),
                     r.models.map (fun m => (m.id, m.providerId))))
      = .ok (["provider_0"], [("model_1", "provider_0"), ("model_2", "provider_0")]) := by
  obtain ⟨groups, hrun, -⟩ := round_trip Sample.counterSuffix [Sample.acme, Sample.openAI]
    [Sample.gptX, Sample.gptY] (by decide) (by decide) (by decide) (by decide)
  refine ⟨⟨by decide, by decide, by decide, by decide⟩, ?_, by decide, by decide⟩
  rw [hrun]
  rfl

/-! ## Further properties of the store -/

/-- The first loop of `importConfiguration` throws at the first provider that fails
validation, with the name and the errors of that provider. -/
theorem validateAllProviders_first (V : Validation) (p : Provider) (after : List Provider) :
    ∀ before : List Provider, (∀ q ∈ before, (V.validateProvider q).isValid = true) →
      (V.validateProvider p).isValid = false →
      ConfigManager.validateAllProviders V (before ++ p :: after)
        = .error (.invalidProvider p.name (V.validateProvider p).errors) := by
  intro before
  induction before with
  | nil =>
    intro _ hp
    simp [ConfigManager.validateAllProviders, hp]
  | cons q rest ih =>
    intro hbefore hp
    have hq := hbefore q (List.mem_cons_self _ _)
    simp only [List.cons_append, ConfigManager.validateAllProviders, hq]
    exact ih (fun x hx => hbefore x (List.mem_cons_of_mem _ hx)) hp

/-- The second loop of `importConfiguration` throws at the first model that fails
validation, with the name and the errors of that model. -/
theorem validateAllModels_first (V : Validation) (m : Model) (after : List Model) :
    ∀ before : List Model, (∀ q ∈ before, (V.validateModel q).isValid = true) →
      (V.validateModel m).isValid = false →
      ConfigManager.validateAllModels V (before ++ m :: after)
        = .error (.invalidModel m.name (V.validateModel m).errors) := by
  intro before
  induction before with
  | nil =>
    intro _ hm
    simp [ConfigManager.validateAllModels, hm]
  | cons q rest ih =>
    intro hbefore hm
    have hq := hbefore q (List.mem_cons_self _ _)
    simp only [List.cons_append, ConfigManager.validateAllModels, hq]
    exact ih (fun x hx => hbefore x (List.mem_cons_of_mem _ hx)) hm

/-- C21, as stated, fails: for a batch of two providers without a name and a model without
`modelId`, the error of `importConfiguration` carries the name and the errors of the first
provider only; the errors of the second provider and of the model are not in it. -/
theorem importConfiguration_collects_counterexample :
    (specValidation.validateProvider Sample.noName).isValid = false
    ∧ (specValidation.validateProvider Sample.noNameAgain).isValid = false
    ∧ (specValidation.validateModel Sample.noModelId).errors = ["modelId is required"]
    ∧ (Sample.store.importConfiguration specValidation "t" [Sample.noName, Sample.noNameAgain]
        [Sample.noModelId]).1 = .error (.invalidProvider "" ["name is required"])
    ∧ (StoreError.invalidProvider "" ["name is required"]).message
        = "无效的服务商 \"\": name is required" := by
  decide

/-- C21, amended: `importConfiguration` stops at the first record that fails validation,
providers before models and each list in batch order, and the error it raises carries the
name and the validation errors of that record alone. -/
theorem importConfiguration_first_violation (V : Validation) (now : String)
    (s : ConfigManager) :
    (∀ (before after : List Provider) (p : Provider) (models : List Model),
      (∀ q ∈ before, (V.validateProvider q).isValid = true) →
      (V.validateProvider p).isValid = false →
      (s.importConfiguration V now (before ++ p :: after) models).1
        = .error (.invalidProvider p.name (V.validateProvider p).errors))
    ∧ (∀ (providers : List Provider) (before after : List Model) (m : Model),
      (∀ p ∈ providers, (V.validateProvider p).isValid = true) →
      (∀ q ∈ before, (V.validateModel q).isValid = true) →
      (V.validateModel m).isValid = false →
      (s.importConfiguration V now providers (before ++ m :: after)).1
        = .error (.invalidModel m.name (V.validateModel m).errors)) := by
  constructor
  · intro before after p models hbefore hp
    simp [ConfigManager.importConfiguration, validateAllProviders_first V p after before hbefore hp]
  · intro providers before after m hproviders hbefore hm
    simp [ConfigManager.importConfiguration, validateAllProviders_ok V providers hproviders,
      validateAllModels_first V m after before hbefore hm]

/-- C21, instance: after the valid provider `acme` comes `noName`, then `noNameAgain`; the
error is that of `noName`. With valid providers, after the valid model `gptX` comes
`noModelId`; the error is that of `noModelId`. -/
theorem importConfiguration_first_violation_witness :
    (Sample.store.importConfiguration specValidation "t"
        [Sample.acme, Sample.noName, Sample.noNameAgain] [Sample.noModelId]).1
      = .error (.invalidProvider "" ["name is required"])
    ∧ (Sample.store.importConfiguration specValidation "t" [Sample.acme]
        [Sample.gptX, Sample.noModelId, Sample.gptY]).1
      = .error (.invalidModel "gpt-x" ["modelId is required"]) :=
  have h := importConfiguration_first_violation specValidation "t" Sample.store
  ⟨h.1 [Sample.acme] [Sample.noNameAgain] Sample.noName [Sample.noModelId] (by decide)
      (by decide),
    h.2 [Sample.acme] [Sample.gptX] [Sample.gptY] Sample.noModelId (by decide) (by decide)
      (by decide)⟩

/-- In a list of records with pairwise distinct ids, no record after `x` has the id of `x`. -/
theorem after_ne_of_split_nodup {α : Type} (f : α → String) (before after : List α) (x : α)
    (hnodup : ((before ++ x :: after).map f).Nodup) : ∀ q ∈ after, f q ≠ f x := by
  intro q hq heq
  rw [List.map_append, List.map_cons] at hnodup
  have h2 := (List.nodup_append.mp hnodup).2.1
  exact (List.nodup_cons.mp h2).1 (heq ▸ List.mem_map_of_mem f hq)

/-- What `saveConfiguration` writes is what the store holds. -/
theorem saveConfiguration_persisted (now : String) (s : ConfigManager) :
    (s.saveConfiguration now).persisted now := rfl

/-- C22, as stated, fails: `addProvider` called twice with the record `acme` and then
`deleteProvider` called with its id `p1` all succeed, and the blob written by
`deleteProvider` still contains a provider whose id is `p1`. -/
theorem persistence_counterexample :
    (runCalls specValidation Sample.addAcmeTwiceThenDelete
        (ConfigManager.new Sample.emptyStorage)).map
      (fun s => s.localStorage.config.map (fun blob => blob.providers.map (fun p => p.id)))
      = some (some ["p1"]) := by
  decide

/-- C22, amended: after every successful `addProvider`, `updateProvider`, `deleteProvider`,
`addModel`, `updateModel`, `deleteModel` or `importConfiguration` the blob under the
configuration key holds exactly the providers and models the store holds in memory; the blob
written by a successful `deleteProvider(P)` contains no model whose `providerId` is `P`,
and, when the provider ids of the store were pairwise distinct, no provider whose id is
`P`. -/
theorem persistence_tracks_memory (V : Validation) (now : String) (s : ConfigManager) :
    (∀ p r, (s.addProvider V now p).1 = .ok r → (s.addProvider V now p).2.persisted now)
    ∧ (∀ p r, (s.updateProvider V now p).1 = .ok r →
        (s.updateProvider V now p).2.persisted now)
    ∧ (∀ P r, (s.deleteProvider now P).1 = .ok r → (s.deleteProvider now P).2.persisted now)
    ∧ (∀ m r, (s.addModel V now m).1 = .ok r → (s.addModel V now m).2.persisted now)
    ∧ (∀ m r, (s.updateModel V now m).1 = .ok r → (s.updateModel V now m).2.persisted now)
    ∧ (∀ M r, (s.deleteModel now M).1 = .ok r → (s.deleteModel now M).2.persisted now)
    ∧ (∀ providers models r, (s.importConfiguration V now providers models).1 = .ok r →
        (s.importConfiguration V now providers models).2.persisted now)
    ∧ (∀ P r blob, (s.deleteProvider now P).1 = .ok r →
        (s.deleteProvider now P).2.localStorage.config = some blob →
        (∀ m ∈ blob.models, m.providerId ≠ P)
        ∧ ((s.providers.map (fun p => p.id)).Nodup → ∀ p ∈ blob.providers, p.id ≠ P)) := by
  refine ⟨?_, ?_, ?_, ?_, ?_, ?_, ?_, ?_⟩
  · intro p r h
    unfold ConfigManager.addProvider at h ⊢
    simp only at h ⊢
    split_ifs at h ⊢
    exact saveConfiguration_persisted _ _
  · intro p r h
    unfold ConfigManager.updateProvider at h ⊢
    cases hidx : List.findIdx? (fun q : Provider => q.id == p.id) s.providers with
    | none =>
      simp only [hidx] at h
      split_ifs at h
    | some index =>
      simp only [hidx] at h ⊢
      split_ifs at h ⊢
      exact saveConfiguration_persisted _ _
  · intro P r h
    unfold ConfigManager.deleteProvider at h ⊢
    cases hidx : List.findIdx? (fun q : Provider => q.id == P) s.providers <;>
      simp only [hidx] at h ⊢ <;>
      first | exact saveConfiguration_persisted _ _ | cases h
  · intro m r h
    unfold ConfigManager.addModel at h ⊢
    simp only at h ⊢
    split_ifs at h ⊢
    exact saveConfiguration_persisted _ _
  · intro m r h
    unfold ConfigManager.updateModel at h ⊢
    cases hidx : List.findIdx? (fun q : Model => q.id == m.id) s.models with
    | none =>
      simp only [hidx] at h
      split_ifs at h
    | some index =>
      simp only [hidx] at h ⊢
      split_ifs at h ⊢
      exact saveConfiguration_persisted _ _
  · intro M r h
    unfold ConfigManager.deleteModel at h ⊢
    cases hidx : List.findIdx? (fun q : Model => q.id == M) s.models <;>
      simp only [hidx] at h ⊢ <;>
      first | exact saveConfiguration_persisted _ _ | cases h
  · intro providers models r h
    unfold ConfigManager.importConfiguration at h ⊢
    cases hp : ConfigManager.validateAllProviders V providers <;>
      cases hm : ConfigManager.validateAllModels V models <;>
      simp only [hp, hm] at h ⊢ <;>
      first | exact saveConfiguration_persisted _ _ | cases h
  · intro P r blob h hblob
    unfold ConfigManager.deleteProvider at h hblob
    split at h <;> rename_i index hidx
    · cases h
    · simp only [hidx, ConfigManager.saveConfiguration, Option.some.injEq] at hblob
      obtain ⟨before, x, after, hsplit, hx, hbefore, hindex⟩ :=
        findIdx?_some_split _ _ _ hidx
      have hxid : x.id = P := by simpa using hx
      subst hblob
      constructor
      · intro m hm
        simp only [List.mem_filter] at hm
        simpa using hm.2
      · intro hnodup p hp
        simp only [hsplit, hindex, eraseIdx_split] at hp
        rw [hsplit] at hnodup
        rcases List.mem_append.mp hp with hp | hp
        · simpa using hbefore p hp
        · exact hxid ▸ after_ne_of_split_nodup (fun p : Provider => p.id) before after x hnodup p hp

/-- C22, instance: in the sample store each of the seven calls succeeds and leaves a blob
equal to the memory; the blob written by `deleteProvider("p1")` has neither the provider
`p1` nor its model `m1`. -/
theorem persistence_tracks_memory_witness :
    (Sample.store.addProvider specValidation "t" Sample.poloSpaced).2.persisted "t"
    ∧ (Sample.store.updateProvider specValidation "t" Sample.acmeMoved).2.persisted "t"
    ∧ (Sample.store.deleteProvider "t" "p1").2.persisted "t"
    ∧ (Sample.store.addModel specValidation "t" Sample.gptY).2.persisted "t"
    ∧ (Sample.store.updateModel specValidation "t" Sample.gptXRenamed).2.persisted "t"
    ∧ (Sample.store.deleteModel "t" "m1").2.persisted "t"
    ∧ (Sample.store.importConfiguration specValidation "t" [Sample.acme] [Sample.gptX]).2.persisted
        "t"
    ∧ ((∀ m ∈ [Sample.gpt4], m.providerId ≠ "p1")
        ∧ ((Sample.store.providers.map (fun p => p.id)).Nodup →
            ∀ p ∈ [Sample.openAI], p.id ≠ "p1")) :=
  have h := persistence_tracks_memory specValidation "t" Sample.store
  ⟨h.1 Sample.poloSpaced Sample.poloSpaced (by decide),
    h.2.1 Sample.acmeMoved Sample.acmeMoved (by decide),
    h.2.2.1 "p1" true (by decide),
    h.2.2.2.1 Sample.gptY Sample.gptY (by decide),
    h.2.2.2.2.1 Sample.gptXRenamed Sample.gptXRenamed (by decide),
    h.2.2.2.2.2.1 "m1" true (by decide),
    h.2.2.2.2.2.2.1 [Sample.acme] [Sample.gptX] true (by decide),
    h.2.2.2.2.2.2.2 "p1" true
      { providers := [Sample.openAI], models := [Sample.gpt4], lastUpdated := "t" }
      (by decide) (by decide)⟩

/-- C23. Update touches one record: when `updateProvider(p)` succeeds it returns `p`, the
models are unchanged, and the providers are the old list with `p` written over the first
provider whose id is `p.id`, same length and order, every other provider unchanged; when
the provider ids of the store are pairwise distinct that provider is the only one with the
id. The same holds for `updateModel(m)` and the models list, the providers being
unchanged. -/
theorem update_touches_one_record (V : Validation) (now : String) (s : ConfigManager) :
    (∀ p r, (s.updateProvider V now p).1 = .ok r →
      r = p
      ∧ (s.updateProvider V now p).2.models = s.models
      ∧ (s.updateProvider V now p).2.providers.length = s.providers.length
      ∧ ∃ before x after, s.providers = before ++ x :: after ∧ x.id = p.id
          ∧ (s.updateProvider V now p).2.providers = before ++ p :: after
          ∧ (∀ q ∈ before, q.id ≠ p.id)
          ∧ ((s.providers.map (fun q => q.id)).Nodup → ∀ q ∈ after, q.id ≠ p.id))
    ∧ (∀ m r, (s.updateModel V now m).1 = .ok r →
      r = m
      ∧ (s.updateModel V now m).2.providers = s.providers
      ∧ (s.updateModel V now m).2.models.length = s.models.length
      ∧ ∃ before x after, s.models = before ++ x :: after ∧ x.id = m.id
          ∧ (s.updateModel V now m).2.models = before ++ m :: after
          ∧ (∀ q ∈ before, q.id ≠ m.id)
          ∧ ((s.models.map (fun q => q.id)).Nodup → ∀ q ∈ after, q.id ≠ m.id)) := by
  constructor
  · intro p r h
    unfold ConfigManager.updateProvider at h ⊢
    cases hidx : List.findIdx? (fun q : Provider => q.id == p.id) s.providers with
    | none =>
      simp only [hidx] at h
      split_ifs at h
    | some index =>
      obtain ⟨before, x, after, hsplit, hx, hbefore, hindex⟩ := findIdx?_some_split _ _ _ hidx
      have hxid : x.id = p.id := by simpa using hx
      simp only [hidx] at h ⊢
      split_ifs at h ⊢
      simp only [Except.ok.injEq] at h
      refine ⟨h.symm, rfl, ?_, before, x, after, hsplit, hxid, ?_, ?_, ?_⟩
      · simp [ConfigManager.saveConfiguration]
      · simp only [ConfigManager.saveConfiguration, hsplit, hindex, set_split]
      · intro q hq
        simpa using hbefore q hq
      · intro hnodup q hq
        rw [hsplit] at hnodup
        exact hxid ▸ after_ne_of_split_nodup (fun q : Provider => q.id) before after x hnodup q hq
  · intro m r h
    unfold ConfigManager.updateModel at h ⊢
    cases hidx : List.findIdx? (fun q : Model => q.id == m.id) s.models with
    | none =>
      simp only [hidx] at h
      split_ifs at h
    | some index =>
      obtain ⟨before, x, after, hsplit, hx, hbefore, hindex⟩ := findIdx?_some_split _ _ _ hidx
      have hxid : x.id = m.id := by simpa using hx
      simp only [hidx] at h ⊢
      split_ifs at h ⊢
      simp only [Except.ok.injEq] at h
      refine ⟨h.symm, rfl, ?_, before, x, after, hsplit, hxid, ?_, ?_, ?_⟩
      · simp [ConfigManager.saveConfiguration]
      · simp only [ConfigManager.saveConfiguration, hsplit, hindex, set_split]
      · intro q hq
        simpa using hbefore q hq
      · intro hnodup q hq
        rw [hsplit] at hnodup
        exact hxid ▸ after_ne_of_split_nodup (fun q : Model => q.id) before after x hnodup q hq

/-- C23, instance: in the sample store, whose ids are pairwise distinct, `updateProvider`
with a new endpoint for `p1` replaces the first of the two providers and keeps the models;
`updateModel` with a new name for `m1` replaces the first of the two models and keeps the
providers. -/
theorem update_touches_one_record_witness :
    (Sample.store.providers.map (fun q => q.id)).Nodup
    ∧ (Sample.store.models.map (fun q => q.id)).Nodup
    ∧ (Sample.store.updateProvider specValidation "t" Sample.acmeMoved).2.providers
        = [Sample.acmeMoved, Sample.openAI]
    ∧ (Sample.store.updateModel specValidation "t" Sample.gptXRenamed).2.models
        = [Sample.gptXRenamed, Sample.gpt4]
    ∧ (Sample.acmeMoved = Sample.acmeMoved
      ∧ (Sample.store.updateProvider specValidation "t" Sample.acmeMoved).2.models
          = Sample.store.models
      ∧ (Sample.store.updateProvider specValidation "t" Sample.acmeMoved).2.providers.length
          = Sample.store.providers.length
      ∧ ∃ before x after, Sample.store.providers = before ++ x :: after
          ∧ x.id = Sample.acmeMoved.id
          ∧ (Sample.store.updateProvider specValidation "t" Sample.acmeMoved).2.providers
              = before ++ Sample.acmeMoved :: after
          ∧ (∀ q ∈ before, q.id ≠ Sample.acmeMoved.id)
          ∧ ((Sample.store.providers.map (fun q => q.id)).Nodup →
              ∀ q ∈ after, q.id ≠ Sample.acmeMoved.id))
    ∧ (Sample.gptXRenamed = Sample.gptXRenamed
      ∧ (Sample.store.updateModel specValidation "t" Sample.gptXRenamed).2.providers
          = Sample.store.providers
      ∧ (Sample.store.updateModel specValidation "t" Sample.gptXRenamed).2.models.length
          = Sample.store.models.length
      ∧ ∃ before x after, Sample.store.models = before ++ x :: after
          ∧ x.id = Sample.gptXRenamed.id
          ∧ (Sample.store.updateModel specValidation "t" Sample.gptXRenamed).2.models
              = before ++ Sample.gptXRenamed :: after
          ∧ (∀ q ∈ before, q.id ≠ Sample.gptXRenamed.id)
          ∧ ((Sample.store.models.map (fun q => q.id)).Nodup →
              ∀ q ∈ after, q.id ≠ Sample.gptXRenamed.id)) :=
  ⟨by decide, by decide, by decide, by decide,
    (update_touches_one_record specValidation "t" Sample.store).1 Sample.acmeMoved
      Sample.acmeMoved (by decide),
    (update_touches_one_record specValidation "t" Sample.store).2 Sample.gptXRenamed
      Sample.gptXRenamed (by decide)⟩

/-! ## Further properties of the transformer -/

/-- No provider is found by id exactly when every provider has another id. -/
theorem find?_isNone_eq_all (providers : List Provider) (providerId : String) :
    (providers.find? (fun p => p.id == providerId)).isNone
      = providers.all (fun p => p.id != providerId) := by
  induction providers with
  | nil => rfl
  | cons p rest ih =>
    by_cases hp : p.id = providerId
    · simp [List.find?_cons, hp]
    · simp [List.find?_cons, hp, ih]

/-- The messages pushed for one provider are the messages asked for its empty fields. -/
theorem providerErrors_eq_required (index : ℕ) (p : Provider) :
    ConfigTransformer.providerErrors index p
      = ConfigTransformer.requiredMessages "Provider " index
          [("Name", p.name), ("Endpoint", p.endpoint), ("Type", p.type)] := by
  unfold ConfigTransformer.providerErrors ConfigTransformer.requiredMessages
  by_cases h1 : p.name = "" <;> by_cases h2 : p.endpoint = "" <;> by_cases h3 : p.type = "" <;>
    simp [List.filter_cons, h1, h2, h3, String.append_assoc]

/-- The messages pushed for one model are the messages asked for its empty fields, followed
by the message for a missing provider. -/
theorem modelErrors_eq_required (providers : List Provider) (index : ℕ) (m : Model) :
    ConfigTransformer.modelErrors providers index m
      = ConfigTransformer.requiredMessages "Model " index
          [("Name", m.name), ("Model ID", m.modelId), ("Provider ID", m.providerId)]
        ++ (if providers.all (fun p => p.id != m.providerId) then
              ["Model " ++ toString (index + 1) ++ ": Referenced provider not found"]
            else []) := by
  unfold ConfigTransformer.modelErrors ConfigTransformer.requiredMessages
  rw [find?_isNone_eq_all]
  by_cases h1 : m.name = "" <;> by_cases h2 : m.modelId = "" <;>
    by_cases h3 : m.providerId = "" <;>
    simp [List.filter_cons, h1, h2, h3, String.append_assoc]

/-- The first loop of `validateUiConfig` from position `index`, record by record. -/
theorem providersErrors_eq_flatMap :
    ∀ (providers : List Provider) (index : ℕ),
      ConfigTransformer.providersErrors providers index
        = (providers.enumFrom index).flatMap (fun ip =>
            ConfigTransformer.requiredMessages "Provider " ip.1
              [("Name", ip.2.name), ("Endpoint", ip.2.endpoint), ("Type", ip.2.type)]) := by
  intro providers
  induction providers with
  | nil => intro _; rfl
  | cons p rest ih =>
    intro index
    simp only [ConfigTransformer.providersErrors, List.enumFrom_cons, List.flatMap_cons,
      ih (index + 1), providerErrors_eq_required]

/-- The second loop of `validateUiConfig` from position `index`, record by record. -/
theorem modelsErrors_eq_flatMap (providers : List Provider) :
    ∀ (models : List Model) (index : ℕ),
      ConfigTransformer.modelsErrors providers models index
        = (models.enumFrom index).flatMap (fun im =>
            ConfigTransformer.requiredMessages "Model " im.1
              [("Name", im.2.name), ("Model ID", im.2.modelId),
                ("Provider ID", im.2.providerId)]
            ++ (if providers.all (fun p => p.id != im.2.providerId) then
                  ["Model " ++ toString (im.1 + 1) ++ ": Referenced provider not found"]
                else [])) := by
  intro models
  induction models with
  | nil => intro _; rfl
  | cons m rest ih =>
    intro index
    simp only [ConfigTransformer.modelsErrors, List.enumFrom_cons, List.flatMap_cons,
      ih (index + 1), modelErrors_eq_required]

/-- C25. The error list of `validateUiConfig` is the list its description asks for: in
record order, providers first, one message per empty provider field (name, endpoint, type)
and per empty model field (name, `modelId`, `providerId`), plus one per model whose
`providerId` is the id of no provider of the batch; `isValid` is true exactly when that list
is empty, that is, when no field is empty and every model refers to a provider of the
batch. -/
theorem validateUiConfig_errors (providers : List Provider) (models : List Model) :
    (ConfigTransformer.validateUiConfig providers models).errors
      = ConfigTransformer.expectedUiErrors providers models
    ∧ ((ConfigTransformer.validateUiConfig providers models).isValid = true
        ↔ (ConfigTransformer.validateUiConfig providers models).errors = [])
    ∧ ((ConfigTransformer.validateUiConfig providers models).isValid = true
        ↔ (∀ p ∈ providers, p.name ≠ "" ∧ p.endpoint ≠ "" ∧ p.type ≠ "")
          ∧ ∀ m ∈ models, m.name ≠ "" ∧ m.modelId ≠ "" ∧ m.providerId ≠ ""
              ∧ ∃ p ∈ providers, p.id = m.providerId) := by
  have hvalid : (ConfigTransformer.validateUiConfig providers models).isValid = true
      ↔ (ConfigTransformer.validateUiConfig providers models).errors = [] := by
    simp [ConfigTransformer.validateUiConfig]
  refine ⟨?_, hvalid, ?_⟩
  · simp only [ConfigTransformer.validateUiConfig, ConfigTransformer.expectedUiErrors,
      List.enum, providersErrors_eq_flatMap, modelsErrors_eq_flatMap]
  · rw [hvalid]
    simp only [ConfigTransformer.validateUiConfig, List.append_eq_nil,
      providersErrors_eq_nil_iff, modelsErrors_eq_nil_iff]
    apply and_congr Iff.rfl
    apply forall₂_congr
    intro m _
    apply and_congr Iff.rfl
    apply and_congr Iff.rfl
    apply and_congr Iff.rfl
    rw [List.find?_isSome]
    simp

/-- C25, instance: a provider without a name followed by a model without `modelId` whose
provider is not in the batch, and a second, complete model of the provider. -/
theorem validateUiConfig_errors_example :
    ConfigTransformer.validateUiConfig [Sample.noName]
        [{ Sample.noModelId with providerId := "p9" }, { Sample.gptX with providerId := "p3" }]
      = { isValid := false,
          errors := ["Provider 1: Name is required", "Model 1: Model ID is required",
            "Model 1: Referenced provider not found"] } := by
  decide

/-- The order of characters is the order of their code points. -/
theorem char_le_iff (c d : Char) : c ≤ d ↔ c.toNat ≤ d.toNat := by
  rw [Char.le_def]
  exact Iff.rfl

/-- A character of `a-z0-9` is its own lower-case image. -/
theorem toLowerCaseChar_of_isKeyChar (c : Char) (h : ConfigTransformer.isKeyChar c = true) :
    ConfigTransformer.toLowerCaseChar c = [c] := by
  simp only [ConfigTransformer.isKeyChar, Bool.decide_or, Bool.decide_and, Bool.or_eq_true,
    Bool.and_eq_true, decide_eq_true_eq, char_le_iff] at h
  have hupper : ¬ ('A' ≤ c ∧ c ≤ 'Z') := by
    simp only [char_le_iff]
    have e1 : ('A' : Char).toNat = 65 := rfl
    have e2 : ('Z' : Char).toNat = 90 := rfl
    have e3 : ('a' : Char).toNat = 97 := rfl
    have e4 : ('z' : Char).toNat = 122 := rfl
    have e5 : ('0' : Char).toNat = 48 := rfl
    have e6 : ('9' : Char).toNat = 57 := rfl
    omega
  have hdotted : c ≠ Char.ofNat 0x130 := by
    intro hc
    subst hc
    revert h
    decide
  have hkelvin : c ≠ Char.ofNat 0x212A := by
    intro hc
    subst hc
    revert h
    decide
  simp [ConfigTransformer.toLowerCaseChar, hupper, hdotted, hkelvin]

/-- Lower-casing a list of characters of `a-z0-9` changes nothing. -/
theorem flatMap_toLowerCaseChar_of_isKeyChar :
    ∀ cs : List Char, (∀ c ∈ cs, ConfigTransformer.isKeyChar c = true) →
      cs.flatMap ConfigTransformer.toLowerCaseChar = cs := by
  intro cs
  induction cs with
  | nil => intro _; rfl
  | cons c rest ih =>
    intro h
    rw [List.flatMap_cons, toLowerCaseChar_of_isKeyChar c (h c (List.mem_cons_self _ _)),
      ih (fun x hx => h x (List.mem_cons_of_mem _ hx))]
    rfl

/-- C26. Key derivation: `getProviderKey` is the lower-cased name with every character
outside `a-z0-9` deleted; its result consists of characters of `a-z0-9` only; deriving the
key of a provider named by a key gives that key again; `Polo AI` and `PoloAI` both give
`poloai`, and `Acme` gives `acme`. -/
theorem getProviderKey_normal_form (p : Provider) :
    ConfigTransformer.getProviderKey p
      = String.mk ((ConfigTransformer.toLowerCase p.name).data.filter
          (fun c => ('a' ≤ c ∧ c ≤ 'z') ∨ ('0' ≤ c ∧ c ≤ '9')))
    ∧ (∀ c ∈ (ConfigTransformer.getProviderKey p).data,
        ('a' ≤ c ∧ c ≤ 'z') ∨ ('0' ≤ c ∧ c ≤ '9'))
    ∧ ConfigTransformer.getProviderKey { p with name := ConfigTransformer.getProviderKey p }
        = ConfigTransformer.getProviderKey p
    ∧ ConfigTransformer.getProviderKey { p with name := "Polo AI" } = "poloai"
    ∧ ConfigTransformer.getProviderKey { p with name := "PoloAI" } = "poloai"
    ∧ ConfigTransformer.getProviderKey { p with name := "Acme" } = "acme" := by
  have hkey : ∀ c ∈ (ConfigTransformer.getProviderKey p).data,
      ConfigTransformer.isKeyChar c = true := by
    intro c hc
    simp only [ConfigTransformer.getProviderKey, ConfigTransformer.stripNonKeyChars,
      List.mem_filter] at hc
    exact hc.2
  have hspaced : ConfigTransformer.stripNonKeyChars (ConfigTransformer.toLowerCase "Polo AI")
      = "poloai" := by decide
  have hjoined : ConfigTransformer.stripNonKeyChars (ConfigTransformer.toLowerCase "PoloAI")
      = "poloai" := by decide
  have hacme : ConfigTransformer.stripNonKeyChars (ConfigTransformer.toLowerCase "Acme")
      = "acme" := by decide
  refine ⟨rfl, ?_, ?_, hspaced, hjoined, hacme⟩
  · intro c hc
    simpa [ConfigTransformer.isKeyChar] using hkey c hc
  · have hlower : ConfigTransformer.toLowerCase (ConfigTransformer.getProviderKey p)
        = ConfigTransformer.getProviderKey p := by
      unfold ConfigTransformer.toLowerCase
      rw [flatMap_toLowerCaseChar_of_isKeyChar _ hkey]
    show ConfigTransformer.stripNonKeyChars
        (ConfigTransformer.toLowerCase (ConfigTransformer.getProviderKey p))
      = ConfigTransformer.getProviderKey p
    rw [hlower]
    unfold ConfigTransformer.stripNonKeyChars
    rw [List.filter_eq_self.mpr hkey]

/-- C27. A batch that `validateUiConfig` accepts is converted by `uiToTaskMaster` into
documents that `validateTaskMasterConfig` accepts. -/
theorem valid_batch_converts_to_valid_documents (providers : List Provider)
    (models : List Model)
    (h : (ConfigTransformer.validateUiConfig providers models).isValid = true) :
    (ConfigTransformer.validateTaskMasterConfig
      (ConfigTransformer.uiToTaskMaster providers models).toRead).isValid = true := by
  have herrors : ConfigTransformer.providersErrors providers 0
      ++ ConfigTransformer.modelsErrors providers models 0 = [] := by
    simpa [ConfigTransformer.validateUiConfig] using h
  have hmodels := (modelsErrors_eq_nil_iff providers models 0).mp (List.append_eq_nil.mp herrors).2
  exact uiToTaskMaster_accepted providers models (fun m hm => (hmodels m hm).2.1)

/-- C27, instance: the sample store passes `validateUiConfig`, and its conversion passes
`validateTaskMasterConfig`. -/
theorem valid_batch_converts_to_valid_documents_witness :
    (ConfigTransformer.validateUiConfig Sample.store.providers Sample.store.models).isValid
      = true
    ∧ (ConfigTransformer.validateTaskMasterConfig
        (ConfigTransformer.uiToTaskMaster Sample.store.providers
          Sample.store.models).toRead).isValid = true :=
  ⟨by decide,
    valid_batch_converts_to_valid_documents Sample.store.providers Sample.store.models
      (by decide)⟩

/-- An assigned key of `config.models` is one of the three roles, and its value is the
outcome of the block of that role. -/
theorem activeModel_of_get? (providers : List Provider) (models : List Model) (role : String)
    (a : ActiveModel)
    (h : (ConfigTransformer.uiToTaskMaster providers models).config.models.get? role = some a) :
    ConfigTransformer.activeModel providers models role = some a := by
  by_cases hrole : role ∈ roleSet
  · rw [← uiToTaskMaster_models_get? providers models role hrole]
    exact h
  · simp only [roleSet, List.mem_cons, List.mem_singleton, List.mem_nil_iff, or_false,
      not_or] at hrole
    simp [ActiveModels.get?, hrole.1, hrole.2.1, hrole.2.2] at h

/-- The outcome of the block of a role names a provider of the batch and a model of the
batch that carries the role and belongs to that provider. -/
theorem activeModel_some (providers : List Provider) (models : List Model) (role : String)
    (a : ActiveModel) (h : ConfigTransformer.activeModel providers models role = some a) :
    ∃ p ∈ providers, ∃ m ∈ models, ConfigTransformer.includesRole role m = true
      ∧ p.id = m.providerId ∧ a.provider = ConfigTransformer.getProviderKey p
      ∧ a.model = m.modelId := by
  unfold ConfigTransformer.activeModel at h
  simp only at h
  split at h
  · cases h
  · rename_i roleModel rest hfilter
    have hmem : roleModel ∈ models.filter (ConfigTransformer.includesRole role) := by
      rw [hfilter]
      exact List.mem_cons_self _ _
    obtain ⟨hm, hrole⟩ := List.mem_filter.mp hmem
    split at h
    · rename_i provider hfind
      have hp := List.mem_of_find?_eq_some hfind
      have hid : provider.id = roleModel.providerId := by simpa using List.find?_some hfind
      simp only [Option.some.injEq] at h
      subst h
      exact ⟨provider, hp, roleModel, hm, hrole, hid, rfl, rfl⟩
    · cases h

/-- C28. Active models point at supported models: when the derived keys of the providers
are pairwise distinct, every entry `{provider: k, model: m}` that `uiToTaskMaster` puts in
`config.models` under a role is such that `k` is a key of `supportedModels`, the list under
`k` has an entry with id `m` whose `allowed_roles` contains the role, and `k` is a key of
`config.providers`. -/
theorem active_models_are_supported (providers : List Provider) (models : List Model)
    (hkeys : (providers.map ConfigTransformer.getProviderKey).Nodup)
    (role : String) (a : ActiveModel)
    (h : (ConfigTransformer.uiToTaskMaster providers models).config.models.get? role = some a) :
    a.provider ∈ (ConfigTransformer.uiToTaskMaster providers models).supportedModels.keys
    ∧ (∃ group, (ConfigTransformer.uiToTaskMaster providers models).supportedModels.get?
          a.provider = some group
        ∧ ∃ entry ∈ group, entry.id = a.model ∧ role ∈ entry.allowed_roles)
    ∧ a.provider ∈ (ConfigTransformer.uiToTaskMaster providers models).config.providers.keys
    ∧ ((ConfigTransformer.uiToTaskMaster providers models).config.providers.get?
          a.provider).isSome = true := by
  obtain ⟨p, hp, m, hm, hrole, hid, hprovider, hmodel⟩ :=
    activeModel_some providers models role a (activeModel_of_get? providers models role a h)
  have hentry : (ConfigTransformer.getProviderKey p,
      (models.filter (fun model => model.providerId == p.id)).map
        ConfigTransformer.toSupportedModel)
      ∈ (ConfigTransformer.uiToTaskMaster providers models).supportedModels.entries := by
    rw [supportedModels_entries_of_nodup providers models hkeys]
    apply List.mem_map.mpr
    refine ⟨p, ?_, rfl⟩
    simp only [owners, List.mem_filter, List.any_eq_true]
    exact ⟨hp, m, hm, by simp [hid]⟩
  have hget := get?_of_mem_nodup _ _ _ (uiToTaskMaster_keys_nodup providers models).1 hentry
  obtain ⟨before, after, hsplit, hafter⟩ :=
    split_of_mem_nodup ConfigTransformer.getProviderKey providers p hp hkeys
  have hconfig := config_providers_get?_last before after p models hafter
  rw [← hsplit] at hconfig
  rw [hprovider, hmodel]
  refine ⟨?_, ⟨_, hget, ConfigTransformer.toSupportedModel m, ?_, rfl, ?_⟩, ?_, ?_⟩
  · exact (mem_keys _ _).mpr (List.mem_map.mpr ⟨_, hentry, rfl⟩)
  · apply List.mem_map.mpr
    exact ⟨m, List.mem_filter.mpr ⟨hm, by simp [hid]⟩, rfl⟩
  · unfold ConfigTransformer.includesRole at hrole
    cases hroles : m.allowedRoles with
    | none => simp [hroles] at hrole
    | some roles =>
      simp only [hroles] at hrole
      simpa [ConfigTransformer.toSupportedModel, hroles] using hrole
  · cases hfind : (ConfigTransformer.uiToTaskMaster providers models).config.providers.entries.find?
        (fun e => e.1 = ConfigTransformer.getProviderKey p) with
    | none => simp [JsObject.get?, hfind] at hconfig
    | some e =>
      have he := List.mem_of_find?_eq_some hfind
      have hek : e.1 = ConfigTransformer.getProviderKey p := by simpa using List.find?_some hfind
      exact (mem_keys _ _).mpr (List.mem_map.mpr ⟨e, he, hek⟩)
  · rw [hconfig]
    rfl

/-- C28, instance: for the providers `acme` and `OpenAI` with the models `gptX` and `gptY`
of `acme`, the entry under `fallback` is `{provider: acme, model: gpt-y}`, and both
documents have the key `acme`. -/
theorem active_models_are_supported_witness :
    ([Sample.acme, Sample.openAI].map ConfigTransformer.getProviderKey).Nodup
    ∧ (ConfigTransformer.uiToTaskMaster [Sample.acme, Sample.openAI]
        [Sample.gptX, Sample.gptY]).config.models.get? "fallback"
      = some { provider := "acme", model := "gpt-y" }
    ∧ "acme" ∈ (ConfigTransformer.uiToTaskMaster [Sample.acme, Sample.openAI]
        [Sample.gptX, Sample.gptY]).supportedModels.keys
    ∧ (∃ group, (ConfigTransformer.uiToTaskMaster [Sample.acme, Sample.openAI]
          [Sample.gptX, Sample.gptY]).supportedModels.get? "acme" = some group
        ∧ ∃ entry ∈ group, entry.id = "gpt-y" ∧ "fallback" ∈ entry.allowed_roles)
    ∧ "acme" ∈ (ConfigTransformer.uiToTaskMaster [Sample.acme, Sample.openAI]
        [Sample.gptX, Sample.gptY]).config.providers.keys
    ∧ ((ConfigTransformer.uiToTaskMaster [Sample.acme, Sample.openAI]
        [Sample.gptX, Sample.gptY]).config.providers.get? "acme").isSome = true :=
  ⟨by decide, by decide,
    active_models_are_supported [Sample.acme, Sample.openAI] [Sample.gptX, Sample.gptY]
      (by decide) "fallback" { provider := "acme", model := "gpt-y" } (by decide)⟩

/-! ## Loading, exchange and clients -/

/-- The call `initializeProjectPath` leaves the blob, the providers and the models of the
store as they are. -/
theorem initializeProjectPath_frame (s : ConfigManager) :
    (s.initializeProjectPath).2.localStorage.config = s.localStorage.config
    ∧ (s.initializeProjectPath).2.providers = s.providers
    ∧ (s.initializeProjectPath).2.models = s.models := by
  unfold ConfigManager.initializeProjectPath ConfigManager.loadSavedProjectPath
  cases hpath : s.localStorage.projectPath with
  | none => exact ⟨rfl, rfl, rfl⟩
  | some savedPath =>
    by_cases hempty : savedPath = ""
    · simp [hempty]
    · simp only [hempty, if_false]
      split_ifs <;> exact ⟨rfl, rfl, rfl⟩

/-- The call `loadConfiguration` over a stored blob: the providers and models of the blob
when it has a provider, the default providers next to its models otherwise. -/
theorem loadConfiguration_of_blob (later : String) (t : ConfigManager) (blob : StoredConfig)
    (h : t.localStorage.config = some blob) :
    (t.loadConfiguration later).1 = .ok true
    ∧ (blob.providers ≠ [] →
        (t.loadConfiguration later).2.providers = blob.providers
        ∧ (t.loadConfiguration later).2.models = blob.models
        ∧ (t.loadConfiguration later).2.localStorage.config = some blob)
    ∧ (blob.providers = [] →
        (t.loadConfiguration later).2.providers = ConfigManager.defaultProviders
        ∧ (t.loadConfiguration later).2.models = blob.models
        ∧ (t.loadConfiguration later).2.localStorage.config
            = some { providers := ConfigManager.defaultProviders, models := blob.models,
                     lastUpdated := later }) := by
  have hframe := initializeProjectPath_frame t
  unfold ConfigManager.loadConfiguration
  generalize (t.initializeProjectPath).2 = t1 at hframe ⊢
  have hconfig : t1.localStorage.config = some blob := by rw [hframe.1]; exact h
  by_cases hempty : blob.providers = []
  · simp [hconfig, hempty, ConfigManager.loadDefaultProviders, ConfigManager.saveConfiguration]
  · simp [hconfig, hempty]

/-- The call `loadConfiguration` of a fresh store over a storage without blob: the default
providers and no model. -/
theorem loadConfiguration_of_none (later : String) (storage : LocalStorage)
    (h : storage.config = none) :
    ((ConfigManager.new storage).loadConfiguration later).1 = .ok true
    ∧ ((ConfigManager.new storage).loadConfiguration later).2.providers
        = ConfigManager.defaultProviders
    ∧ ((ConfigManager.new storage).loadConfiguration later).2.models = []
    ∧ ((ConfigManager.new storage).loadConfiguration later).2.localStorage.config
        = some { providers := ConfigManager.defaultProviders, models := [],
                 lastUpdated := later } := by
  have hframe := initializeProjectPath_frame (ConfigManager.new storage)
  unfold ConfigManager.loadConfiguration
  generalize ((ConfigManager.new storage).initializeProjectPath).2 = t1 at hframe ⊢
  have hconfig : t1.localStorage.config = none := by rw [hframe.1]; exact h
  have hproviders : t1.providers = [] := hframe.2.1
  have hmodels : t1.models = [] := hframe.2.2
  simp [hconfig, hproviders, hmodels, ConfigManager.loadDefaultProviders,
    ConfigManager.saveConfiguration]

/-- C29. Save/load round trip: `loadConfiguration` on a fresh `ConfigManager` over the
storage left by `saveConfiguration` returns `true`; when the saved providers list is
non-empty it restores exactly the saved providers and models and leaves the blob as saved;
when the saved providers list is empty it installs the three default providers OpenAI,
Anthropic and FoApi, each with an empty `apiKey` and `isValid` false, next to the saved
models, and persists them; so the saved providers and models are both restored if and only
if the saved providers list is non-empty. When nothing is stored it installs and persists
the three default providers and no model. -/
theorem save_load_round_trip (now later : String) (s : ConfigManager) (storage : LocalStorage) :
    ((ConfigManager.new (s.saveConfiguration now).localStorage).loadConfiguration later).1
      = .ok true
    ∧ (s.providers ≠ [] →
        ((ConfigManager.new (s.saveConfiguration now).localStorage).loadConfiguration
          later).2.providers = s.providers
        ∧ ((ConfigManager.new (s.saveConfiguration now).localStorage).loadConfiguration
          later).2.models = s.models
        ∧ ((ConfigManager.new (s.saveConfiguration now).localStorage).loadConfiguration
          later).2.localStorage.config
            = some { providers := s.providers, models := s.models, lastUpdated := now })
    ∧ (s.providers = [] →
        ((ConfigManager.new (s.saveConfiguration now).localStorage).loadConfiguration
          later).2.providers = ConfigManager.defaultProviders
        ∧ ((ConfigManager.new (s.saveConfiguration now).localStorage).loadConfiguration
          later).2.models = s.models
        ∧ ((ConfigManager.new (s.saveConfiguration now).localStorage).loadConfiguration
          later).2.localStorage.config
            = some { providers := ConfigManager.defaultProviders, models := s.models,
                     lastUpdated := later })
    ∧ ((((ConfigManager.new (s.saveConfiguration now).localStorage).loadConfiguration
          later).2.providers = s.providers
        ∧ ((ConfigManager.new (s.saveConfiguration now).localStorage).loadConfiguration
          later).2.models = s.models) ↔ s.providers ≠ [])
    ∧ (storage.config = none →
        ((ConfigManager.new storage).loadConfiguration later).1 = .ok true
        ∧ ((ConfigManager.new storage).loadConfiguration later).2.providers
            = ConfigManager.defaultProviders
        ∧ ((ConfigManager.new storage).loadConfiguration later).2.models = []
        ∧ ((ConfigManager.new storage).loadConfiguration later).2.localStorage.config
            = some { providers := ConfigManager.defaultProviders, models := [],
                     lastUpdated := later })
    ∧ ConfigManager.defaultProviders.map (fun p => (p.name, p.apiKey, p.isValid))
        = [("OpenAI", "", false), ("Anthropic", "", false), ("FoApi", "", false)] := by
  have hblob := loadConfiguration_of_blob later
    (ConfigManager.new (s.saveConfiguration now).localStorage)
    { providers := s.providers, models := s.models, lastUpdated := now } rfl
  refine ⟨hblob.1, hblob.2.1, hblob.2.2, ?_, loadConfiguration_of_none later storage,
    by decide⟩
  constructor
  · intro hrestored hempty
    have hdefault := (hblob.2.2 hempty).1
    rw [hrestored.1] at hdefault
    have hnil : ConfigManager.defaultProviders = [] := by rw [← hdefault]; exact hempty
    exact absurd hnil (by decide)
  · intro hne
    exact ⟨(hblob.2.1 hne).1, (hblob.2.1 hne).2.1⟩

/-- C29, instance: the sample store, which has two providers, is restored by
`loadConfiguration`; a store with the same models and no provider comes back with the three
default providers and the saved models; an empty storage gives the three default
providers. -/
theorem save_load_round_trip_witness :
    ((ConfigManager.new (Sample.store.saveConfiguration "t0").localStorage).loadConfiguration
        "t1").2.providers = [Sample.acme, Sample.openAI]
    ∧ ((ConfigManager.new (Sample.store.saveConfiguration "t0").localStorage).loadConfiguration
        "t1").2.models = [Sample.gptX, Sample.gpt4]
    ∧ ((ConfigManager.new
        (Sample.modelsOnlyStore.saveConfiguration "t0").localStorage).loadConfiguration
          "t1").2.localStorage.config
        = some { providers := ConfigManager.defaultProviders,
                 models := [Sample.gptX, Sample.gpt4], lastUpdated := "t1" }
    ∧ ((ConfigManager.new Sample.emptyStorage).loadConfiguration "t1").2.providers.map
        (fun p => p.id)
        = ["provider_openai_default", "provider_anthropic_default", "provider_foapi_default"] :=
  have h := save_load_round_trip "t0" "t1" Sample.store Sample.emptyStorage
  have hempty := save_load_round_trip "t0" "t1" Sample.modelsOnlyStore Sample.emptyStorage
  ⟨(h.2.1 (by decide)).1, (h.2.1 (by decide)).2.1, (hempty.2.2.1 (by decide)).2.2,
    by rw [(h.2.2.2.2.1 (by decide)).2.1]; decide⟩

/-- A failing `importConfiguration` hands back the store it was called on. -/
theorem importConfiguration_error_state (V : Validation) (now : String)
    (providers : List Provider) (models : List Model) (s : ConfigManager) (e : StoreError)
    (h : (s.importConfiguration V now providers models).1 = .error e) :
    s.importConfiguration V now providers models = (.error e, s) := by
  unfold ConfigManager.importConfiguration at h ⊢
  cases hp : ConfigManager.validateAllProviders V providers with
  | error e1 =>
    simp only [hp] at h ⊢
    rw [Except.error.injEq] at h
    rw [h]
  | ok u =>
    cases hm : ConfigManager.validateAllModels V models with
    | error e1 =>
      simp only [hp, hm] at h ⊢
      rw [Except.error.injEq] at h
      rw [h]
    | ok v =>
      simp only [hp, hm] at h
      cases h

/-- C24. The exchange never mutates the store on failure: `importFromTaskMaster` runs the
stages read, `validateTaskMasterConfig`, `taskMasterToUi`, `validateUiConfig` and
`importConfiguration`; when any of them fails the call fails with the error of that stage
and the store, providers and models included, is exactly what it was before the call, as it
is after every failing call; `exportToTaskMaster` leaves the store unchanged whether it
succeeds or fails. -/
theorem exchange_keeps_store_on_failure (V : Validation) (suffix : ℕ → String) (now : String)
    (selected : SelectedFiles) (picker : String → Except String Unit) (files : WrittenFiles)
    (s : ConfigManager) :
    (∀ e, (SaveConfig.importFromTaskMaster V suffix now selected s).1 = .error e →
      (SaveConfig.importFromTaskMaster V suffix now selected s).2 = s
      ∧ (SaveConfig.importFromTaskMaster V suffix now selected s).2.providers = s.providers
      ∧ (SaveConfig.importFromTaskMaster V suffix now selected s).2.models = s.models)
    ∧ (∀ e, SaveConfig.readTaskMasterFiles selected s = .error e →
        SaveConfig.importFromTaskMaster V suffix now selected s = (.error e, s))
    ∧ (∀ document, SaveConfig.readTaskMasterFiles selected s = .ok document →
        (ConfigTransformer.validateTaskMasterConfig document).isValid = false →
        SaveConfig.importFromTaskMaster V suffix now selected s
          = (.error (.taskMasterConfigInvalid
              (ConfigTransformer.validateTaskMasterConfig document).errors), s))
    ∧ (∀ document e, SaveConfig.readTaskMasterFiles selected s = .ok document →
        (ConfigTransformer.validateTaskMasterConfig document).isValid = true →
        ConfigTransformer.taskMasterToUi suffix document = .error e →
        SaveConfig.importFromTaskMaster V suffix now selected s = (.error (.typeError e), s))
    ∧ (∀ document ui, SaveConfig.readTaskMasterFiles selected s = .ok document →
        (ConfigTransformer.validateTaskMasterConfig document).isValid = true →
        ConfigTransformer.taskMasterToUi suffix document = .ok ui →
        (ConfigTransformer.validateUiConfig ui.providers ui.models).isValid = false →
        SaveConfig.importFromTaskMaster V suffix now selected s
          = (.error (.uiConfigInvalid
              (ConfigTransformer.validateUiConfig ui.providers ui.models).errors), s))
    ∧ (∀ document ui e, SaveConfig.readTaskMasterFiles selected s = .ok document →
        (ConfigTransformer.validateTaskMasterConfig document).isValid = true →
        ConfigTransformer.taskMasterToUi suffix document = .ok ui →
        (ConfigTransformer.validateUiConfig ui.providers ui.models).isValid = true →
        (s.importConfiguration V now ui.providers ui.models).1 = .error e →
        SaveConfig.importFromTaskMaster V suffix now selected s = (.error (.store e), s))
    ∧ (SaveConfig.exportToTaskMaster picker s files).2.1 = s
    ∧ (SaveConfig.exportToTaskMaster picker s files).2.1.providers = s.providers
    ∧ (SaveConfig.exportToTaskMaster picker s files).2.1.models = s.models := by
  have hread : ∀ e, SaveConfig.readTaskMasterFiles selected s = .error e →
      SaveConfig.importFromTaskMaster V suffix now selected s = (.error e, s) := by
    intro e h
    simp [SaveConfig.importFromTaskMaster, h]
  have hcheck : ∀ document, SaveConfig.readTaskMasterFiles selected s = .ok document →
      (ConfigTransformer.validateTaskMasterConfig document).isValid = false →
      SaveConfig.importFromTaskMaster V suffix now selected s
        = (.error (.taskMasterConfigInvalid
            (ConfigTransformer.validateTaskMasterConfig document).errors), s) := by
    intro document h hvalid
    simp [SaveConfig.importFromTaskMaster, h, hvalid]
  have hconvert : ∀ document e, SaveConfig.readTaskMasterFiles selected s = .ok document →
      (ConfigTransformer.validateTaskMasterConfig document).isValid = true →
      ConfigTransformer.taskMasterToUi suffix document = .error e →
      SaveConfig.importFromTaskMaster V suffix now selected s = (.error (.typeError e), s) := by
    intro document e h hvalid hui
    simp [SaveConfig.importFromTaskMaster, h, hvalid, hui]
  have hbatch : ∀ document ui, SaveConfig.readTaskMasterFiles selected s = .ok document →
      (ConfigTransformer.validateTaskMasterConfig document).isValid = true →
      ConfigTransformer.taskMasterToUi suffix document = .ok ui →
      (ConfigTransformer.validateUiConfig ui.providers ui.models).isValid = false →
      SaveConfig.importFromTaskMaster V suffix now selected s
        = (.error (.uiConfigInvalid
            (ConfigTransformer.validateUiConfig ui.providers ui.models).errors), s) := by
    intro document ui h hvalid hui hbad
    simp [SaveConfig.importFromTaskMaster, h, hvalid, hui, hbad]
  have hstore : ∀ document ui e, SaveConfig.readTaskMasterFiles selected s = .ok document →
      (ConfigTransformer.validateTaskMasterConfig document).isValid = true →
      ConfigTransformer.taskMasterToUi suffix document = .ok ui →
      (ConfigTransformer.validateUiConfig ui.providers ui.models).isValid = true →
      (s.importConfiguration V now ui.providers ui.models).1 = .error e →
      SaveConfig.importFromTaskMaster V suffix now selected s = (.error (.store e), s) := by
    intro document ui e h hvalid hui hgood himport
    have hfail := importConfiguration_error_state V now ui.providers ui.models s e himport
    simp [SaveConfig.importFromTaskMaster, h, hvalid, hui, hgood, hfail]
  have hstate : ∀ e, (SaveConfig.importFromTaskMaster V suffix now selected s).1 = .error e →
      (SaveConfig.importFromTaskMaster V suffix now selected s).2 = s := by
    intro e h
    cases hr : SaveConfig.readTaskMasterFiles selected s with
    | error e1 => rw [hread e1 hr]
    | ok document =>
      cases hv : (ConfigTransformer.validateTaskMasterConfig document).isValid with
      | false => rw [hcheck document hr hv]
      | true =>
        cases hu : ConfigTransformer.taskMasterToUi suffix document with
        | error e1 => rw [hconvert document e1 hr hv hu]
        | ok ui =>
          cases hb : (ConfigTransformer.validateUiConfig ui.providers ui.models).isValid with
          | false => rw [hbatch document ui hr hv hu hb]
          | true =>
            cases hi : (s.importConfiguration V now ui.providers ui.models).1 with
            | error e1 => rw [hstore document ui e1 hr hv hu hb hi]
            | ok b =>
              have hok : (SaveConfig.importFromTaskMaster V suffix now selected s).1
                  = .ok true := by
                simp only [SaveConfig.importFromTaskMaster, hr, hv, hu, hb]
                revert hi
                cases s.importConfiguration V now ui.providers ui.models with
                | mk outcome state =>
                  intro hi
                  simp only at hi
                  subst hi
                  rfl
              rw [hok] at h
              cases h
  have hexport : (SaveConfig.exportToTaskMaster picker s files).2.1 = s := by
    unfold SaveConfig.exportToTaskMaster
    simp only
    split_ifs
    · rfl
    · rfl
    · cases SaveConfig.saveToTaskMasterFiles picker
        (ConfigTransformer.uiToTaskMaster s.getProviders s.getModels) s files with
      | mk outcome written =>
        cases outcome <;> rfl
  refine ⟨fun e h => ⟨hstate e h, by rw [hstate e h], by rw [hstate e h]⟩, hread, hcheck,
    hconvert, hbatch, hstore, hexport, by rw [hexport], by rw [hexport]⟩

/-- C24, instance: an import into the sample store fails at each of the five stages in turn
(no valid project, an unreadable file, an entry without `id`, a provider without endpoint,
a provider that the validator of the store rejects) and leaves the store as it was; an import
that passes every stage succeeds; an export whose second save dialog is cancelled fails and
leaves the store as it was. -/
theorem exchange_keeps_store_on_failure_witness :
    (SaveConfig.importFromTaskMaster specValidation Sample.counterSuffix "t"
        Sample.goodSelection Sample.store).2 = Sample.store
    ∧ SaveConfig.importFromTaskMaster specValidation Sample.counterSuffix "t"
        Sample.unreadableSelection Sample.projectStore
      = (.error (.readFailed "config.json" "Unexpected end of JSON input"), Sample.projectStore)
    ∧ SaveConfig.importFromTaskMaster specValidation Sample.counterSuffix "t"
        Sample.invalidSelection Sample.projectStore
      = (.error (.taskMasterConfigInvalid ["Provider foapi, Model 1: ID is required"]),
          Sample.projectStore)
    ∧ (SaveConfig.importFromTaskMaster specValidation Sample.counterSuffix "t"
        Sample.unknownKeySelection Sample.projectStore).2 = Sample.projectStore
    ∧ (SaveConfig.importFromTaskMaster Sample.strictValidation Sample.counterSuffix "t"
        Sample.goodSelection Sample.projectStore).2 = Sample.projectStore
    ∧ (SaveConfig.importFromTaskMaster specValidation Sample.counterSuffix "t"
        Sample.goodSelection Sample.projectStore).1 = .ok true
    ∧ (SaveConfig.exportToTaskMaster Sample.cancellingPicker Sample.projectStore
        Sample.noFiles).1 = .error (.writeFailed "config.json" "用户取消了文件保存")
    ∧ (SaveConfig.exportToTaskMaster Sample.cancellingPicker Sample.projectStore
        Sample.noFiles).2.1 = Sample.projectStore :=
  ⟨((exchange_keeps_store_on_failure specValidation Sample.counterSuffix "t"
        Sample.goodSelection Sample.acceptingPicker Sample.noFiles Sample.store).1
      .projectNotValid (by decide)).1,
    (exchange_keeps_store_on_failure specValidation Sample.counterSuffix "t"
        Sample.unreadableSelection Sample.acceptingPicker Sample.noFiles
        Sample.projectStore).2.1
      (.readFailed "config.json" "Unexpected end of JSON input") (by decide),
    (exchange_keeps_store_on_failure specValidation Sample.counterSuffix "t"
        Sample.invalidSelection Sample.acceptingPicker Sample.noFiles
        Sample.projectStore).2.2.1
      { supportedModels :=
          some { entries := [("foapi", some [{ Sample.bareEntry with id := none }])] }
        config := some { models := none, providers := none } }
      (by decide) (by decide),
    ((exchange_keeps_store_on_failure specValidation Sample.counterSuffix "t"
        Sample.unknownKeySelection Sample.acceptingPicker Sample.noFiles
        Sample.projectStore).1
      (.uiConfigInvalid ["Provider 1: Endpoint is required"]) (by decide)).1,
    ((exchange_keeps_store_on_failure Sample.strictValidation Sample.counterSuffix "t"
        Sample.goodSelection Sample.acceptingPicker Sample.noFiles Sample.projectStore).1
      (.store (.invalidProvider "FoApi" ["rejected"])) (by decide)).1,
    by decide, by decide,
    (exchange_keeps_store_on_failure specValidation Sample.counterSuffix "t"
        Sample.goodSelection Sample.cancellingPicker Sample.noFiles
        Sample.projectStore).2.2.2.2.2.2.1⟩

/-- The method `endsWith` tells whether the search string is a suffix. -/
theorem endsWith_iff (s searchString : String) :
    AiProviders.endsWith s searchString = true ↔ searchString.data <:+ s.data := by
  unfold AiProviders.endsWith
  rw [beq_iff_eq]
  constructor
  · intro h
    rw [← h]
    exact List.drop_suffix _ _
  · rintro ⟨w, hw⟩
    rw [← hw, List.length_append, Nat.add_sub_cancel, List.drop_left]

/-- Before an appended `/v1`, the pattern matches exactly the runs of slashes. -/
theorem slashesThenV1_append :
    ∀ r : List Char,
      AiProviders.slashesThenV1 (r ++ ['/', 'v', '1']) = r.all (fun c => c == '/') := by
  intro r
  induction r with
  | nil => decide
  | cons c r ih =>
    by_cases hc : c = '/'
    · simp [AiProviders.slashesThenV1, hc, ih]
    · have hlen : r ++ ['/', 'v', '1'] ≠ ['1'] := by
        intro h
        have := congrArg List.length h
        simp at this
      simp [AiProviders.slashesThenV1, hc, hlen]

/-- The replacement, applied to a string with `/v1` appended, removes the trailing slashes
of the string and keeps one `/v1`. -/
theorem replaceSlashesV1_append :
    ∀ u : List Char, ∃ w k, u = w ++ List.replicate k '/' ∧ w.getLast? ≠ some '/'
      ∧ AiProviders.replaceSlashesV1 (u ++ ['/', 'v', '1']) = w ++ ['/', 'v', '1'] := by
  intro u
  induction u with
  | nil => exact ⟨[], 0, rfl, by simp, by decide⟩
  | cons c r ih =>
    obtain ⟨w, k, hsplit, hlast, hreplace⟩ := ih
    by_cases hall : c = '/' ∧ r.all (fun c => c == '/') = true
    · refine ⟨[], r.length + 1, ?_, by simp, ?_⟩
      · have hr : r = List.replicate r.length '/' := by
          apply List.eq_replicate_iff.mpr
          refine ⟨rfl, ?_⟩
          intro b hb
          have := List.all_eq_true.mp hall.2 b hb
          simpa using this
        rw [List.nil_append, List.replicate_succ, ← hr, hall.1]
      · simp [AiProviders.replaceSlashesV1, slashesThenV1_append, hall.1, hall.2]
    · refine ⟨c :: w, k, by rw [hsplit]; rfl, ?_, ?_⟩
      · cases w with
        | nil =>
          have hr : r.all (fun c => c == '/') = true := by
            rw [hsplit]
            simp
          have hc : c ≠ '/' := fun h => hall ⟨h, hr⟩
          simpa using hc
        | cons a w =>
          rw [List.getLast?_cons_cons]
          exact hlast
      · have hcond : ¬ (c = '/' ∧ AiProviders.slashesThenV1 (r ++ ['/', 'v', '1']) = true) := by
          rw [slashesThenV1_append]
          exact hall
        show (if c = '/' ∧ AiProviders.slashesThenV1 (r ++ ['/', 'v', '1']) = true then
              ['/', 'v', '1']
            else c :: AiProviders.replaceSlashesV1 (r ++ ['/', 'v', '1']))
          = c :: (w ++ ['/', 'v', '1'])
        rw [if_neg hcond, hreplace]

/-- A URL that does not end with `/v1` is normalised to itself without its trailing
slashes, followed by `/v1`. -/
theorem normalizedBaseURL_of_not_endsWith (u : String) (h : ¬ "/v1".data <:+ u.data) :
    ∃ w k, u.data = w ++ List.replicate k '/' ∧ w.getLast? ≠ some '/'
      ∧ (AiProviders.normalizedBaseURL u).data = w ++ "/v1".data := by
  have hends : AiProviders.endsWith u "/v1" = false := by
    cases hb : AiProviders.endsWith u "/v1" with
    | false => rfl
    | true => exact absurd ((endsWith_iff u "/v1").mp hb) h
  obtain ⟨w, k, hsplit, hlast, hreplace⟩ := replaceSlashesV1_append u.data
  refine ⟨w, k, hsplit, hlast, ?_⟩
  unfold AiProviders.normalizedBaseURL
  rw [hends]
  exact hreplace

/-- A URL that ends with `/v1` is normalised to itself. -/
theorem normalizedBaseURL_of_endsWith (u : String) (h : "/v1".data <:+ u.data) :
    AiProviders.normalizedBaseURL u = u := by
  unfold AiProviders.normalizedBaseURL
  rw [(endsWith_iff u "/v1").mpr h]
  rfl

/-- C30. Base-URL normalisation in the clients: `getClient` of each provider class, called
with a non-empty key, hands to the client the normalisation of the effective base URL (the
given URL, or the default of the class when none is given); for every effective base URL
`u` the normalised URL ends with `/v1`; it is `u` when `u` ends with `/v1`, and otherwise
`u` without its run of trailing slashes, followed by `/v1`; normalising a normalised URL
returns it unchanged; `https://x` and `https://x/` both give `https://x/v1`. -/
theorem getClient_baseURL (provider : AiProviders.ProviderClass) (key : String)
    (baseURL : Option String) (u : String) :
    (key ≠ "" →
      AiProviders.getClient provider (some key) baseURL
        = .ok { apiKey := key
                baseURL := AiProviders.normalizedBaseURL
                  (ConfigTransformer.orString baseURL provider.defaultBaseURL) })
    ∧ "/v1".data <:+ (AiProviders.normalizedBaseURL u).data
    ∧ ("/v1".data <:+ u.data → AiProviders.normalizedBaseURL u = u)
    ∧ (¬ "/v1".data <:+ u.data →
        ∃ w k, u.data = w ++ List.replicate k '/' ∧ w.getLast? ≠ some '/'
          ∧ (AiProviders.normalizedBaseURL u).data = w ++ "/v1".data)
    ∧ AiProviders.normalizedBaseURL (AiProviders.normalizedBaseURL u)
        = AiProviders.normalizedBaseURL u
    ∧ AiProviders.normalizedBaseURL "https://x" = "https://x/v1"
    ∧ AiProviders.normalizedBaseURL "https://x/" = "https://x/v1" := by
  have hends : "/v1".data <:+ (AiProviders.normalizedBaseURL u).data := by
    by_cases h : "/v1".data <:+ u.data
    · rw [normalizedBaseURL_of_endsWith u h]
      exact h
    · obtain ⟨w, k, _, _, hdata⟩ := normalizedBaseURL_of_not_endsWith u h
      rw [hdata]
      exact List.suffix_append _ _
  refine ⟨?_, hends, normalizedBaseURL_of_endsWith u, normalizedBaseURL_of_not_endsWith u,
    normalizedBaseURL_of_endsWith _ hends, by decide, by decide⟩
  intro hkey
  simp [AiProviders.getClient, hkey]

/-- C30, instance: the three classes, called with the key `k`: `t.js` with the URL
`https://x//` hands over `https://x/v1`; `openrouterai.js` without URL hands over its
default followed by `/v1`; `polo.js` without URL hands over its default, which ends with
`/v1`. -/
theorem getClient_baseURL_witness :
    AiProviders.getClient AiProviders.TProvider (some "k") (some "https://x//")
      = .ok { apiKey := "k", baseURL := "https://x/v1" }
    ∧ AiProviders.getClient AiProviders.OpenrouteraiProvider (some "k") none
      = .ok { apiKey := "k", baseURL := "https://openrouter.ai/api/v1" }
    ∧ AiProviders.normalizedBaseURL "https://poloai.top/v1" = "https://poloai.top/v1"
    ∧ (∃ w k, "https://x//".data = w ++ List.replicate k '/' ∧ w.getLast? ≠ some '/'
        ∧ (AiProviders.normalizedBaseURL "https://x//").data = w ++ "/v1".data) :=
  ⟨(getClient_baseURL AiProviders.TProvider "k" (some "https://x//") "https://x//").1
      (by decide),
    (getClient_baseURL AiProviders.OpenrouteraiProvider "k" none "https://x//").1 (by decide),
    (getClient_baseURL AiProviders.PoloAIProvider "k" none "https://poloai.top/v1").2.2.1
      (by decide),
    (getClient_baseURL AiProviders.TProvider "k" none "https://x//").2.2.2.1 (by decide)⟩

end UiConfig
